import Mathlib

/-!
Qualcomm APQ8064 interconnect fabric driver: bandwidth codec, arbitration tables, commit.

A shallow embedding of `drivers/interconnect/qcom/apq8064.c`.

Conventions of the embedding

* C unsigned integers are natural numbers; a conversion to a `w`-bit unsigned type is
  written `% 2 ^ w` at the place where C performs it (parameter passing, return,
  assignment).
* `unsigned long` is 32 bits wide on the SoC this driver targets and 64 bits wide on an
  LP64 build of the same source.  The width is the parameter `Abi`; every function with an
  `unsigned long` parameter converts its argument on entry.
* The `int` counts and indices of the driver (`num_mports`, `i`, `index`, ...) are
  non-negative in every table of the file and are natural numbers here.
* The tables `bwsum`, `arb`, `actarb` and the buffer `rpm_data` are reached through bare
  pointers, without a bounds check; they are total maps from index to value.
* `do_div` is not defined on a zero divisor; it returns `none` there, and so does every
  function that reaches such a division.  Statements about zero port counts take the
  division as a parameter (`apq8064_icc_set_div`), so that they hold whatever the macro
  does on a zero divisor.
-/

namespace Apq8064

/-! ## Machine model -/

/-- Data model of the build: the width of `unsigned long`. -/
inductive Abi where
  | ILP32
  | LP64
  deriving DecidableEq, Repr

/-- Width of `unsigned long` in bits (`BITS_PER_LONG` of the kernel). -/
def BITS_PER_LONG : Abi → Nat
  | .ILP32 => 32
  | .LP64 => 64

/-- Conversion of a value to `unsigned long`. -/
def to_ulong (abi : Abi) (x : Nat) : Nat := x % 2 ^ BITS_PER_LONG abi

/-! ## Bandwidth codec (`apq8064.c`, lines 1136-1178) -/

/-- `#define TIER_SHIFT 15`. -/
def TIER_SHIFT : Nat := 15

/-- `#define TIERMASK 1 << TIER_SHIFT`. -/
def TIERMASK : Nat := 1 <<< TIER_SHIFT

/-- `#define TIER_1 1 << TIER_SHIFT`. -/
def TIER_1 : Nat := 1 <<< TIER_SHIFT

/-- `#define TIER_2 0 << TIER_SHIFT`. -/
def TIER_2 : Nat := 0 <<< TIER_SHIFT

/-- `#define BWMASK 0x7FFF`. -/
def BWMASK : Nat := 0x7FFF

/-- `#define MAX_BW BWMASK`. -/
def MAX_BW : Nat := BWMASK

/-- `ROUNDED_BW_VAL_FROM_BYTES(bw)`:
`((((bw) >> 17) + 1) & TIERMASK ? MAX_BW : (((bw) >> 17) + 1))`; the macro body expands
`TIERMASK` to `1 << 15`, and `<<` binds tighter than `&`.  The argument is an
`unsigned long` already. -/
def ROUNDED_BW_VAL_FROM_BYTES (bw : Nat) : Nat :=
  if ((bw >>> 17) + 1) &&& TIERMASK ≠ 0 then MAX_BW else (bw >>> 17) + 1

/-- `BW_VAL_FROM_BYTES(bw)`: `((((bw) >> 17) & TIERMASK) ? MAX_BW : ((bw) >> 17))`. -/
def BW_VAL_FROM_BYTES (bw : Nat) : Nat :=
  if (bw >>> 17) &&& TIERMASK ≠ 0 then MAX_BW else bw >>> 17

/-- `static uint32_t msm_bus_set_bw_bytes(unsigned long bw)`. -/
def msm_bus_set_bw_bytes (abi : Abi) (bw : Nat) : Nat :=
  let bw := to_ulong abi bw
  (if (bw &&& 0x1FFFF) ≠ 0 ∧ (bw >>> 17) = 0 then ROUNDED_BW_VAL_FROM_BYTES bw
   else BW_VAL_FROM_BYTES bw) % 2 ^ 32

/-- `uint64_t msm_bus_get_bw_bytes(unsigned long val)`: `((val) & BWMASK) << 17`, computed
in `unsigned long`. -/
def msm_bus_get_bw_bytes (abi : Abi) (val : Nat) : Nat :=
  to_ulong abi ((to_ulong abi val &&& BWMASK) <<< 17) % 2 ^ 64

/-- `uint16_t msm_bus_get_bw(unsigned long val)`: `(val) & BWMASK`. -/
def msm_bus_get_bw (abi : Abi) (val : Nat) : Nat :=
  (to_ulong abi val &&& BWMASK) % 2 ^ 16

/-- `static uint16_t msm_bus_create_bw_tier_pair_bytes(uint8_t type, unsigned long bw)`:
`(((type) == 0 ? TIER_1 : TIER_2) | (msm_bus_set_bw_bytes(bw)))`. -/
def msm_bus_create_bw_tier_pair_bytes (abi : Abi) (type bw : Nat) : Nat :=
  ((if type % 2 ^ 8 = 0 then TIER_1 else TIER_2) ||| msm_bus_set_bw_bytes abi bw) % 2 ^ 16

/-- `uint16_t msm_bus_create_bw_tier_pair(uint8_t type, unsigned long bw)`:
`((type) == 0 ? TIER_1 : TIER_2) | ((bw) & BWMASK)`. -/
def msm_bus_create_bw_tier_pair (abi : Abi) (type bw : Nat) : Nat :=
  ((if type % 2 ^ 8 = 0 then TIER_1 else TIER_2) ||| (to_ulong abi bw &&& BWMASK)) % 2 ^ 16

/-- `#define GET_TIER(n) (((n) & TIERMASK) >> 15)`. -/
def GET_TIER (n : Nat) : Nat := (n &&& TIERMASK) >>> 15

/-! ## Data model (`apq8064.c`, lines 139-210) -/

/-- `struct apq8064_icc_node`.  A `NULL` array is the empty list, except for `tiers`, whose
being `NULL` the driver tests.  -/
structure apq8064_icc_node where
  name : String
  id : Nat
  buswidth : Nat
  mports : List Nat
  num_mports : Nat
  sports : List Nat
  num_sports : Nat
  tiers : Option (List Nat)
  num_tiers : Nat
  links : List Nat
  num_links : Nat
  rate : Nat

/-- `struct apq8064_icc_provider`: the fields the set and commit operations use. -/
structure apq8064_icc_provider where
  num_clks : Nat
  bwsum : Nat → Nat
  arb : Nat → Nat
  actarb : Nat → Nat
  rpm_id : Nat
  num_mports : Nat
  num_sports : Nat
  num_tieredslaves : Nat

/-- `#define IS_GW(n) (((n)->num_mports > 0) && ((n)->num_sports > 0))`. -/
def IS_GW (n : apq8064_icc_node) : Bool :=
  decide (n.num_mports > 0) && decide (n.num_sports > 0)

/-- `#define IS_MASTER(n) (((n)->num_mports > 0) && ((n)->num_sports == 0))`. -/
def IS_MASTER (n : apq8064_icc_node) : Bool :=
  decide (n.num_mports > 0) && decide (n.num_sports = 0)

/-- `#define IS_SLAVE(n) (((n)->num_mports == 0) && ((n)->num_sports > 0))`. -/
def IS_SLAVE (n : apq8064_icc_node) : Bool :=
  decide (n.num_mports = 0) && decide (n.num_sports > 0)

/-- Assignment `table[i] = v` through a pointer. -/
def store (table : Nat → Nat) (i v : Nat) : Nat → Nat :=
  fun k => if k = i then v else table k

/-- Read of element `i` of a `const int` array of a node. -/
def elem (a : List Nat) (i : Nat) : Nat := a.getD i 0

/-- Modelled from the spec: the kernel macro `do_div(n, base)`, which is not in this
file.  It replaces the 64-bit `n` by `n / base` for a 32-bit `base`.  What the macro does
with a zero `base` is said neither by this file nor by the spec (which only asks callers
not to pass a zero count); `none` stands for a division without a defined result.  What
is proved about zero counts is stated over `apq8064_icc_set_div`, which takes the division
as a parameter.  Every `base` of the driver is an `int` count or the `u16` bus width,
which the conversion to 32 bits leaves as it is. -/
def do_div (n base : Nat) : Option Nat :=
  if base = 0 then none else some (n / base)

/-- `INT_MAX` of the kernel. -/
def INT_MAX : Nat := 2 ^ 31 - 1

/-- Loop `for (k = start; k < start + count; k++) body`, stopping at the first fault. -/
def for_loop {σ : Type} (body : Nat → σ → Option σ) : Nat → Nat → σ → Option σ
  | 0, _, s => some s
  | count + 1, k, s => (body k s).bind (for_loop body count (k + 1))

/-! ## `apq8064_icc_set` (lines 1180-1276) -/

/-- The `continue` test of the inner loop of `apq8064_icc_set` (lines 1213-1215):
`IS_GW(src_fn) && i != j && (dst_fn->num_sports > 1)`. -/
def arb_skip (src_fn dst_fn : apq8064_icc_node) (i j : Nat) : Bool :=
  IS_GW src_fn && decide (i ≠ j) && decide (dst_fn.num_sports > 1)

/-- The value of `tieredbw` (lines 1230-1234): `sum_bw`, divided by the destination's
slave-port count when `!IS_GW(src_fn) || dst_fn->num_sports <= 1`. -/
def arb_tieredbw (src_fn dst_fn : apq8064_icc_node) (sum_bw : Nat) : Option Nat :=
  if !IS_GW src_fn || decide (dst_fn.num_sports ≤ 1) then do_div sum_bw dst_fn.num_sports
  else some sum_bw

/-- The table index of the inner loop (lines 1217-1221), for a `uint16_t dst_tier`:
`(dst_tier * fp->num_mports) + src_fn->mports[j]`. -/
def arb_index (num_mports : Nat) (src_fn dst_fn : apq8064_icc_node) (i j : Nat) : Nat :=
  (match dst_fn.tiers with
   | none => 1
   | some ts => elem ts i) % 2 ^ 16 * num_mports + elem src_fn.mports j

/-- Body of the inner loop of `apq8064_icc_set` for tier position `i` and source port `j`
(lines 1207-1242). -/
def apq8064_icc_set_arb_body (abi : Abi) (src_fn dst_fn : apq8064_icc_node) (sum_bw : Nat)
    (i j : Nat) (fp : apq8064_icc_provider) : Option apq8064_icc_provider :=
  if arb_skip src_fn dst_fn i j then
    some fp
  else
    let index := arb_index fp.num_mports src_fn dst_fn i j
    match dst_fn.tiers with
    | none => some fp
    | some _ =>
      let tier : Nat := 1
      (arb_tieredbw src_fn dst_fn sum_bw).bind fun tieredbw =>
        some { fp with
          arb := store fp.arb index (msm_bus_create_bw_tier_pair_bytes abi tier tieredbw)
          actarb := store fp.actarb index sum_bw }

/-- Body of the loop over the destination's slave ports (lines 1246-1252). -/
def apq8064_icc_set_bwsum_body (abi : Abi) (dst_fn : apq8064_icc_node) (sum_bw : Nat)
    (i : Nat) (fp : apq8064_icc_provider) : Option apq8064_icc_provider :=
  (do_div sum_bw dst_fn.num_sports).bind fun interleavedbw =>
    some { fp with
      bwsum := store fp.bwsum (elem dst_fn.sports i)
        (msm_bus_create_bw_tier_pair_bytes abi 0 interleavedbw % 2 ^ 16) }

/-- The two table passes of `apq8064_icc_set` (lines 1203-1252), from the per-port share
`sum_bw` that `do_div(sum_bw, src_fn->num_mports)` left. -/
def apq8064_icc_set_tables (abi : Abi) (src_fn dst_fn : apq8064_icc_node) (sum_bw : Nat)
    (fp : apq8064_icc_provider) : Option apq8064_icc_provider :=
  let ports := src_fn.num_mports
  let tiers := dst_fn.num_tiers
  (for_loop (fun i fp =>
      for_loop (fun j fp => apq8064_icc_set_arb_body abi src_fn dst_fn sum_bw i j fp)
        ports 0 fp) tiers 0 fp).bind fun fp =>
    let ports := dst_fn.num_sports
    for_loop (fun i fp => apq8064_icc_set_bwsum_body abi dst_fn sum_bw i fp) ports 0 fp

/-- What a call of `apq8064_icc_set` leaves behind: the provider tables, the source node
(its `rate`), the `clk_set_rate` calls issued (clock index, rate), the `dev_err` lines
(clock index, error) and the return value. -/
structure set_result where
  fp : apq8064_icc_provider
  src_fn : apq8064_icc_node
  clk_calls : List (Nat × Nat)
  dev_errs : List (Nat × Int)
  ret : Int

/-- The clock loop of `apq8064_icc_set` (lines 1263-1270): one `clk_set_rate` per bus
clock; a failure is logged and dropped. -/
def apq8064_icc_set_clks (clk_set_rate : Nat → Nat → Int) (rate : Nat) :
    Nat → Nat → List (Nat × Nat) × List (Nat × Int) → List (Nat × Nat) × List (Nat × Int)
  | 0, _, log => log
  | count + 1, i, log =>
    let ret := clk_set_rate i rate
    apq8064_icc_set_clks clk_set_rate rate count (i + 1)
      (log.1 ++ [(i, rate)], if ret ≠ 0 then log.2 ++ [(i, ret)] else log.2)

/-- `static int apq8064_icc_set(struct icc_node *src, struct icc_node *dst)`.

`sum_bw` and `max_peak_bw` are the 64-bit values of `icc_units_to_bps(agg_avg)` and
`icc_units_to_bps(agg_peak)` (bytes per second) after the provider's `aggregate` callback
ran over the node list; that callback and the unit macro are outside this file.
`clk_set_rate i rate` is the result of the clock framework for bus clock `i`. -/
def apq8064_icc_set (abi : Abi) (clk_set_rate : Nat → Nat → Int)
    (fp : apq8064_icc_provider) (src_fn dst_fn : apq8064_icc_node)
    (sum_bw max_peak_bw : Nat) : Option set_result :=
  (do_div sum_bw src_fn.num_mports).bind fun sum_bw =>
  (apq8064_icc_set_tables abi src_fn dst_fn sum_bw fp).bind fun fp =>
  let rate := max sum_bw max_peak_bw
  (do_div rate src_fn.buswidth).bind fun rate =>
  let rate := min (rate % 2 ^ 32) (INT_MAX % 2 ^ 32)
  if src_fn.rate = rate then
    some { fp := fp, src_fn := src_fn, clk_calls := [], dev_errs := [], ret := 0 }
  else
    let log := apq8064_icc_set_clks clk_set_rate rate fp.num_clks 0 ([], [])
    some { fp := fp, src_fn := { src_fn with rate := rate },
           clk_calls := log.1, dev_errs := log.2, ret := 0 }

/-! ## `apq8064_icc_commit` (lines 1323-1371) -/

/-- Power state tag of a resource-manager write (`QCOM_RPM_ACTIVE_STATE`,
`QCOM_RPM_SLEEP_STATE`). -/
inductive rpm_state where
  | ACTIVE
  | SLEEP
  deriving DecidableEq, Repr

/-- Read of a `uint16_t` table element. -/
def load16 (table : Nat → Nat) (i : Nat) : Nat := table i % 2 ^ 16

/-- The output cursor of `apq8064_icc_commit`: `index` and the buffer `rpm_data`. -/
structure commit_buf where
  index : Nat
  rpm_data : Nat → Nat

/-- Statement `rpm_data[index] = hi << 16 | lo; index++;` with a `uint32_t` buffer: the
two `uint16_t` operands are promoted, and the assignment keeps the low 32 bits. -/
def put_word (hi lo : Nat) (b : commit_buf) : commit_buf :=
  { index := b.index + 1
    rpm_data := store b.rpm_data b.index (((hi <<< 16) ||| lo) % 2 ^ 32) }

/-- Loop `for (; i < bound; i += 2) body`; returns the final `i` with the state.  The
first argument bounds the number of iterations; `bound` iterations always suffice. -/
def for_step2 {σ : Type} (body : Nat → σ → σ) : Nat → Nat → Nat → σ → Nat × σ
  | 0, i, _, s => (i, s)
  | fuel + 1, i, bound, s =>
    if i < bound then for_step2 body fuel (i + 2) bound (body i s) else (i, s)

/-- The packing part of `apq8064_icc_commit` (lines 1336-1357): the final `index` and
buffer. -/
def apq8064_icc_commit_pack (fp : apq8064_icc_provider) : commit_buf :=
  let b0 : commit_buf := { index := 0, rpm_data := fun _ => 0 }
  let r1 := for_step2
    (fun i b => put_word (load16 fp.bwsum (i + 1)) (load16 fp.bwsum i) b)
    (fp.num_sports - 1) 0 (fp.num_sports - 1) b0
  let r2 : Nat × commit_buf :=
    if fp.num_sports &&& 1 ≠ 0 then
      (1, put_word (load16 fp.arb 0) (load16 fp.bwsum r1.1) r1.2)
    else (0, r1.2)
  let r3 := for_step2
    (fun i b => put_word (load16 fp.arb (i + 1)) (load16 fp.arb i) b)
    (fp.num_tieredslaves * fp.num_mports) r2.1 (fp.num_tieredslaves * fp.num_mports) r2.2
  r3.2

/-- What a call of `apq8064_icc_commit` leaves behind: the word count, the cursor and
buffer, the resource-manager writes issued (state, resource, words, count) and the return
value. -/
structure commit_result where
  count : Nat
  buf : commit_buf
  writes : List (rpm_state × Nat × List Nat × Nat)
  ret : Int

/-- `static int apq8064_icc_commit(struct icc_provider *p)`.  `qcom_rpm_write` is the
result of the resource manager for a write. -/
def apq8064_icc_commit (qcom_rpm_write : rpm_state → Nat → List Nat → Nat → Int)
    (fp : apq8064_icc_provider) : commit_result :=
  let count := (fp.num_mports * fp.num_tieredslaves + fp.num_sports + 1) / 2
  let buf := apq8064_icc_commit_pack fp
  let words := (List.range count).map buf.rpm_data
  let ret := qcom_rpm_write .ACTIVE fp.rpm_id words count
  if ret ≠ 0 then
    { count := count, buf := buf, writes := [(.ACTIVE, fp.rpm_id, words, count)], ret := ret }
  else
    let ret := qcom_rpm_write .SLEEP fp.rpm_id words count
    { count := count, buf := buf,
      writes := [(.ACTIVE, fp.rpm_id, words, count), (.SLEEP, fp.rpm_id, words, count)],
      ret := ret }

/-- Half `p` of a word buffer read as a sequence of 16-bit halves, low half first. -/
def half16 (rpm_data : Nat → Nat) (p : Nat) : Nat :=
  if p % 2 = 0 then rpm_data (p / 2) % 2 ^ 16 else rpm_data (p / 2) >>> 16

/-! ## Concrete nodes and providers used as examples -/

/-- `afab_to_mfab` (lines 251-271). -/
def afab_to_mfab : apq8064_icc_node :=
  { name := "afab_to_mfab", id := 3, buswidth := 8, mports := [2, 3], num_mports := 2,
    sports := [3], num_sports := 1, tiers := none, num_tiers := 0, links := [5],
    num_links := 1, rate := 0 }

/-- `slv_ebi_ch0` (lines 290-308). -/
def slv_ebi_ch0 : apq8064_icc_node :=
  { name := "slv_ebi_ch0", id := 5, buswidth := 8, mports := [], num_mports := 0,
    sports := [0, 1], num_sports := 2, tiers := some [0, 1], num_tiers := 2, links := [],
    num_links := 0, rate := 0 }

/-- A provider with `m` master ports, `s` slave ports, `t` tiered slaves, two bus clocks
and tables filled with `fill`. -/
def mk_provider (m s t fill : Nat) : apq8064_icc_provider :=
  { num_clks := 2, bwsum := fun _ => fill, arb := fun _ => fill, actarb := fun _ => fill,
    rpm_id := 0, num_mports := m, num_sports := s, num_tieredslaves := t }

/-- A master with the single port `p`, as `mas_ampss_m0` (lines 218-232) for `p = 0`. -/
def master_node (p : Nat) : apq8064_icc_node :=
  { name := "mas", id := 1, buswidth := 8, mports := [p], num_mports := 1,
    sports := [], num_sports := 0, tiers := none, num_tiers := 0, links := [],
    num_links := 0, rate := 0 }

/-! ## The shipped topology tables (lines 218-1091) -/

/-- `struct apq8064_icc_desc`.  `rpm_id` is a constant of a header outside this file and
is kept by its name.  `nodes` holds the entries of the node array in source order; the
index macros of its designated initializers are in a header outside this file. -/
structure apq8064_icc_desc where
  rpm_id : String
  nodes : List apq8064_icc_node

/-- `mas_ampss_m0` (lines 220-232). -/
def mas_ampss_m0 : apq8064_icc_node :=
  { name := "mas_ampss_m0", id := 1, buswidth := 8,
    mports := [0], num_mports := 1,
    sports := [], num_sports := 0,
    tiers := none, num_tiers := 0,
    links := [], num_links := 0, rate := 0 }

/-- `mas_ampss_m1` (lines 236-248). -/
def mas_ampss_m1 : apq8064_icc_node :=
  { name := "mas_ampss_m1", id := 2, buswidth := 8,
    mports := [1], num_mports := 1,
    sports := [], num_sports := 0,
    tiers := none, num_tiers := 0,
    links := [], num_links := 0, rate := 0 }

/-- `afab_to_sfab` (lines 277-289). -/
def afab_to_sfab : apq8064_icc_node :=
  { name := "afab_to_sfab", id := 4, buswidth := 8,
    mports := [4, 5], num_mports := 2,
    sports := [4], num_sports := 1,
    tiers := none, num_tiers := 0,
    links := [], num_links := 0, rate := 0 }

/-- `slv_ebi_ch1` (lines 314-326). -/
def slv_ebi_ch1 : apq8064_icc_node :=
  { name := "slv_ebi_ch1", id := 6, buswidth := 8,
    mports := [], num_mports := 0,
    sports := [1], num_sports := 1,
    tiers := some [1], num_tiers := 1,
    links := [], num_links := 0, rate := 0 }

/-- `slv_ampss_l2` (lines 332-344). -/
def slv_ampss_l2 : apq8064_icc_node :=
  { name := "slv_ampss_l2", id := 7, buswidth := 8,
    mports := [], num_mports := 0,
    sports := [2], num_sports := 1,
    tiers := some [2], num_tiers := 1,
    links := [], num_links := 0, rate := 0 }

/-- `mas_mdp_p0` (lines 369-381). -/
def mas_mdp_p0 : apq8064_icc_node :=
  { name := "mas_mdp_p0", id := 8, buswidth := 8,
    mports := [0], num_mports := 1,
    sports := [], num_sports := 0,
    tiers := none, num_tiers := 0,
    links := [20], num_links := 1, rate := 0 }

/-- `mas_mdp_m1` (lines 385-397). -/
def mas_mdp_m1 : apq8064_icc_node :=
  { name := "mas_mdp_m1", id := 9, buswidth := 8,
    mports := [1], num_mports := 1,
    sports := [], num_sports := 0,
    tiers := none, num_tiers := 0,
    links := [], num_links := 0, rate := 0 }

/-- `mas_rot` (lines 401-413). -/
def mas_rot : apq8064_icc_node :=
  { name := "mas_rot", id := 10, buswidth := 8,
    mports := [2], num_mports := 1,
    sports := [], num_sports := 0,
    tiers := none, num_tiers := 0,
    links := [], num_links := 0, rate := 0 }

/-- `mas_gfx3d` (lines 417-429). -/
def mas_gfx3d : apq8064_icc_node :=
  { name := "mas_gfx3d", id := 11, buswidth := 8,
    mports := [3], num_mports := 1,
    sports := [], num_sports := 0,
    tiers := none, num_tiers := 0,
    links := [], num_links := 0, rate := 0 }

/-- `mas_gfx3d_p1` (lines 433-445). -/
def mas_gfx3d_p1 : apq8064_icc_node :=
  { name := "mas_gfx3d_p1", id := 12, buswidth := 8,
    mports := [4], num_mports := 1,
    sports := [], num_sports := 0,
    tiers := none, num_tiers := 0,
    links := [], num_links := 0, rate := 0 }

/-- `mas_jpeg` (lines 449-461). -/
def mas_jpeg : apq8064_icc_node :=
  { name := "mas_jpeg", id := 13, buswidth := 8,
    mports := [5], num_mports := 1,
    sports := [], num_sports := 0,
    tiers := none, num_tiers := 0,
    links := [], num_links := 0, rate := 0 }

/-- `mas_video_cap` (lines 465-477). -/
def mas_video_cap : apq8064_icc_node :=
  { name := "mas_video_cap", id := 14, buswidth := 8,
    mports := [6], num_mports := 1,
    sports := [], num_sports := 0,
    tiers := none, num_tiers := 0,
    links := [], num_links := 0, rate := 0 }

/-- `mas_video_enc` (lines 481-493). -/
def mas_video_enc : apq8064_icc_node :=
  { name := "mas_video_enc", id := 15, buswidth := 8,
    mports := [12], num_mports := 1,
    sports := [], num_sports := 0,
    tiers := none, num_tiers := 0,
    links := [], num_links := 0, rate := 0 }

/-- `mas_vfe` (lines 497-509). -/
def mas_vfe : apq8064_icc_node :=
  { name := "mas_vfe", id := 16, buswidth := 8,
    mports := [7], num_mports := 1,
    sports := [], num_sports := 0,
    tiers := none, num_tiers := 0,
    links := [], num_links := 0, rate := 0 }

/-- `mas_vpe` (lines 513-525). -/
def mas_vpe : apq8064_icc_node :=
  { name := "mas_vpe", id := 17, buswidth := 8,
    mports := [8], num_mports := 1,
    sports := [], num_sports := 0,
    tiers := none, num_tiers := 0,
    links := [], num_links := 0, rate := 0 }

/-- `mas_jpeg_enc` (lines 529-541). -/
def mas_jpeg_enc : apq8064_icc_node :=
  { name := "mas_jpeg_enc", id := 18, buswidth := 8,
    mports := [9], num_mports := 1,
    sports := [], num_sports := 0,
    tiers := none, num_tiers := 0,
    links := [], num_links := 0, rate := 0 }

/-- `mas_video_dec` (lines 545-557). -/
def mas_video_dec : apq8064_icc_node :=
  { name := "mas_video_dec", id := 19, buswidth := 8,
    mports := [10], num_mports := 1,
    sports := [], num_sports := 0,
    tiers := none, num_tiers := 0,
    links := [], num_links := 0, rate := 0 }

/-- `mfab_to_afab` (lines 570-582). -/
def mfab_to_afab : apq8064_icc_node :=
  { name := "mfab_to_afab", id := 20, buswidth := 8,
    mports := [11], num_mports := 1,
    sports := [1, 2], num_sports := 2,
    tiers := none, num_tiers := 0,
    links := [3], num_links := 1, rate := 0 }

/-- `slv_mm_imem` (lines 589-601). -/
def slv_mm_imem : apq8064_icc_node :=
  { name := "slv_mm_imem", id := 21, buswidth := 8,
    mports := [], num_mports := 0,
    sports := [0], num_sports := 1,
    tiers := some [0], num_tiers := 1,
    links := [], num_links := 0, rate := 0 }

/-- `mas_sps` (lines 629-641). -/
def mas_sps : apq8064_icc_node :=
  { name := "mas_sps", id := 22, buswidth := 8,
    mports := [1], num_mports := 1,
    sports := [], num_sports := 0,
    tiers := none, num_tiers := 0,
    links := [], num_links := 0, rate := 0 }

/-- `mas_adm_p0` (lines 645-657). -/
def mas_adm_p0 : apq8064_icc_node :=
  { name := "mas_adm_p0", id := 23, buswidth := 8,
    mports := [2], num_mports := 1,
    sports := [], num_sports := 0,
    tiers := none, num_tiers := 0,
    links := [], num_links := 0, rate := 0 }

/-- `mas_adm_p1` (lines 661-673). -/
def mas_adm_p1 : apq8064_icc_node :=
  { name := "mas_adm_p1", id := 24, buswidth := 8,
    mports := [3], num_mports := 1,
    sports := [], num_sports := 0,
    tiers := none, num_tiers := 0,
    links := [], num_links := 0, rate := 0 }

/-- `mas_lpass_proc` (lines 677-689). -/
def mas_lpass_proc : apq8064_icc_node :=
  { name := "mas_lpass_proc", id := 25, buswidth := 8,
    mports := [4], num_mports := 1,
    sports := [], num_sports := 0,
    tiers := none, num_tiers := 0,
    links := [], num_links := 0, rate := 0 }

/-- `mas_gss_nav` (lines 693-705). -/
def mas_gss_nav : apq8064_icc_node :=
  { name := "mas_gss_nav", id := 26, buswidth := 8,
    mports := [5], num_mports := 1,
    sports := [], num_sports := 0,
    tiers := none, num_tiers := 0,
    links := [], num_links := 0, rate := 0 }

/-- `mas_pcie` (lines 709-721). -/
def mas_pcie : apq8064_icc_node :=
  { name := "mas_pcie", id := 27, buswidth := 8,
    mports := [6], num_mports := 1,
    sports := [], num_sports := 0,
    tiers := none, num_tiers := 0,
    links := [], num_links := 0, rate := 0 }

/-- `mas_riva` (lines 725-737). -/
def mas_riva : apq8064_icc_node :=
  { name := "mas_riva", id := 28, buswidth := 8,
    mports := [7], num_mports := 1,
    sports := [], num_sports := 0,
    tiers := none, num_tiers := 0,
    links := [], num_links := 0, rate := 0 }

/-- `mas_sata` (lines 741-753). -/
def mas_sata : apq8064_icc_node :=
  { name := "mas_sata", id := 29, buswidth := 8,
    mports := [8], num_mports := 1,
    sports := [], num_sports := 0,
    tiers := none, num_tiers := 0,
    links := [], num_links := 0, rate := 0 }

/-- `mas_crypto` (lines 757-769). -/
def mas_crypto : apq8064_icc_node :=
  { name := "mas_crypto", id := 30, buswidth := 8,
    mports := [13], num_mports := 1,
    sports := [], num_sports := 0,
    tiers := none, num_tiers := 0,
    links := [], num_links := 0, rate := 0 }

/-- `mas_lpass` (lines 773-785). -/
def mas_lpass : apq8064_icc_node :=
  { name := "mas_lpass", id := 31, buswidth := 8,
    mports := [9], num_mports := 1,
    sports := [], num_sports := 0,
    tiers := none, num_tiers := 0,
    links := [], num_links := 0, rate := 0 }

/-- `mas_mmss_fpb` (lines 789-801). -/
def mas_mmss_fpb : apq8064_icc_node :=
  { name := "mas_mmss_fpb", id := 32, buswidth := 8,
    mports := [0], num_mports := 1,
    sports := [], num_sports := 0,
    tiers := none, num_tiers := 0,
    links := [], num_links := 0, rate := 0 }

/-- `mas_adm0_ci` (lines 805-817). -/
def mas_adm0_ci : apq8064_icc_node :=
  { name := "mas_adm0_ci", id := 33, buswidth := 8,
    mports := [13], num_mports := 1,
    sports := [], num_sports := 0,
    tiers := none, num_tiers := 0,
    links := [], num_links := 0, rate := 0 }

/-- `sfab_to_afab` (lines 826-838). -/
def sfab_to_afab : apq8064_icc_node :=
  { name := "sfab_to_afab", id := 34, buswidth := 8,
    mports := [0], num_mports := 1,
    sports := [0, 1], num_sports := 2,
    tiers := none, num_tiers := 0,
    links := [], num_links := 0, rate := 0 }

/-- `sfab_to_sys_fpb` (lines 844-856). -/
def sfab_to_sys_fpb : apq8064_icc_node :=
  { name := "sfab_to_sys_fpb", id := 35, buswidth := 8,
    mports := [11], num_mports := 1,
    sports := [10], num_sports := 1,
    tiers := none, num_tiers := 0,
    links := [], num_links := 0, rate := 0 }

/-- `sfab_to_cpss_fpb` (lines 862-874). -/
def sfab_to_cpss_fpb : apq8064_icc_node :=
  { name := "sfab_to_cpss_fpb", id := 36, buswidth := 8,
    mports := [10], num_mports := 1,
    sports := [9], num_sports := 1,
    tiers := none, num_tiers := 0,
    links := [], num_links := 0, rate := 0 }

/-- `slv_sps` (lines 897-909). -/
def slv_sps : apq8064_icc_node :=
  { name := "slv_sps", id := 37, buswidth := 8,
    mports := [], num_mports := 0,
    sports := [2], num_sports := 1,
    tiers := none, num_tiers := 0,
    links := [], num_links := 0, rate := 0 }

/-- `slv_sys_imem` (lines 915-927). -/
def slv_sys_imem : apq8064_icc_node :=
  { name := "slv_sys_imem", id := 38, buswidth := 8,
    mports := [], num_mports := 0,
    sports := [3], num_sports := 1,
    tiers := some [2], num_tiers := 1,
    links := [], num_links := 0, rate := 0 }

/-- `slv_coresight` (lines 931-943). -/
def slv_coresight : apq8064_icc_node :=
  { name := "slv_coresight", id := 39, buswidth := 8,
    mports := [], num_mports := 0,
    sports := [4], num_sports := 1,
    tiers := none, num_tiers := 0,
    links := [], num_links := 0, rate := 0 }

/-- `slv_pcie` (lines 947-959). -/
def slv_pcie : apq8064_icc_node :=
  { name := "slv_pcie", id := 40, buswidth := 8,
    mports := [], num_mports := 0,
    sports := [5], num_sports := 1,
    tiers := none, num_tiers := 0,
    links := [], num_links := 0, rate := 0 }

/-- `slv_crypto` (lines 963-975). -/
def slv_crypto : apq8064_icc_node :=
  { name := "slv_crypto", id := 41, buswidth := 8,
    mports := [], num_mports := 0,
    sports := [14], num_sports := 1,
    tiers := none, num_tiers := 0,
    links := [], num_links := 0, rate := 0 }

/-- `slv_riva` (lines 979-991). -/
def slv_riva : apq8064_icc_node :=
  { name := "slv_riva", id := 42, buswidth := 8,
    mports := [], num_mports := 0,
    sports := [12], num_sports := 1,
    tiers := none, num_tiers := 0,
    links := [], num_links := 0, rate := 0 }

/-- `slv_sata` (lines 995-1007). -/
def slv_sata : apq8064_icc_node :=
  { name := "slv_sata", id := 43, buswidth := 8,
    mports := [], num_mports := 0,
    sports := [13], num_sports := 1,
    tiers := none, num_tiers := 0,
    links := [], num_links := 0, rate := 0 }

/-- `slv_ampss` (lines 1011-1023). -/
def slv_ampss : apq8064_icc_node :=
  { name := "slv_ampss", id := 44, buswidth := 8,
    mports := [], num_mports := 0,
    sports := [6], num_sports := 1,
    tiers := none, num_tiers := 0,
    links := [], num_links := 0, rate := 0 }

/-- `slv_gss` (lines 1027-1039). -/
def slv_gss : apq8064_icc_node :=
  { name := "slv_gss", id := 45, buswidth := 8,
    mports := [], num_mports := 0,
    sports := [7], num_sports := 1,
    tiers := none, num_tiers := 0,
    links := [], num_links := 0, rate := 0 }

/-- `slv_lpass` (lines 1043-1055). -/
def slv_lpass : apq8064_icc_node :=
  { name := "slv_lpass", id := 46, buswidth := 8,
    mports := [], num_mports := 0,
    sports := [8], num_sports := 1,
    tiers := none, num_tiers := 0,
    links := [], num_links := 0, rate := 0 }

/-- `slv_mmss_fpb` (lines 880-892). -/
def slv_mmss_fpb : apq8064_icc_node :=
  { name := "slv_mmss_fpb", id := 47, buswidth := 8,
    mports := [12], num_mports := 1,
    sports := [11], num_sports := 1,
    tiers := none, num_tiers := 0,
    links := [], num_links := 0, rate := 0 }

/-- `apq8064_afab_nodes`. -/
def apq8064_afab_nodes : List apq8064_icc_node :=
  [mas_ampss_m0, mas_ampss_m1, afab_to_mfab, afab_to_sfab, slv_ebi_ch0, slv_ebi_ch1,
   slv_ampss_l2]

/-- `apq8064_afab`. -/
def apq8064_afab : apq8064_icc_desc :=
  { rpm_id := "QCOM_RPM_APPS_FABRIC_ARB", nodes := apq8064_afab_nodes }

/-- `apq8064_mfab_nodes`. -/
def apq8064_mfab_nodes : List apq8064_icc_node :=
  [mas_mdp_p0, mas_mdp_m1, mas_rot, mas_gfx3d, mas_gfx3d_p1, mas_jpeg,
   mas_video_cap, mas_video_enc, mas_vfe, mas_vpe, mas_jpeg_enc, mas_video_dec,
   mfab_to_afab, slv_mm_imem]

/-- `apq8064_mfab`. -/
def apq8064_mfab : apq8064_icc_desc :=
  { rpm_id := "QCOM_RPM_MM_FABRIC_ARB", nodes := apq8064_mfab_nodes }

/-- `apq8064_sfab_nodes`. -/
def apq8064_sfab_nodes : List apq8064_icc_node :=
  [mas_sps, mas_adm_p0, mas_adm_p1, mas_lpass_proc, mas_gss_nav, mas_pcie, mas_riva,
   mas_sata, mas_crypto, mas_lpass, mas_mmss_fpb, mas_adm0_ci, sfab_to_afab,
   sfab_to_sys_fpb, sfab_to_cpss_fpb, slv_sps, slv_sys_imem, slv_coresight,
   slv_pcie, slv_crypto, slv_riva, slv_sata, slv_ampss, slv_gss, slv_lpass,
   slv_mmss_fpb]

/-- `apq8064_sfab`. -/
def apq8064_sfab : apq8064_icc_desc :=
  { rpm_id := "QCOM_RPM_SYS_FABRIC_ARB", nodes := apq8064_sfab_nodes }

/-- All master-port indices of a descriptor, node by node. -/
def desc_mports (d : apq8064_icc_desc) : List Nat := (d.nodes.map (fun n => n.mports)).flatten

/-- All slave-port indices of a descriptor, node by node. -/
def desc_sports (d : apq8064_icc_desc) : List Nat := (d.nodes.map (fun n => n.sports)).flatten

/-- The nodes of a descriptor that list master port `p`, by name. -/
def mport_owners (d : apq8064_icc_desc) (p : Nat) : List String :=
  (d.nodes.filter (fun n => decide (p ∈ n.mports))).map (fun n => n.name)

/-- The nodes of a descriptor that list slave port `p`, by name. -/
def sport_owners (d : apq8064_icc_desc) (p : Nat) : List String :=
  (d.nodes.filter (fun n => decide (p ∈ n.sports))).map (fun n => n.name)

/-- The word count in the words of the spec: `ceil(n / 2)`, the least natural number
that is not below `n / 2`. -/
def spec_ceil_half (n : Nat) : Nat := ⌈(n : ℚ) / 2⌉₊

/-- The argument of the codec with its low 17 bits cleared. -/
def clear_low17 (bw : Nat) : Nat := (bw >>> 17) <<< 17

/-- The value that a pass of the tier loops leaves at an index it writes. -/
def arb_written (abi : Abi) (src_fn dst_fn : apq8064_icc_node) (sum_bw : Nat) (v : Nat) :
    Prop :=
  ∃ tb, arb_tieredbw src_fn dst_fn sum_bw = some tb ∧
    v = msm_bus_create_bw_tier_pair_bytes abi 1 tb

/-- The pair `(i, j)` of the tier loops writes index `idx`. -/
def arb_hits (num_mports : Nat) (src_fn dst_fn : apq8064_icc_node) (i j idx : Nat) : Prop :=
  dst_fn.tiers ≠ none ∧ arb_skip src_fn dst_fn i j = false ∧
    idx = arb_index num_mports src_fn dst_fn i j

/-- The value that the slave-port loop leaves at a slot it writes. -/
def bwsum_written (abi : Abi) (dst_fn : apq8064_icc_node) (sum_bw : Nat) (v : Nat) : Prop :=
  ∃ ib, do_div sum_bw dst_fn.num_sports = some ib ∧
    v = msm_bus_create_bw_tier_pair_bytes abi 0 ib % 2 ^ 16

/-! ## `apq8064_icc_probe`: capacities (lines 1469-1487) and table sizes (lines 1489-1499) -/

/-- The three capacities that `apq8064_icc_probe` derives from a descriptor. -/
structure probe_caps where
  num_mports : Nat
  num_sports : Nat
  num_tieredslaves : Nat
  deriving DecidableEq, Repr

/-- Loop `for (j = 0; j < n; j++) acc = max(acc, a[j]);`. -/
def max_loop (a : List Nat) (n : Nat) (acc : Nat) : Nat :=
  (List.range n).foldl (fun acc j => max acc (elem a j)) acc

/-- The three capacity loops of `apq8064_icc_probe` for one node (lines 1469-1480): the
loop for `num_tieredslaves` runs over `sports` and `num_sports`, as the loop for
`num_sports` does. -/
def apq8064_icc_probe_node (n : apq8064_icc_node) (c : probe_caps) : probe_caps :=
  { num_mports := max_loop n.mports n.num_mports c.num_mports
    num_sports := max_loop n.sports n.num_sports c.num_sports
    num_tieredslaves := max_loop n.sports n.num_sports c.num_tieredslaves }

/-- The capacities of `apq8064_icc_probe` (lines 1448-1487): zero in the fresh provider,
raised node by node, and incremented after the node loop.  The clocks, the resource
manager handle and the registration of the nodes are outside this computation. -/
def apq8064_icc_probe_caps (desc : apq8064_icc_desc) : probe_caps :=
  let c := desc.nodes.foldl (fun c n => apq8064_icc_probe_node n c)
    { num_mports := 0, num_sports := 0, num_tieredslaves := 0 }
  { num_mports := c.num_mports + 1
    num_sports := c.num_sports + 1
    num_tieredslaves := c.num_tieredslaves + 1 }

/-- `sizeof(uint16_t *)`: a pointer is as wide as `unsigned long`. -/
def sizeof_ptr (abi : Abi) : Nat := BITS_PER_LONG abi / 8

/-- The byte size that `apq8064_icc_probe` allocates for `arb` (line 1493):
`sizeof(uint16_t *) * (fp->num_tieredslaves * fp->num_mports) + 1`. -/
def probe_arb_bytes (abi : Abi) (num_tieredslaves num_mports : Nat) : Nat :=
  sizeof_ptr abi * (num_tieredslaves * num_mports) + 1

/-- The byte size that `apq8064_icc_probe` allocates for `bwsum` (line 1489):
`sizeof(uint16_t *) * fp->num_sports`. -/
def probe_bwsum_bytes (abi : Abi) (num_sports : Nat) : Nat :=
  sizeof_ptr abi * num_sports

/-- The highest value of a list, 0 for the empty list. -/
def highest (l : List Nat) : Nat := l.foldl max 0

/-- The tiered-slave capacity in the words of the spec: 1 + the highest slave-port index
among the nodes that declare tiers. -/
def spec_num_tieredslaves (d : apq8064_icc_desc) : Nat :=
  1 + highest ((d.nodes.filter (fun n => n.tiers.isSome)).map (fun n => n.sports)).flatten

/-- The identifiers of the nodes of a descriptor. -/
def desc_ids (d : apq8064_icc_desc) : List Nat := d.nodes.map (fun n => n.id)

/-- All link targets of a descriptor, node by node. -/
def desc_links (d : apq8064_icc_desc) : List Nat := (d.nodes.map (fun n => n.links)).flatten

/-! ## `apq8064_icc_commit` with its accesses recorded -/

/-- The packing part of `apq8064_icc_commit` together with a record of its accesses: the
indices of `rpm_data` written, of `bwsum` read and of `arb` read, each in program order. -/
structure commit_trace where
  buf : commit_buf
  writes : List Nat
  bwsum_reads : List Nat
  arb_reads : List Nat

/-- Statement `rpm_data[index] = hi << 16 | lo; index++;` where evaluating `hi` and `lo`
reads `bwsum` at the indices `rb` and `arb` at the indices `ra`. -/
def trace_word (hi lo : Nat) (rb ra : List Nat) (t : commit_trace) : commit_trace :=
  { buf := put_word hi lo t.buf
    writes := t.writes ++ [t.buf.index]
    bwsum_reads := t.bwsum_reads ++ rb
    arb_reads := t.arb_reads ++ ra }

/-- The packing part of `apq8064_icc_commit` (lines 1336-1357), statement for statement
as `apq8064_icc_commit_pack`, with the accesses recorded. -/
def apq8064_icc_commit_trace (fp : apq8064_icc_provider) : commit_trace :=
  let t0 : commit_trace :=
    { buf := { index := 0, rpm_data := fun _ => 0 }, writes := [], bwsum_reads := [],
      arb_reads := [] }
  let r1 := for_step2
    (fun i t => trace_word (load16 fp.bwsum (i + 1)) (load16 fp.bwsum i) [i + 1, i] [] t)
    (fp.num_sports - 1) 0 (fp.num_sports - 1) t0
  let r2 : Nat × commit_trace :=
    if fp.num_sports &&& 1 ≠ 0 then
      (1, trace_word (load16 fp.arb 0) (load16 fp.bwsum r1.1) [r1.1] [0] r1.2)
    else (0, r1.2)
  let r3 := for_step2
    (fun i t => trace_word (load16 fp.arb (i + 1)) (load16 fp.arb i) [] [i + 1, i] t)
    (fp.num_tieredslaves * fp.num_mports) r2.1 (fp.num_tieredslaves * fp.num_mports) r2.2
  r3.2

/-- For a descriptor with the capacities that `apq8064_icc_probe` derives from it: for
every pair of its nodes `src` (with a master port) and `dst`, every arbitration index
`dst.tiers[t] * num_mports + src.mports[j]` that `apq8064_icc_set` uses is the one of
`arb_index` and is below `num_tieredslaves * num_mports`, and every bandwidth-sum slot
`dst.sports[i]` is below `num_sports`. -/
def table_indices_in_range (d : apq8064_icc_desc) : Prop :=
  ∀ src ∈ d.nodes, ∀ dst ∈ d.nodes, 1 ≤ src.num_mports →
    (∀ t, t < dst.num_tiers → ∀ j, j < src.num_mports →
      arb_index (apq8064_icc_probe_caps d).num_mports src dst t j
        = elem (dst.tiers.getD []) t * (apq8064_icc_probe_caps d).num_mports
          + elem src.mports j ∧
      elem (dst.tiers.getD []) t * (apq8064_icc_probe_caps d).num_mports + elem src.mports j
        < (apq8064_icc_probe_caps d).num_tieredslaves
          * (apq8064_icc_probe_caps d).num_mports) ∧
    (∀ i, i < dst.num_sports → elem dst.sports i < (apq8064_icc_probe_caps d).num_sports)

/-! ## `apq8064_icc_set` with the division as a parameter

The same statements as above, lines 1200-1276, with every `do_div(n, base)` read as
`dv n base`: `none` when the division has no result, `some q` when it leaves `q` in `n`. -/

/-- The value of `tieredbw` (lines 1230-1234), dividing with `dv`. -/
def arb_tieredbw_div (dv : Nat → Nat → Option Nat) (src_fn dst_fn : apq8064_icc_node)
    (sum_bw : Nat) : Option Nat :=
  if !IS_GW src_fn || decide (dst_fn.num_sports ≤ 1) then dv sum_bw dst_fn.num_sports
  else some sum_bw

/-- Body of the inner loop of `apq8064_icc_set` (lines 1207-1242), dividing with `dv`. -/
def apq8064_icc_set_arb_body_div (dv : Nat → Nat → Option Nat) (abi : Abi)
    (src_fn dst_fn : apq8064_icc_node) (sum_bw : Nat)
    (i j : Nat) (fp : apq8064_icc_provider) : Option apq8064_icc_provider :=
  if arb_skip src_fn dst_fn i j then
    some fp
  else
    let index := arb_index fp.num_mports src_fn dst_fn i j
    match dst_fn.tiers with
    | none => some fp
    | some _ =>
      let tier : Nat := 1
      (arb_tieredbw_div dv src_fn dst_fn sum_bw).bind fun tieredbw =>
        some { fp with
          arb := store fp.arb index (msm_bus_create_bw_tier_pair_bytes abi tier tieredbw)
          actarb := store fp.actarb index sum_bw }

/-- Body of the loop over the destination's slave ports (lines 1246-1252), dividing with
`dv`. -/
def apq8064_icc_set_bwsum_body_div (dv : Nat → Nat → Option Nat) (abi : Abi)
    (dst_fn : apq8064_icc_node) (sum_bw : Nat)
    (i : Nat) (fp : apq8064_icc_provider) : Option apq8064_icc_provider :=
  (dv sum_bw dst_fn.num_sports).bind fun interleavedbw =>
    some { fp with
      bwsum := store fp.bwsum (elem dst_fn.sports i)
        (msm_bus_create_bw_tier_pair_bytes abi 0 interleavedbw % 2 ^ 16) }

/-- The two table passes of `apq8064_icc_set` (lines 1203-1252), dividing with `dv`. -/
def apq8064_icc_set_tables_div (dv : Nat → Nat → Option Nat) (abi : Abi)
    (src_fn dst_fn : apq8064_icc_node) (sum_bw : Nat)
    (fp : apq8064_icc_provider) : Option apq8064_icc_provider :=
  let ports := src_fn.num_mports
  let tiers := dst_fn.num_tiers
  (for_loop (fun i fp =>
      for_loop (fun j fp => apq8064_icc_set_arb_body_div dv abi src_fn dst_fn sum_bw i j fp)
        ports 0 fp) tiers 0 fp).bind fun fp =>
    let ports := dst_fn.num_sports
    for_loop (fun i fp => apq8064_icc_set_bwsum_body_div dv abi dst_fn sum_bw i fp) ports 0 fp

/-- The function `apq8064_icc_set` (lines 1180-1276), dividing with `dv`. -/
def apq8064_icc_set_div (dv : Nat → Nat → Option Nat) (abi : Abi)
    (clk_set_rate : Nat → Nat → Int)
    (fp : apq8064_icc_provider) (src_fn dst_fn : apq8064_icc_node)
    (sum_bw max_peak_bw : Nat) : Option set_result :=
  (dv sum_bw src_fn.num_mports).bind fun sum_bw =>
  (apq8064_icc_set_tables_div dv abi src_fn dst_fn sum_bw fp).bind fun fp =>
  let rate := max sum_bw max_peak_bw
  (dv rate src_fn.buswidth).bind fun rate =>
  let rate := min (rate % 2 ^ 32) (INT_MAX % 2 ^ 32)
  if src_fn.rate = rate then
    some { fp := fp, src_fn := src_fn, clk_calls := [], dev_errs := [], ret := 0 }
  else
    let log := apq8064_icc_set_clks clk_set_rate rate fp.num_clks 0 ([], [])
    some { fp := fp, src_fn := { src_fn with rate := rate },
           clk_calls := log.1, dev_errs := log.2, ret := 0 }

/-- Body of the loop over the destination's slave ports (lines 1246-1252), which also
appends the value of the local `interleavedbw` of the pass to a list. -/
def apq8064_icc_set_bwsum_body_shares (abi : Abi) (dst_fn : apq8064_icc_node)
    (sum_bw : Nat) (i : Nat) (st : apq8064_icc_provider × List Nat) :
    Option (apq8064_icc_provider × List Nat) :=
  (do_div sum_bw dst_fn.num_sports).bind fun interleavedbw =>
    some ({ st.1 with
      bwsum := store st.1.bwsum (elem dst_fn.sports i)
        (msm_bus_create_bw_tier_pair_bytes abi 0 interleavedbw % 2 ^ 16) },
      st.2 ++ [interleavedbw])

/-- The two table passes of `apq8064_icc_set` (lines 1203-1252), from the per-port share
`sum_bw`, with the list of the values that `interleavedbw` took in the passes of the
slave-port loop, in order. -/
def apq8064_icc_set_shares (abi : Abi) (src_fn dst_fn : apq8064_icc_node) (sum_bw : Nat)
    (fp : apq8064_icc_provider) : Option (apq8064_icc_provider × List Nat) :=
  let ports := src_fn.num_mports
  let tiers := dst_fn.num_tiers
  (for_loop (fun i fp =>
      for_loop (fun j fp => apq8064_icc_set_arb_body abi src_fn dst_fn sum_bw i j fp)
        ports 0 fp) tiers 0 fp).bind fun fp =>
    let ports := dst_fn.num_sports
    for_loop (fun i st => apq8064_icc_set_bwsum_body_shares abi dst_fn sum_bw i st) ports 0
      (fp, [])

/-! ## Arithmetic reading of the bit operations -/

theorem tiermask_val : TIERMASK = 32768 := by decide

theorem tier_1_val : TIER_1 = 32768 := by decide

theorem tier_2_val : TIER_2 = 0 := by decide

theorem bwmask_val : BWMASK = 32767 := by decide

theorem max_bw_val : MAX_BW = 32767 := by decide

theorem and_tiermask (x : Nat) : x &&& TIERMASK = x / 32768 % 2 * 32768 := by
  have h := Nat.and_two_pow x 15
  rw [Nat.toNat_testBit] at h
  rw [tiermask_val]
  simpa using h

theorem and_tiermask_ne_zero (x : Nat) : x &&& TIERMASK ≠ 0 ↔ x / 32768 % 2 = 1 := by
  rw [and_tiermask]
  omega

theorem and_bwmask (x : Nat) : x &&& BWMASK = x % 32768 := by
  rw [bwmask_val]
  exact Nat.and_pow_two_sub_one_eq_mod x 15

theorem and_low17 (x : Nat) : x &&& 0x1FFFF = x % 131072 :=
  Nat.and_pow_two_sub_one_eq_mod x 17

theorem shr17 (x : Nat) : x >>> 17 = x / 131072 := by
  rw [Nat.shiftRight_eq_div_pow]

theorem get_tier_eq (n : Nat) : GET_TIER n = n / 32768 % 2 := by
  unfold GET_TIER
  rw [and_tiermask, Nat.shiftRight_eq_div_pow]
  omega

theorem or_mod_two_pow (a b n : Nat) : (a ||| b) % 2 ^ n = a % 2 ^ n ||| b % 2 ^ n := by
  apply Nat.eq_of_testBit_eq
  intro i
  simp only [Nat.testBit_mod_two_pow, Nat.testBit_or]
  cases decide (i < n) <;> simp

theorem tier_1_or_bit (x : Nat) : (TIER_1 ||| x) / 32768 % 2 = 1 := by
  have h := Nat.toNat_testBit (TIER_1 ||| x) 15
  rw [Nat.testBit_or, tier_1_val] at h
  have h2 : Nat.testBit 32768 15 = true := by decide
  rw [h2] at h
  simpa using h.symm

theorem tier_1_or_low (x : Nat) : (TIER_1 ||| x) % 32768 = x % 32768 := by
  have h := or_mod_two_pow TIER_1 x 15
  rw [tier_1_val] at h
  simpa using h

theorem tier_2_or (x : Nat) : TIER_2 ||| x = x := by
  rw [tier_2_val]
  simp

theorem to_ulong_of_lt (abi : Abi) {x : Nat} (h : x < 2 ^ 32) : to_ulong abi x = x := by
  cases abi <;> simp only [to_ulong, BITS_PER_LONG] <;> omega

/-- Arithmetic form of the quantizer on a converted argument. -/
theorem set_bw_bytes_eq (abi : Abi) (bw : Nat) :
    msm_bus_set_bw_bytes abi bw =
      (if to_ulong abi bw % 131072 ≠ 0 ∧ to_ulong abi bw / 131072 = 0 then 1
       else if to_ulong abi bw / 131072 / 32768 % 2 = 1 then 32767
       else to_ulong abi bw / 131072) % 4294967296 := by
  simp only [msm_bus_set_bw_bytes, ROUNDED_BW_VAL_FROM_BYTES, BW_VAL_FROM_BYTES, and_low17,
    shr17, and_tiermask_ne_zero, max_bw_val]
  generalize to_ulong abi bw = b
  by_cases h : b % 131072 ≠ 0 ∧ b / 131072 = 0
  · rw [if_pos h, if_pos h, h.2]
    simp
  · rw [if_neg h, if_neg h]
    norm_num

/-- Below `2 ^ 32` bytes per second the quantizer is `1` on `(0, 2 ^ 17)` and the plain
shift elsewhere, for either width of `unsigned long`. -/
theorem set_bw_bytes_of_lt (abi : Abi) {bw : Nat} (h : bw < 2 ^ 32) :
    msm_bus_set_bw_bytes abi bw = if 0 < bw ∧ bw < 131072 then 1 else bw / 131072 := by
  rw [set_bw_bytes_eq, to_ulong_of_lt abi h]
  split_ifs <;> omega

theorem set_bw_bytes_le_of_lt (abi : Abi) {bw : Nat} (h : bw < 2 ^ 32) :
    msm_bus_set_bw_bytes abi bw ≤ 0x7FFF := by
  rw [set_bw_bytes_of_lt abi h]
  split_ifs <;> omega

/-- The quantizer never produces a value with bit 15 set. -/
theorem set_bw_bytes_bit15 (abi : Abi) (bw : Nat) :
    msm_bus_set_bw_bytes abi bw / 32768 % 2 = 0 := by
  rw [set_bw_bytes_eq]
  generalize to_ulong abi bw = b
  split_ifs <;> omega

/-- A word packed with type 1 is the quantized value, truncated to 16 bits. -/
theorem create_bytes_type1 (abi : Abi) (bw : Nat) :
    msm_bus_create_bw_tier_pair_bytes abi 1 bw = msm_bus_set_bw_bytes abi bw % 65536 := by
  simp [msm_bus_create_bw_tier_pair_bytes, tier_2_or]

theorem create_bytes_type1_tier (abi : Abi) (bw : Nat) :
    GET_TIER (msm_bus_create_bw_tier_pair_bytes abi 1 bw) = 0 := by
  rw [get_tier_eq, create_bytes_type1]
  have := set_bw_bytes_bit15 abi bw
  omega

theorem create_bytes_type0_tier (abi : Abi) (bw : Nat) :
    GET_TIER (msm_bus_create_bw_tier_pair_bytes abi 0 bw) = 1 := by
  rw [get_tier_eq]
  have h := tier_1_or_bit (msm_bus_set_bw_bytes abi bw)
  simp only [msm_bus_create_bw_tier_pair_bytes, Nat.zero_mod, if_true]
  omega

theorem create_bytes_lt (abi : Abi) (type bw : Nat) :
    msm_bus_create_bw_tier_pair_bytes abi type bw < 2 ^ 16 := by
  unfold msm_bus_create_bw_tier_pair_bytes
  exact Nat.mod_lt _ (by norm_num)

/-- Below `2 ^ 32` the 15-bit field of a packed word is the quantized value, whatever the
type. -/
theorem get_bw_create_bytes (abi : Abi) (type : Nat) {bw : Nat} (h : bw < 2 ^ 32) :
    msm_bus_get_bw abi (msm_bus_create_bw_tier_pair_bytes abi type bw)
      = msm_bus_set_bw_bytes abi bw := by
  have hle := set_bw_bytes_le_of_lt abi h
  have hlt := create_bytes_lt abi type bw
  unfold msm_bus_get_bw
  rw [and_bwmask, to_ulong_of_lt abi (by omega)]
  unfold msm_bus_create_bw_tier_pair_bytes
  by_cases ht : type % 2 ^ 8 = 0
  · rw [if_pos ht]
    have := tier_1_or_low (msm_bus_set_bw_bytes abi bw)
    omega
  · rw [if_neg ht, tier_2_or]
    omega

/-! ## The commit loops in closed form -/

theorem spec_ceil_half_eq (n : Nat) : spec_ceil_half n = (n + 1) / 2 := by
  unfold spec_ceil_half
  obtain ⟨k, hk | hk⟩ := Nat.even_or_odd' n
  · subst hk
    have h1 : ((2 * k : ℕ) : ℚ) / 2 = (k : ℚ) := by push_cast; ring
    rw [h1, Nat.ceil_natCast]
    omega
  · subst hk
    have h2 : (2 * k + 1 + 1) / 2 = k + 1 := by omega
    rw [h2, Nat.ceil_eq_iff (by omega)]
    constructor
    · have e : k + 1 - 1 = k := by omega
      rw [e]
      push_cast
      linarith
    · push_cast
      linarith

/-- The word `hi << 16 | lo` of two 16-bit values. -/
theorem word_of_halves {hi lo : Nat} (hhi : hi < 2 ^ 16) (hlo : lo < 2 ^ 16) :
    ((hi <<< 16) ||| lo) % 2 ^ 32 = hi * 65536 + lo := by
  have h := Nat.mul_add_lt_is_or hlo hi
  rw [Nat.shiftLeft_eq, Nat.mul_comm hi (2 ^ 16), ← h]
  omega

theorem load16_lt (table : Nat → Nat) (i : Nat) : load16 table i < 2 ^ 16 := by
  unfold load16
  exact Nat.mod_lt _ (by norm_num)

/-- A stride-2 loop of `put_word` statements: with enough iterations allowed, it leaves
the loop with `i` at or past the bound, having appended one word per iteration. -/
theorem for_step2_put_word (hi lo : Nat → Nat) (bound : Nat) :
    ∀ (fuel i : Nat) (b : commit_buf), (bound - i + 1) / 2 ≤ fuel →
      (for_step2 (fun i b => put_word (hi i) (lo i) b) fuel i bound b).1
          = i + 2 * ((bound - i + 1) / 2) ∧
      (for_step2 (fun i b => put_word (hi i) (lo i) b) fuel i bound b).2.index
          = b.index + (bound - i + 1) / 2 ∧
      ∀ p, (for_step2 (fun i b => put_word (hi i) (lo i) b) fuel i bound b).2.rpm_data p
          = if b.index ≤ p ∧ p < b.index + (bound - i + 1) / 2 then
              ((hi (i + 2 * (p - b.index)) <<< 16) ||| lo (i + 2 * (p - b.index))) % 2 ^ 32
            else b.rpm_data p := by
  intro fuel
  induction fuel with
  | zero =>
    intro i b hf
    have h0 : (bound - i + 1) / 2 = 0 := by omega
    refine ⟨by simp [for_step2, h0], by simp [for_step2, h0], ?_⟩
    intro p
    have c : ¬ (b.index ≤ p ∧ p < b.index + (bound - i + 1) / 2) := by omega
    rw [if_neg c]
    simp [for_step2]
  | succ fuel ih =>
    intro i b hf
    by_cases hlt : i < bound
    · have hstep : for_step2 (fun i b => put_word (hi i) (lo i) b) (fuel + 1) i bound b
          = for_step2 (fun i b => put_word (hi i) (lo i) b) fuel (i + 2) bound
              (put_word (hi i) (lo i) b) := by
        simp [for_step2, hlt]
      have hn : (bound - i + 1) / 2 = (bound - (i + 2) + 1) / 2 + 1 := by omega
      obtain ⟨h1, h2, h3⟩ := ih (i + 2) (put_word (hi i) (lo i) b) (by omega)
      rw [hstep]
      refine ⟨by omega, ?_, ?_⟩
      · rw [h2]
        simp only [put_word]
        omega
      · intro p
        rw [h3 p]
        simp only [put_word, store]
        by_cases hp : p = b.index
        · subst hp
          have c1 : ¬ (b.index + 1 ≤ b.index ∧
              b.index < b.index + 1 + (bound - (i + 2) + 1) / 2) := by omega
          have c2 : b.index ≤ b.index ∧ b.index < b.index + (bound - i + 1) / 2 := by omega
          rw [if_neg c1, if_pos c2]
          simp
        · by_cases hin : b.index + 1 ≤ p ∧ p < b.index + 1 + (bound - (i + 2) + 1) / 2
          · have c2 : b.index ≤ p ∧ p < b.index + (bound - i + 1) / 2 := by omega
            have e : i + 2 + 2 * (p - (b.index + 1)) = i + 2 * (p - b.index) := by omega
            rw [if_pos hin, if_pos c2, e]
          · have c2 : ¬ (b.index ≤ p ∧ p < b.index + (bound - i + 1) / 2) := by omega
            rw [if_neg hin, if_neg c2, if_neg hp]
    · have h0 : (bound - i + 1) / 2 = 0 := by omega
      refine ⟨by simp [for_step2, hlt, h0], by simp [for_step2, hlt, h0], ?_⟩
      intro p
      have c : ¬ (b.index ≤ p ∧ p < b.index + (bound - i + 1) / 2) := by omega
      rw [if_neg c]
      simp [for_step2, hlt]

/-- The buffer of the commit for an even slave-port count. -/
theorem commit_pack_even (fp : apq8064_icc_provider) (hS : fp.num_sports % 2 = 0) :
    (apq8064_icc_commit_pack fp).index
        = fp.num_sports / 2 + (fp.num_tieredslaves * fp.num_mports + 1) / 2 ∧
    ∀ p, (apq8064_icc_commit_pack fp).rpm_data p =
      if p < fp.num_sports / 2 then
        ((load16 fp.bwsum (2 * p + 1) <<< 16) ||| load16 fp.bwsum (2 * p)) % 2 ^ 32
      else if p < fp.num_sports / 2 + (fp.num_tieredslaves * fp.num_mports + 1) / 2 then
        ((load16 fp.arb (2 * (p - fp.num_sports / 2) + 1) <<< 16) |||
          load16 fp.arb (2 * (p - fp.num_sports / 2))) % 2 ^ 32
      else 0 := by
  have A1 := for_step2_put_word (fun i => load16 fp.bwsum (i + 1))
    (fun i => load16 fp.bwsum i) (fp.num_sports - 1) (fp.num_sports - 1) 0
    { index := 0, rpm_data := fun _ => 0 } (by omega)
  have hodd : ¬ (fp.num_sports &&& 1 ≠ 0) := by
    rw [Nat.and_one_is_mod]
    omega
  simp only [apq8064_icc_commit_pack, if_neg hodd]
  generalize for_step2 (fun i b => put_word (load16 fp.bwsum (i + 1)) (load16 fp.bwsum i) b)
    (fp.num_sports - 1) 0 (fp.num_sports - 1) { index := 0, rpm_data := fun _ => 0 } = r1
    at A1 ⊢
  obtain ⟨_, a2, a3⟩ := A1
  dsimp only at a2 a3
  obtain ⟨_, b2, b3⟩ := for_step2_put_word (fun i => load16 fp.arb (i + 1))
    (fun i => load16 fp.arb i) (fp.num_tieredslaves * fp.num_mports)
    (fp.num_tieredslaves * fp.num_mports) 0 r1.2 (by omega)
  have hn : (fp.num_sports - 1 - 0 + 1) / 2 = fp.num_sports / 2 := by omega
  rw [hn] at a2 a3
  refine ⟨by rw [b2, a2]; omega, ?_⟩
  intro p
  rw [b3 p, a2, a3 p]
  simp only [Nat.zero_add, Nat.sub_zero, Nat.zero_le, true_and]
  by_cases h1 : p < fp.num_sports / 2
  · have c : ¬ (fp.num_sports / 2 ≤ p ∧
        p < fp.num_sports / 2 + (fp.num_tieredslaves * fp.num_mports + 1) / 2) := by omega
    rw [if_neg c, if_pos h1, if_pos h1]
  · by_cases h2 : p < fp.num_sports / 2 + (fp.num_tieredslaves * fp.num_mports + 1) / 2
    · have c : fp.num_sports / 2 ≤ p ∧
          p < fp.num_sports / 2 + (fp.num_tieredslaves * fp.num_mports + 1) / 2 := by omega
      rw [if_pos c, if_neg h1, if_pos h2]
    · have c : ¬ (fp.num_sports / 2 ≤ p ∧
          p < fp.num_sports / 2 + (fp.num_tieredslaves * fp.num_mports + 1) / 2) := by omega
      rw [if_neg c, if_neg h1, if_neg h1, if_neg h2]

/-- The buffer of the commit for an odd slave-port count. -/
theorem commit_pack_odd (fp : apq8064_icc_provider) (hS : fp.num_sports % 2 = 1) :
    (apq8064_icc_commit_pack fp).index
        = fp.num_sports / 2 + 1 + (fp.num_tieredslaves * fp.num_mports) / 2 ∧
    ∀ p, (apq8064_icc_commit_pack fp).rpm_data p =
      if p < fp.num_sports / 2 then
        ((load16 fp.bwsum (2 * p + 1) <<< 16) ||| load16 fp.bwsum (2 * p)) % 2 ^ 32
      else if p = fp.num_sports / 2 then
        ((load16 fp.arb 0 <<< 16) ||| load16 fp.bwsum (fp.num_sports - 1)) % 2 ^ 32
      else if p < fp.num_sports / 2 + 1 + (fp.num_tieredslaves * fp.num_mports) / 2 then
        ((load16 fp.arb (1 + 2 * (p - (fp.num_sports / 2 + 1)) + 1) <<< 16) |||
          load16 fp.arb (1 + 2 * (p - (fp.num_sports / 2 + 1)))) % 2 ^ 32
      else 0 := by
  have A1 := for_step2_put_word (fun i => load16 fp.bwsum (i + 1))
    (fun i => load16 fp.bwsum i) (fp.num_sports - 1) (fp.num_sports - 1) 0
    { index := 0, rpm_data := fun _ => 0 } (by omega)
  have hodd : fp.num_sports &&& 1 ≠ 0 := by
    rw [Nat.and_one_is_mod]
    omega
  simp only [apq8064_icc_commit_pack, if_pos hodd]
  generalize for_step2 (fun i b => put_word (load16 fp.bwsum (i + 1)) (load16 fp.bwsum i) b)
    (fp.num_sports - 1) 0 (fp.num_sports - 1) { index := 0, rpm_data := fun _ => 0 } = r1
    at A1 ⊢
  obtain ⟨a1, a2, a3⟩ := A1
  dsimp only at a2 a3
  have hn : (fp.num_sports - 1 - 0 + 1) / 2 = fp.num_sports / 2 := by omega
  have hi1 : 0 + 2 * (fp.num_sports / 2) = fp.num_sports - 1 := by omega
  rw [hn] at a1 a2 a3
  rw [hi1] at a1
  have w1 : (put_word (load16 fp.arb 0) (load16 fp.bwsum r1.1) r1.2).index
      = fp.num_sports / 2 + 1 := by
    simp only [put_word]
    omega
  have w2 : ∀ p, (put_word (load16 fp.arb 0) (load16 fp.bwsum r1.1) r1.2).rpm_data p
      = if p = fp.num_sports / 2 then
          ((load16 fp.arb 0 <<< 16) ||| load16 fp.bwsum (fp.num_sports - 1)) % 2 ^ 32
        else r1.2.rpm_data p := by
    intro p
    simp only [put_word, store, a2, a1, Nat.zero_add]
  generalize put_word (load16 fp.arb 0) (load16 fp.bwsum r1.1) r1.2 = r2 at w1 w2 ⊢
  obtain ⟨_, b2, b3⟩ := for_step2_put_word (fun i => load16 fp.arb (i + 1))
    (fun i => load16 fp.arb i) (fp.num_tieredslaves * fp.num_mports)
    (fp.num_tieredslaves * fp.num_mports) 1 r2 (by omega)
  have hA : (fp.num_tieredslaves * fp.num_mports - 1 + 1) / 2
      = (fp.num_tieredslaves * fp.num_mports) / 2 := by omega
  rw [hA, w1] at b2 b3
  refine ⟨b2, ?_⟩
  intro p
  rw [b3 p, w2 p, a3 p]
  simp only [Nat.zero_add, Nat.sub_zero, Nat.zero_le, true_and]
  by_cases h1 : p < fp.num_sports / 2
  · have c : ¬ (fp.num_sports / 2 + 1 ≤ p ∧
        p < fp.num_sports / 2 + 1 + (fp.num_tieredslaves * fp.num_mports) / 2) := by omega
    have c2 : ¬ p = fp.num_sports / 2 := by omega
    rw [if_neg c, if_neg c2, if_pos h1, if_pos h1]
  · by_cases h2 : p = fp.num_sports / 2
    · have c : ¬ (fp.num_sports / 2 + 1 ≤ p ∧
          p < fp.num_sports / 2 + 1 + (fp.num_tieredslaves * fp.num_mports) / 2) := by omega
      rw [if_neg c, if_pos h2, if_neg h1, if_pos h2]
    · by_cases h3 : p < fp.num_sports / 2 + 1 + (fp.num_tieredslaves * fp.num_mports) / 2
      · have c : fp.num_sports / 2 + 1 ≤ p ∧
            p < fp.num_sports / 2 + 1 + (fp.num_tieredslaves * fp.num_mports) / 2 := by omega
        rw [if_pos c, if_neg h1, if_neg h2, if_pos h3]
      · have c : ¬ (fp.num_sports / 2 + 1 ≤ p ∧
            p < fp.num_sports / 2 + 1 + (fp.num_tieredslaves * fp.num_mports) / 2) := by
          omega
        rw [if_neg c, if_neg h2, if_neg h1, if_neg h1, if_neg h2, if_neg h3]

theorem half16_even {data : Nat → Nat} {p hi lo : Nat} (hp : p % 2 = 0)
    (hw : data (p / 2) = ((hi <<< 16) ||| lo) % 2 ^ 32) (hhi : hi < 2 ^ 16)
    (hlo : lo < 2 ^ 16) : half16 data p = lo := by
  unfold half16
  rw [if_pos hp, hw, word_of_halves hhi hlo]
  omega

theorem half16_odd {data : Nat → Nat} {p hi lo : Nat} (hp : p % 2 = 1)
    (hw : data (p / 2) = ((hi <<< 16) ||| lo) % 2 ^ 32) (hhi : hi < 2 ^ 16)
    (hlo : lo < 2 ^ 16) : half16 data p = hi := by
  unfold half16
  have hp2 : ¬ p % 2 = 0 := by omega
  rw [if_neg hp2, hw, word_of_halves hhi hlo, Nat.shiftRight_eq_div_pow]
  omega

theorem commit_buf_eq (qcom_rpm_write : rpm_state → Nat → List Nat → Nat → Int)
    (fp : apq8064_icc_provider) :
    (apq8064_icc_commit qcom_rpm_write fp).buf = apq8064_icc_commit_pack fp := by
  unfold apq8064_icc_commit
  dsimp only
  split_ifs <;> rfl

theorem commit_count_eq (qcom_rpm_write : rpm_state → Nat → List Nat → Nat → Int)
    (fp : apq8064_icc_provider) :
    (apq8064_icc_commit qcom_rpm_write fp).count
      = (fp.num_mports * fp.num_tieredslaves + fp.num_sports + 1) / 2 := by
  unfold apq8064_icc_commit
  dsimp only
  split_ifs <;> rfl

/-- The bandwidth-sum halves of the packed buffer. -/
theorem commit_pack_bwsum (fp : apq8064_icc_provider) (p : Nat) (hp : p < fp.num_sports) :
    half16 (apq8064_icc_commit_pack fp).rpm_data p = load16 fp.bwsum p := by
  have l1 := load16_lt fp.bwsum
  have l2 := load16_lt fp.arb
  rcases Nat.mod_two_eq_zero_or_one fp.num_sports with hS | hS
  · obtain ⟨_, hd⟩ := commit_pack_even fp hS
    have hw := hd (p / 2)
    rw [if_pos (by omega)] at hw
    rcases Nat.mod_two_eq_zero_or_one p with hp2 | hp2
    · have e : 2 * (p / 2) = p := by omega
      rw [half16_even hp2 hw (l1 _) (l1 _), e]
    · have e : 2 * (p / 2) + 1 = p := by omega
      rw [half16_odd hp2 hw (l1 _) (l1 _), e]
  · obtain ⟨_, hd⟩ := commit_pack_odd fp hS
    have hw := hd (p / 2)
    by_cases hlast : p / 2 < fp.num_sports / 2
    · rw [if_pos hlast] at hw
      rcases Nat.mod_two_eq_zero_or_one p with hp2 | hp2
      · have e : 2 * (p / 2) = p := by omega
        rw [half16_even hp2 hw (l1 _) (l1 _), e]
      · have e : 2 * (p / 2) + 1 = p := by omega
        rw [half16_odd hp2 hw (l1 _) (l1 _), e]
    · have e1 : p / 2 = fp.num_sports / 2 := by omega
      rw [if_neg hlast, if_pos e1] at hw
      have hp2 : p % 2 = 0 := by omega
      have e : fp.num_sports - 1 = p := by omega
      rw [half16_even hp2 hw (l2 _) (l1 _), e]

/-- The arbitration halves of the packed buffer. -/
theorem commit_pack_arb (fp : apq8064_icc_provider) (q : Nat)
    (hq : q < fp.num_tieredslaves * fp.num_mports) :
    half16 (apq8064_icc_commit_pack fp).rpm_data (fp.num_sports + q) = load16 fp.arb q := by
  have l1 := load16_lt fp.bwsum
  have l2 := load16_lt fp.arb
  rcases Nat.mod_two_eq_zero_or_one fp.num_sports with hS | hS
  · obtain ⟨_, hd⟩ := commit_pack_even fp hS
    have hw := hd ((fp.num_sports + q) / 2)
    rw [if_neg (by omega), if_pos (by omega)] at hw
    rcases Nat.mod_two_eq_zero_or_one q with hq2 | hq2
    · have e : 2 * ((fp.num_sports + q) / 2 - fp.num_sports / 2) = q := by omega
      rw [e] at hw
      rw [half16_even (by omega) hw (l2 _) (l2 _)]
    · have e : 2 * ((fp.num_sports + q) / 2 - fp.num_sports / 2) + 1 = q := by omega
      rw [e] at hw
      rw [half16_odd (by omega) hw (l2 _) (l2 _)]
  · obtain ⟨_, hd⟩ := commit_pack_odd fp hS
    have hw := hd ((fp.num_sports + q) / 2)
    by_cases h0 : q = 0
    · subst h0
      rw [if_neg (by omega), if_pos (by omega)] at hw
      rw [half16_odd (by omega) hw (l2 _) (l1 _)]
    · rw [if_neg (by omega), if_neg (by omega), if_pos (by omega)] at hw
      rcases Nat.mod_two_eq_zero_or_one q with hq2 | hq2
      · have e : 1 + 2 * ((fp.num_sports + q) / 2 - (fp.num_sports / 2 + 1)) + 1 = q := by
          omega
        rw [e] at hw
        rw [half16_odd (by omega) hw (l2 _) (l2 _)]
      · have e : 1 + 2 * ((fp.num_sports + q) / 2 - (fp.num_sports / 2 + 1)) = q := by omega
        rw [e] at hw
        rw [half16_even (by omega) hw (l2 _) (l2 _)]

/-! ## The table loops of `apq8064_icc_set` -/

/-- A counting loop whose body never faults on states of the invariant returns. -/
theorem for_loop_total {σ : Type} (inv : σ → Prop) (body : Nat → σ → Option σ)
    (hstep : ∀ m s, inv s → ∃ s', body m s = some s' ∧ inv s') :
    ∀ (n k : Nat) (s : σ), inv s → ∃ s', for_loop body n k s = some s' ∧ inv s' := by
  intro n
  induction n with
  | zero =>
    intro k s hs
    exact ⟨s, rfl, hs⟩
  | succ n ih =>
    intro k s hs
    obtain ⟨s1, h1, hs1⟩ := hstep k s hs
    obtain ⟨s2, h2, hs2⟩ := ih (k + 1) s1 hs1
    exact ⟨s2, by simp [for_loop, h1, h2], hs2⟩

/-- A counting loop over a state with a table `proj`: when iteration `m` leaves at index
`idx` a value satisfying `Q` if `P m idx`, and leaves the index alone otherwise, then
after the loop every index hit by some iteration satisfies `Q` and every index hit by
none is unchanged. -/
theorem for_loop_table {σ : Type} (proj : σ → Nat → Nat) (inv : σ → Prop)
    (body : Nat → σ → Option σ) (P : Nat → Nat → Prop) (Q : Nat → Prop)
    (hinv : ∀ m s s', inv s → body m s = some s' → inv s')
    (hhit : ∀ m s s' idx, inv s → body m s = some s' → P m idx → Q (proj s' idx))
    (hmiss : ∀ m s s' idx, inv s → body m s = some s' → ¬ P m idx →
      proj s' idx = proj s idx) :
    ∀ (n k : Nat) (s s' : σ), inv s → for_loop body n k s = some s' →
      inv s' ∧
      (∀ idx, (∃ m, k ≤ m ∧ m < k + n ∧ P m idx) → Q (proj s' idx)) ∧
      (∀ idx, (∀ m, k ≤ m → m < k + n → ¬ P m idx) → proj s' idx = proj s idx) := by
  intro n
  induction n with
  | zero =>
    intro k s s' hs h
    simp only [for_loop, Option.some.injEq] at h
    subst h
    refine ⟨hs, ?_, fun _ _ => rfl⟩
    rintro idx ⟨m, h1, h2, _⟩
    omega
  | succ n ih =>
    intro k s s' hs h
    simp only [for_loop] at h
    cases h1 : body k s with
    | none => simp [h1] at h
    | some s1 =>
      rw [h1] at h
      simp only [Option.some_bind] at h
      have hs1 := hinv k s s1 hs h1
      obtain ⟨hs', ihhit, ihmiss⟩ := ih (k + 1) s1 s' hs1 h
      refine ⟨hs', ?_, ?_⟩
      · rintro idx ⟨m, hm1, hm2, hm3⟩
        by_cases hlater : ∃ m, k + 1 ≤ m ∧ m < k + 1 + n ∧ P m idx
        · exact ihhit idx hlater
        · have hnone : ∀ m, k + 1 ≤ m → m < k + 1 + n → ¬ P m idx := by
            intro m' a b c
            exact hlater ⟨m', a, b, c⟩
          have hmk : m = k := by
            by_contra hne
            exact hnone m (by omega) (by omega) hm3
          subst hmk
          rw [ihmiss idx hnone]
          exact hhit m s s1 idx hs h1 hm3
      · intro idx hnone
        rw [ihmiss idx (fun m a b => hnone m (by omega) (by omega))]
        exact hmiss k s s1 idx hs h1 (hnone k (by omega) (by omega))

theorem do_div_some (n : Nat) {base : Nat} (h : base ≠ 0) :
    do_div n base = some (n / base) := by
  simp [do_div, h]

theorem arb_tieredbw_some (src_fn dst_fn : apq8064_icc_node) (sum_bw : Nat)
    (hk : dst_fn.num_sports ≠ 0) :
    arb_tieredbw src_fn dst_fn sum_bw
      = some (if !IS_GW src_fn || decide (dst_fn.num_sports ≤ 1) then
                sum_bw / dst_fn.num_sports else sum_bw) := by
  unfold arb_tieredbw
  split_ifs
  · exact do_div_some _ hk
  · rfl

/-- One pass of the inner loop body: it touches `arb` and `actarb` at the computed index
only, and only for a pair that is not skipped and a destination with tiers. -/
theorem arb_body_spec (abi : Abi) (src_fn dst_fn : apq8064_icc_node) (sum_bw i j : Nat)
    (s s' : apq8064_icc_provider)
    (h : apq8064_icc_set_arb_body abi src_fn dst_fn sum_bw i j s = some s') :
    s'.num_mports = s.num_mports ∧ s'.bwsum = s.bwsum ∧
    (∀ idx, (dst_fn.tiers ≠ none ∧ arb_skip src_fn dst_fn i j = false ∧
        idx = arb_index s.num_mports src_fn dst_fn i j) →
      (∃ tb, arb_tieredbw src_fn dst_fn sum_bw = some tb ∧
        s'.arb idx = msm_bus_create_bw_tier_pair_bytes abi 1 tb) ∧ s'.actarb idx = sum_bw) ∧
    (∀ idx, ¬ (dst_fn.tiers ≠ none ∧ arb_skip src_fn dst_fn i j = false ∧
        idx = arb_index s.num_mports src_fn dst_fn i j) →
      s'.arb idx = s.arb idx ∧ s'.actarb idx = s.actarb idx) := by
  unfold apq8064_icc_set_arb_body at h
  by_cases hskip : arb_skip src_fn dst_fn i j = true
  · rw [if_pos hskip] at h
    simp only [Option.some.injEq] at h
    subst h
    refine ⟨rfl, rfl, ?_, fun _ _ => ⟨rfl, rfl⟩⟩
    rintro idx ⟨_, h2, _⟩
    rw [hskip] at h2
    exact absurd h2 (by decide)
  · rw [if_neg hskip] at h
    cases ht : dst_fn.tiers with
    | none =>
      rw [ht] at h
      simp only [Option.some.injEq] at h
      subst h
      refine ⟨rfl, rfl, ?_, fun _ _ => ⟨rfl, rfl⟩⟩
      rintro idx ⟨h1, _, _⟩
      exact absurd rfl h1
    | some ts =>
      rw [ht] at h
      dsimp only at h
      cases htb : arb_tieredbw src_fn dst_fn sum_bw with
      | none => simp [htb] at h
      | some tb =>
        rw [htb] at h
        simp only [Option.some_bind, Option.some.injEq] at h
        subst h
        have hidx : arb_index s.num_mports src_fn dst_fn i j
            = (match (some ts : Option (List Nat)) with
               | none => 1
               | some ts => elem ts i) % 2 ^ 16 * s.num_mports + elem src_fn.mports j := by
          unfold arb_index
          rw [ht]
        refine ⟨rfl, rfl, ?_, ?_⟩
        · rintro idx ⟨_, _, h3⟩
          rw [h3, hidx]
          exact ⟨⟨tb, rfl, by simp [store]⟩, by simp [store]⟩
        · intro idx hn
          have hne : idx ≠ arb_index s.num_mports src_fn dst_fn i j := by
            intro he
            exact hn ⟨by simp, by simpa using hskip, he⟩
          simp only [store, if_neg hne, and_self]

/-- The nested tier loops: every index hit by a pair that is not skipped holds the packed
`tieredbw`, every other index of `arb` is unchanged, and `bwsum` and the port count are
unchanged. -/
theorem tier_loops_spec (abi : Abi) (src_fn dst_fn : apq8064_icc_node) (sum_bw : Nat)
    (fp fp1 : apq8064_icc_provider)
    (h : for_loop (fun i fp =>
        for_loop (fun j fp => apq8064_icc_set_arb_body abi src_fn dst_fn sum_bw i j fp)
          src_fn.num_mports 0 fp) dst_fn.num_tiers 0 fp = some fp1) :
    (fp1.num_mports = fp.num_mports ∧ fp1.bwsum = fp.bwsum) ∧
    (∀ idx, (∃ i, 0 ≤ i ∧ i < 0 + dst_fn.num_tiers ∧ ∃ j, 0 ≤ j ∧ j < 0 + src_fn.num_mports ∧
        arb_hits fp.num_mports src_fn dst_fn i j idx) →
      arb_written abi src_fn dst_fn sum_bw (fp1.arb idx)) ∧
    (∀ idx, (∀ i, 0 ≤ i → i < 0 + dst_fn.num_tiers →
        ¬ ∃ j, 0 ≤ j ∧ j < 0 + src_fn.num_mports ∧
          arb_hits fp.num_mports src_fn dst_fn i j idx) →
      fp1.arb idx = fp.arb idx) := by
  have inner : ∀ (i : Nat) (s s' : apq8064_icc_provider),
      (s.num_mports = fp.num_mports ∧ s.bwsum = fp.bwsum) →
      for_loop (fun j fp => apq8064_icc_set_arb_body abi src_fn dst_fn sum_bw i j fp)
        src_fn.num_mports 0 s = some s' →
      (s'.num_mports = fp.num_mports ∧ s'.bwsum = fp.bwsum) ∧
      (∀ idx, (∃ j, 0 ≤ j ∧ j < 0 + src_fn.num_mports ∧
          arb_hits fp.num_mports src_fn dst_fn i j idx) →
        arb_written abi src_fn dst_fn sum_bw (s'.arb idx)) ∧
      (∀ idx, (∀ j, 0 ≤ j → j < 0 + src_fn.num_mports →
          ¬ arb_hits fp.num_mports src_fn dst_fn i j idx) → s'.arb idx = s.arb idx) := by
    intro i
    apply for_loop_table (fun s => s.arb)
      (fun s => s.num_mports = fp.num_mports ∧ s.bwsum = fp.bwsum)
      (fun j fp => apq8064_icc_set_arb_body abi src_fn dst_fn sum_bw i j fp)
      (fun j idx => arb_hits fp.num_mports src_fn dst_fn i j idx)
      (arb_written abi src_fn dst_fn sum_bw)
    · intro m s s' hs hb
      obtain ⟨a, b, _, _⟩ := arb_body_spec abi src_fn dst_fn sum_bw i m s s' hb
      exact ⟨a.trans hs.1, b.trans hs.2⟩
    · intro m s s' idx hs hb hP
      obtain ⟨_, _, c, _⟩ := arb_body_spec abi src_fn dst_fn sum_bw i m s s' hb
      rw [← hs.1] at hP
      obtain ⟨⟨tb, h1, h2⟩, _⟩ := c idx hP
      exact ⟨tb, h1, h2⟩
    · intro m s s' idx hs hb hP
      obtain ⟨_, _, _, d⟩ := arb_body_spec abi src_fn dst_fn sum_bw i m s s' hb
      rw [← hs.1] at hP
      exact (d idx hP).1
  apply for_loop_table (fun s => s.arb)
    (fun s => s.num_mports = fp.num_mports ∧ s.bwsum = fp.bwsum)
    (fun i fp =>
      for_loop (fun j fp => apq8064_icc_set_arb_body abi src_fn dst_fn sum_bw i j fp)
        src_fn.num_mports 0 fp)
    (fun i idx => ∃ j, 0 ≤ j ∧ j < 0 + src_fn.num_mports ∧
      arb_hits fp.num_mports src_fn dst_fn i j idx)
    (arb_written abi src_fn dst_fn sum_bw) ?_ ?_ ?_ dst_fn.num_tiers 0 fp fp1 ⟨rfl, rfl⟩ h
  · intro m s s' hs hb
    exact (inner m s s' hs hb).1
  · intro m s s' idx hs hb hP
    exact (inner m s s' hs hb).2.1 idx hP
  · intro m s s' idx hs hb hP
    apply (inner m s s' hs hb).2.2 idx
    intro j a b c
    exact hP ⟨j, a, b, c⟩

theorem bwsum_body_spec (abi : Abi) (dst_fn : apq8064_icc_node) (sum_bw i : Nat)
    (s s' : apq8064_icc_provider)
    (h : apq8064_icc_set_bwsum_body abi dst_fn sum_bw i s = some s') :
    (s'.arb = s.arb ∧ s'.actarb = s.actarb) ∧
    (∀ idx, idx = elem dst_fn.sports i → bwsum_written abi dst_fn sum_bw (s'.bwsum idx)) ∧
    (∀ idx, ¬ idx = elem dst_fn.sports i → s'.bwsum idx = s.bwsum idx) := by
  unfold apq8064_icc_set_bwsum_body at h
  cases hd : do_div sum_bw dst_fn.num_sports with
  | none => simp [hd] at h
  | some ib =>
    rw [hd] at h
    simp only [Option.some_bind, Option.some.injEq] at h
    subst h
    refine ⟨⟨rfl, rfl⟩, ?_, ?_⟩
    · intro idx hi
      exact ⟨ib, hd, by simp [store, hi]⟩
    · intro idx hi
      simp only [store, if_neg hi]

/-- The slave-port loop: every slot of a slave port of the destination holds the packed
share, every other slot of `bwsum` is unchanged, and `arb` and `actarb` are unchanged. -/
theorem bwsum_loop_spec (abi : Abi) (dst_fn : apq8064_icc_node) (sum_bw : Nat)
    (fp1 fp2 : apq8064_icc_provider)
    (h : for_loop (fun i fp => apq8064_icc_set_bwsum_body abi dst_fn sum_bw i fp)
      dst_fn.num_sports 0 fp1 = some fp2) :
    (fp2.arb = fp1.arb ∧ fp2.actarb = fp1.actarb) ∧
    (∀ idx, (∃ i, 0 ≤ i ∧ i < 0 + dst_fn.num_sports ∧ idx = elem dst_fn.sports i) →
      bwsum_written abi dst_fn sum_bw (fp2.bwsum idx)) ∧
    (∀ idx, (∀ i, 0 ≤ i → i < 0 + dst_fn.num_sports → ¬ idx = elem dst_fn.sports i) →
      fp2.bwsum idx = fp1.bwsum idx) := by
  apply for_loop_table (fun s => s.bwsum)
    (fun s => s.arb = fp1.arb ∧ s.actarb = fp1.actarb)
    (fun i fp => apq8064_icc_set_bwsum_body abi dst_fn sum_bw i fp)
    (fun i idx => idx = elem dst_fn.sports i)
    (bwsum_written abi dst_fn sum_bw) ?_ ?_ ?_ dst_fn.num_sports 0 fp1 fp2 ⟨rfl, rfl⟩ h
  · intro m s s' hs hb
    obtain ⟨a, _, _⟩ := bwsum_body_spec abi dst_fn sum_bw m s s' hb
    exact ⟨a.1.trans hs.1, a.2.trans hs.2⟩
  · intro m s s' idx _ hb hP
    exact (bwsum_body_spec abi dst_fn sum_bw m s s' hb).2.1 idx hP
  · intro m s s' idx _ hb hP
    exact (bwsum_body_spec abi dst_fn sum_bw m s s' hb).2.2 idx hP

/-- The two table passes together. -/
theorem set_tables_spec (abi : Abi) (src_fn dst_fn : apq8064_icc_node) (sum_bw : Nat)
    (fp fp2 : apq8064_icc_provider)
    (h : apq8064_icc_set_tables abi src_fn dst_fn sum_bw fp = some fp2) :
    (∀ idx, (∃ i, i < dst_fn.num_tiers ∧ ∃ j, j < src_fn.num_mports ∧
        arb_hits fp.num_mports src_fn dst_fn i j idx) →
      arb_written abi src_fn dst_fn sum_bw (fp2.arb idx)) ∧
    (∀ idx, (∀ i j, i < dst_fn.num_tiers → j < src_fn.num_mports →
        ¬ arb_hits fp.num_mports src_fn dst_fn i j idx) → fp2.arb idx = fp.arb idx) ∧
    (∀ idx, (∃ i, i < dst_fn.num_sports ∧ idx = elem dst_fn.sports i) →
      bwsum_written abi dst_fn sum_bw (fp2.bwsum idx)) ∧
    (∀ idx, (∀ i, i < dst_fn.num_sports → ¬ idx = elem dst_fn.sports i) →
      fp2.bwsum idx = fp.bwsum idx) := by
  unfold apq8064_icc_set_tables at h
  dsimp only at h
  cases h1 : for_loop (fun i fp =>
      for_loop (fun j fp => apq8064_icc_set_arb_body abi src_fn dst_fn sum_bw i j fp)
        src_fn.num_mports 0 fp) dst_fn.num_tiers 0 fp with
  | none => simp [h1] at h
  | some fp1 =>
    rw [h1] at h
    simp only [Option.some_bind] at h
    obtain ⟨⟨_, t2⟩, t3, t4⟩ := tier_loops_spec abi src_fn dst_fn sum_bw fp fp1 h1
    obtain ⟨⟨b1, _⟩, b3, b4⟩ := bwsum_loop_spec abi dst_fn sum_bw fp1 fp2 h
    refine ⟨?_, ?_, ?_, ?_⟩
    · rintro idx ⟨i, hi, j, hj, hh⟩
      rw [b1]
      exact t3 idx ⟨i, Nat.zero_le _, by omega, j, Nat.zero_le _, by omega, hh⟩
    · intro idx hn
      rw [b1]
      apply t4 idx
      rintro i _ hi ⟨j, _, hj, hh⟩
      exact hn i j (by omega) (by omega) hh
    · rintro idx ⟨i, hi, he⟩
      exact b3 idx ⟨i, Nat.zero_le _, by omega, he⟩
    · intro idx hn
      rw [b4 idx (fun i _ hi => hn i (by omega)), t2]

/-- With a destination that has a slave port, the table passes return. -/
theorem set_tables_total (abi : Abi) (src_fn dst_fn : apq8064_icc_node) (sum_bw : Nat)
    (fp : apq8064_icc_provider) (hk : dst_fn.num_sports ≠ 0) :
    ∃ fp2, apq8064_icc_set_tables abi src_fn dst_fn sum_bw fp = some fp2 := by
  have hbody : ∀ i j (s : apq8064_icc_provider), True →
      ∃ s', apq8064_icc_set_arb_body abi src_fn dst_fn sum_bw i j s = some s' ∧ True := by
    intro i j s _
    unfold apq8064_icc_set_arb_body
    rw [arb_tieredbw_some src_fn dst_fn sum_bw hk]
    by_cases hskip : arb_skip src_fn dst_fn i j = true
    · rw [if_pos hskip]
      exact ⟨_, rfl, trivial⟩
    · rw [if_neg hskip]
      cases dst_fn.tiers with
      | none => exact ⟨_, rfl, trivial⟩
      | some ts => exact ⟨_, rfl, trivial⟩
  obtain ⟨fp1, h1, _⟩ := for_loop_total (fun _ => True)
    (fun i fp =>
      for_loop (fun j fp => apq8064_icc_set_arb_body abi src_fn dst_fn sum_bw i j fp)
        src_fn.num_mports 0 fp)
    (fun i s hs => for_loop_total (fun _ => True)
      (fun j fp => apq8064_icc_set_arb_body abi src_fn dst_fn sum_bw i j fp)
      (hbody i) src_fn.num_mports 0 s hs)
    dst_fn.num_tiers 0 fp trivial
  obtain ⟨fp2, h2, _⟩ := for_loop_total (fun _ => True)
    (fun i fp => apq8064_icc_set_bwsum_body abi dst_fn sum_bw i fp)
    (fun i s _ => ⟨_, by
      unfold apq8064_icc_set_bwsum_body
      rw [do_div_some _ hk]
      rfl, trivial⟩)
    dst_fn.num_sports 0 fp1 trivial
  exact ⟨fp2, by simp [apq8064_icc_set_tables, h1, h2]⟩

/-- A returning call of `apq8064_icc_set` ran the table passes on the per-port share. -/
theorem set_some_tables (abi : Abi) (clk_set_rate : Nat → Nat → Int)
    (fp : apq8064_icc_provider) (src_fn dst_fn : apq8064_icc_node)
    (sum_bw max_peak_bw : Nat) (r : set_result)
    (h : apq8064_icc_set abi clk_set_rate fp src_fn dst_fn sum_bw max_peak_bw = some r) :
    src_fn.num_mports ≠ 0 ∧
    apq8064_icc_set_tables abi src_fn dst_fn (sum_bw / src_fn.num_mports) fp = some r.fp := by
  unfold apq8064_icc_set at h
  by_cases hm : src_fn.num_mports = 0
  · simp [do_div, hm] at h
  · rw [do_div_some _ hm] at h
    simp only [Option.some_bind] at h
    cases h1 : apq8064_icc_set_tables abi src_fn dst_fn (sum_bw / src_fn.num_mports) fp with
    | none => simp [h1] at h
    | some fp2 =>
      rw [h1] at h
      simp only [Option.some_bind] at h
      by_cases hb : src_fn.buswidth = 0
      · simp [do_div, hb] at h
      · rw [do_div_some _ hb] at h
        simp only [Option.some_bind] at h
        split_ifs at h <;> simp only [Option.some.injEq] at h <;> subst h <;> exact ⟨hm, rfl⟩

/-- With a source that has a master port and a bus width, and a destination that has a
slave port, `apq8064_icc_set` returns. -/
theorem set_total (abi : Abi) (clk_set_rate : Nat → Nat → Int)
    (fp : apq8064_icc_provider) (src_fn dst_fn : apq8064_icc_node)
    (sum_bw max_peak_bw : Nat) (hm : src_fn.num_mports ≠ 0) (hb : src_fn.buswidth ≠ 0)
    (hk : dst_fn.num_sports ≠ 0) :
    ∃ r, apq8064_icc_set abi clk_set_rate fp src_fn dst_fn sum_bw max_peak_bw = some r := by
  obtain ⟨fp2, h2⟩ := set_tables_total abi src_fn dst_fn (sum_bw / src_fn.num_mports) fp hk
  unfold apq8064_icc_set
  rw [do_div_some _ hm]
  simp only [Option.some_bind, h2]
  rw [do_div_some _ hb]
  simp only [Option.some_bind]
  split_ifs
  · exact ⟨_, rfl⟩
  · exact ⟨_, rfl⟩

theorem arb_index_some (num_mports : Nat) (src_fn dst_fn : apq8064_icc_node)
    {ts : List Nat} (ht : dst_fn.tiers = some ts) (i j : Nat) (hi : elem ts i < 2 ^ 16) :
    arb_index num_mports src_fn dst_fn i j = elem ts i * num_mports + elem src_fn.mports j := by
  unfold arb_index
  rw [ht]
  dsimp only
  rw [Nat.mod_eq_of_lt hi]

theorem is_gw_of_master (n : apq8064_icc_node) (hs : n.num_sports = 0) : IS_GW n = false := by
  simp [IS_GW, hs]

theorem is_gw_of_ports (n : apq8064_icc_node) (hm : 1 ≤ n.num_mports) (hs : 1 ≤ n.num_sports) :
    IS_GW n = true := by
  simp only [IS_GW, gt_iff_lt, Bool.and_eq_true, decide_eq_true_eq]
  omega

/-! ## The rate part of `apq8064_icc_set` -/

/-- An invariant of the loop body is an invariant of the loop. -/
theorem for_loop_inv {σ : Type} (inv : σ → Prop) (body : Nat → σ → Option σ)
    (hinv : ∀ m s s', inv s → body m s = some s' → inv s') (n k : Nat) (s s' : σ)
    (hs : inv s) (h : for_loop body n k s = some s') : inv s' :=
  (for_loop_table (fun _ _ => 0) inv body (fun _ _ => False) (fun _ => True) hinv
    (fun _ _ _ _ _ _ _ => trivial) (fun _ _ _ _ _ _ _ => rfl) n k s s' hs h).1

/-- Whether a loop returns does not depend on the state it starts from, when that holds
for its body. -/
theorem for_loop_isSome_congr {σ : Type} (body : Nat → σ → Option σ)
    (hb : ∀ k s s', (body k s).isSome = (body k s').isSome) :
    ∀ (n k : Nat) (s s' : σ),
      (for_loop body n k s).isSome = (for_loop body n k s').isSome := by
  intro n
  induction n with
  | zero =>
    intro k s s'
    rfl
  | succ n ih =>
    intro k s s'
    simp only [for_loop]
    have h := hb k s s'
    cases h1 : body k s with
    | none =>
      rw [h1] at h
      cases h2 : body k s' with
      | none => rfl
      | some t' => rw [h2] at h; simp at h
    | some t =>
      rw [h1] at h
      cases h2 : body k s' with
      | none => rw [h2] at h; simp at h
      | some t' =>
        simp only [Option.some_bind]
        exact ih (k + 1) t t'

theorem arb_body_isSome (abi : Abi) (src_fn dst_fn : apq8064_icc_node) (sum_bw i j : Nat)
    (s s' : apq8064_icc_provider) :
    (apq8064_icc_set_arb_body abi src_fn dst_fn sum_bw i j s).isSome
      = (apq8064_icc_set_arb_body abi src_fn dst_fn sum_bw i j s').isSome := by
  unfold apq8064_icc_set_arb_body
  by_cases hskip : arb_skip src_fn dst_fn i j = true
  · rw [if_pos hskip, if_pos hskip]
    rfl
  · rw [if_neg hskip, if_neg hskip]
    cases dst_fn.tiers with
    | none => rfl
    | some ts =>
      cases arb_tieredbw src_fn dst_fn sum_bw with
      | none => rfl
      | some tb => rfl

theorem bwsum_body_isSome (abi : Abi) (dst_fn : apq8064_icc_node) (sum_bw i : Nat)
    (s s' : apq8064_icc_provider) :
    (apq8064_icc_set_bwsum_body abi dst_fn sum_bw i s).isSome
      = (apq8064_icc_set_bwsum_body abi dst_fn sum_bw i s').isSome := by
  unfold apq8064_icc_set_bwsum_body
  cases do_div sum_bw dst_fn.num_sports with
  | none => rfl
  | some ib => rfl

/-- Whether the table passes return does not depend on the provider's tables. -/
theorem set_tables_returns_again (abi : Abi) (src_fn dst_fn : apq8064_icc_node)
    (sum_bw : Nat) (fp fp2 fp' : apq8064_icc_provider)
    (h : apq8064_icc_set_tables abi src_fn dst_fn sum_bw fp = some fp2) :
    ∃ fp3, apq8064_icc_set_tables abi src_fn dst_fn sum_bw fp' = some fp3 := by
  unfold apq8064_icc_set_tables at h ⊢
  dsimp only at h ⊢
  have e1 := for_loop_isSome_congr
    (fun i fp =>
      for_loop (fun j fp => apq8064_icc_set_arb_body abi src_fn dst_fn sum_bw i j fp)
        src_fn.num_mports 0 fp)
    (fun i s s' => for_loop_isSome_congr
      (fun j fp => apq8064_icc_set_arb_body abi src_fn dst_fn sum_bw i j fp)
      (fun j s s' => arb_body_isSome abi src_fn dst_fn sum_bw i j s s')
      src_fn.num_mports 0 s s')
    dst_fn.num_tiers 0 fp fp'
  cases h1 : for_loop (fun i fp =>
      for_loop (fun j fp => apq8064_icc_set_arb_body abi src_fn dst_fn sum_bw i j fp)
        src_fn.num_mports 0 fp) dst_fn.num_tiers 0 fp with
  | none => simp [h1] at h
  | some t =>
    rw [h1] at h e1
    simp only [Option.some_bind] at h
    cases h2 : for_loop (fun i fp =>
        for_loop (fun j fp => apq8064_icc_set_arb_body abi src_fn dst_fn sum_bw i j fp)
          src_fn.num_mports 0 fp) dst_fn.num_tiers 0 fp' with
    | none => rw [h2] at e1; simp at e1
    | some t' =>
      simp only [Option.some_bind]
      have e2 := for_loop_isSome_congr
        (fun i fp => apq8064_icc_set_bwsum_body abi dst_fn sum_bw i fp)
        (fun i s s' => bwsum_body_isSome abi dst_fn sum_bw i s s')
        dst_fn.num_sports 0 t t'
      rw [h] at e2
      cases h3 : for_loop (fun i fp => apq8064_icc_set_bwsum_body abi dst_fn sum_bw i fp)
          dst_fn.num_sports 0 t' with
      | none => rw [h3] at e2; simp at e2
      | some t'' => exact ⟨t'', rfl⟩

/-- The table passes leave the clock count of the provider alone. -/
theorem set_tables_num_clks (abi : Abi) (src_fn dst_fn : apq8064_icc_node) (sum_bw : Nat)
    (fp fp2 : apq8064_icc_provider)
    (h : apq8064_icc_set_tables abi src_fn dst_fn sum_bw fp = some fp2) :
    fp2.num_clks = fp.num_clks := by
  have harb : ∀ i j (s s' : apq8064_icc_provider), s.num_clks = fp.num_clks →
      apq8064_icc_set_arb_body abi src_fn dst_fn sum_bw i j s = some s' →
      s'.num_clks = fp.num_clks := by
    intro i j s s' hs hb
    unfold apq8064_icc_set_arb_body at hb
    by_cases hskip : arb_skip src_fn dst_fn i j = true
    · rw [if_pos hskip] at hb
      simp only [Option.some.injEq] at hb
      subst hb
      exact hs
    · rw [if_neg hskip] at hb
      cases ht : dst_fn.tiers with
      | none =>
        rw [ht] at hb
        simp only [Option.some.injEq] at hb
        subst hb
        exact hs
      | some ts =>
        rw [ht] at hb
        dsimp only at hb
        cases htb : arb_tieredbw src_fn dst_fn sum_bw with
        | none => simp [htb] at hb
        | some tb =>
          rw [htb] at hb
          simp only [Option.some_bind, Option.some.injEq] at hb
          subst hb
          exact hs
  have hbw : ∀ i (s s' : apq8064_icc_provider), s.num_clks = fp.num_clks →
      apq8064_icc_set_bwsum_body abi dst_fn sum_bw i s = some s' →
      s'.num_clks = fp.num_clks := by
    intro i s s' hs hb
    unfold apq8064_icc_set_bwsum_body at hb
    cases hd : do_div sum_bw dst_fn.num_sports with
    | none => simp [hd] at hb
    | some ib =>
      rw [hd] at hb
      simp only [Option.some_bind, Option.some.injEq] at hb
      subst hb
      exact hs
  unfold apq8064_icc_set_tables at h
  dsimp only at h
  cases h1 : for_loop (fun i fp =>
      for_loop (fun j fp => apq8064_icc_set_arb_body abi src_fn dst_fn sum_bw i j fp)
        src_fn.num_mports 0 fp) dst_fn.num_tiers 0 fp with
  | none => simp [h1] at h
  | some fp1 =>
    rw [h1] at h
    simp only [Option.some_bind] at h
    have c1 : fp1.num_clks = fp.num_clks :=
      for_loop_inv (fun s => s.num_clks = fp.num_clks) _
        (fun i s s' hs hb => for_loop_inv (fun s => s.num_clks = fp.num_clks) _
          (fun j s s' hs hb => harb i j s s' hs hb) src_fn.num_mports 0 s s' hs hb)
        dst_fn.num_tiers 0 fp fp1 rfl h1
    exact for_loop_inv (fun s => s.num_clks = fp.num_clks) _
      (fun i s s' hs hb => hbw i s s' hs hb) dst_fn.num_sports 0 fp1 fp2 c1 h

/-- The clock loop issues one call per clock index, in order, whatever the results. -/
theorem set_clks_calls (clk_set_rate : Nat → Nat → Int) (rate : Nat) :
    ∀ (n i : Nat) (log : List (Nat × Nat) × List (Nat × Int)),
      (apq8064_icc_set_clks clk_set_rate rate n i log).1
        = log.1 ++ (List.range n).map (fun k => (i + k, rate)) := by
  intro n
  induction n with
  | zero =>
    intro i log
    simp [apq8064_icc_set_clks]
  | succ n ih =>
    intro i log
    simp only [apq8064_icc_set_clks]
    rw [ih, List.range_succ_eq_map, List.map_cons, List.map_map]
    simp only [List.append_assoc, List.singleton_append, Nat.add_zero]
    congr 2
    apply List.map_congr_left
    intro k _
    simp only [Function.comp, Nat.succ_eq_add_one]
    congr 1
    omega

/-- What a returning call of `apq8064_icc_set` leaves: the tables of the two passes, the
source node with `rate` set to the derived rate, no clock call when the rate was already
that, one call per bus clock otherwise, and the return value 0. -/
theorem set_some_spec (abi : Abi) (clk_set_rate : Nat → Nat → Int)
    (fp : apq8064_icc_provider) (src_fn dst_fn : apq8064_icc_node)
    (sum_bw max_peak_bw : Nat) (r : set_result)
    (h : apq8064_icc_set abi clk_set_rate fp src_fn dst_fn sum_bw max_peak_bw = some r) :
    src_fn.num_mports ≠ 0 ∧ src_fn.buswidth ≠ 0 ∧
    apq8064_icc_set_tables abi src_fn dst_fn (sum_bw / src_fn.num_mports) fp = some r.fp ∧
    r.ret = 0 ∧
    r.src_fn = { src_fn with
      rate := min (max (sum_bw / src_fn.num_mports) max_peak_bw / src_fn.buswidth % 2 ^ 32)
        (INT_MAX % 2 ^ 32) } ∧
    r.clk_calls =
      if src_fn.rate
          = min (max (sum_bw / src_fn.num_mports) max_peak_bw / src_fn.buswidth % 2 ^ 32)
              (INT_MAX % 2 ^ 32) then []
      else (List.range fp.num_clks).map (fun k =>
        (k, min (max (sum_bw / src_fn.num_mports) max_peak_bw / src_fn.buswidth % 2 ^ 32)
          (INT_MAX % 2 ^ 32))) := by
  unfold apq8064_icc_set at h
  by_cases hm : src_fn.num_mports = 0
  · simp [do_div, hm] at h
  · rw [do_div_some _ hm] at h
    simp only [Option.some_bind] at h
    cases h1 : apq8064_icc_set_tables abi src_fn dst_fn (sum_bw / src_fn.num_mports) fp with
    | none => simp [h1] at h
    | some fp2 =>
      have hc := set_tables_num_clks abi src_fn dst_fn _ fp fp2 h1
      rw [h1] at h
      simp only [Option.some_bind] at h
      by_cases hb : src_fn.buswidth = 0
      · simp [do_div, hb] at h
      · rw [do_div_some _ hb] at h
        simp only [Option.some_bind] at h
        by_cases hr : src_fn.rate
            = min (max (sum_bw / src_fn.num_mports) max_peak_bw / src_fn.buswidth % 2 ^ 32)
                (INT_MAX % 2 ^ 32)
        · rw [if_pos hr] at h
          simp only [Option.some.injEq] at h
          subst h
          refine ⟨hm, hb, rfl, rfl, ?_, by rw [if_pos hr]⟩
          dsimp only
          rw [← hr]
        · rw [if_neg hr] at h
          simp only [Option.some.injEq] at h
          subst h
          refine ⟨hm, hb, rfl, rfl, rfl, ?_⟩
          rw [if_neg hr]
          dsimp only
          rw [set_clks_calls, hc]
          simp

/-! ## More on the codec -/

/-- The tier flag of a packed word is decided by the type alone. -/
theorem create_bytes_tier (abi : Abi) (type bw : Nat) :
    GET_TIER (msm_bus_create_bw_tier_pair_bytes abi type bw)
      = if type % 2 ^ 8 = 0 then 1 else 0 := by
  rw [get_tier_eq]
  unfold msm_bus_create_bw_tier_pair_bytes
  by_cases ht : type % 2 ^ 8 = 0
  · rw [if_pos ht, if_pos ht]
    have h := tier_1_or_bit (msm_bus_set_bw_bytes abi bw)
    omega
  · rw [if_neg ht, if_neg ht, tier_2_or]
    have h := set_bw_bytes_bit15 abi bw
    omega

/-- Expanding a word to bytes per second gives its magnitude times `2 ^ 17`. -/
theorem get_bw_bytes_eq (abi : Abi) (w : Nat) :
    msm_bus_get_bw_bytes abi w = to_ulong abi w % 32768 * 131072 := by
  unfold msm_bus_get_bw_bytes
  rw [and_bwmask, Nat.shiftLeft_eq]
  have h : to_ulong abi w % 32768 * 2 ^ 17 < 2 ^ 32 := by
    have := Nat.mod_lt (to_ulong abi w) (show 0 < 32768 by norm_num)
    omega
  rw [to_ulong_of_lt abi h]
  omega

theorem get_bw_eq (abi : Abi) (w : Nat) : msm_bus_get_bw abi w = to_ulong abi w % 32768 := by
  unfold msm_bus_get_bw
  rw [and_bwmask]
  omega

/-! ## The capacities of the probe -/

/-- The probe derives the tiered-slave capacity by the loop that derives the slave-port
capacity: the two are equal for every descriptor. -/
theorem probe_tieredslaves_eq_sports (d : apq8064_icc_desc) :
    (apq8064_icc_probe_caps d).num_tieredslaves = (apq8064_icc_probe_caps d).num_sports := by
  have h : ∀ (l : List apq8064_icc_node) (c : probe_caps),
      c.num_tieredslaves = c.num_sports →
      (l.foldl (fun c n => apq8064_icc_probe_node n c) c).num_tieredslaves
        = (l.foldl (fun c n => apq8064_icc_probe_node n c) c).num_sports := by
    intro l
    induction l with
    | nil =>
      intro c hc
      exact hc
    | cons n l ih =>
      intro c hc
      simp only [List.foldl_cons]
      apply ih
      simp only [apq8064_icc_probe_node, hc]
  simp only [apq8064_icc_probe_caps]
  rw [h d.nodes _ rfl]

/-! ## The accesses of the commit -/

/-- An invariant of the body of a stride-2 loop, which may mention the loop variable, holds
when the loop is left. -/
theorem for_step2_inv {σ : Type} (body : Nat → σ → σ) (bound : Nat) (inv : Nat → σ → Prop)
    (hstep : ∀ i s, i < bound → inv i s → inv (i + 2) (body i s)) :
    ∀ (fuel i : Nat) (s : σ), inv i s →
      inv (for_step2 body fuel i bound s).1 (for_step2 body fuel i bound s).2 := by
  intro fuel
  induction fuel with
  | zero =>
    intro i s hs
    exact hs
  | succ fuel ih =>
    intro i s hs
    by_cases hlt : i < bound
    · simp only [for_step2, if_pos hlt]
      exact ih (i + 2) (body i s) (hstep i s hlt hs)
    · simp only [for_step2, if_neg hlt]
      exact hs

/-- One stride-2 loop seen through a projection of its state. -/
theorem for_step2_map {σ τ : Type} (proj : σ → τ) (body : Nat → σ → σ) (body' : Nat → τ → τ)
    (h : ∀ i s, proj (body i s) = body' i (proj s)) (bound : Nat) :
    ∀ (fuel i : Nat) (s : σ),
      (for_step2 body fuel i bound s).1 = (for_step2 body' fuel i bound (proj s)).1 ∧
      proj (for_step2 body fuel i bound s).2 = (for_step2 body' fuel i bound (proj s)).2 := by
  intro fuel
  induction fuel with
  | zero =>
    intro i s
    exact ⟨rfl, rfl⟩
  | succ fuel ih =>
    intro i s
    by_cases hlt : i < bound
    · simp only [for_step2, if_pos hlt]
      rw [← h i s]
      exact ih (i + 2) (body i s)
    · simp only [for_step2, if_neg hlt]
      exact ⟨trivial, trivial⟩

/-- The recorded packing builds the buffer of `apq8064_icc_commit_pack`. -/
theorem commit_trace_buf (fp : apq8064_icc_provider) :
    (apq8064_icc_commit_trace fp).buf = apq8064_icc_commit_pack fp := by
  unfold apq8064_icc_commit_trace apq8064_icc_commit_pack
  dsimp only
  obtain ⟨a1, a2⟩ := for_step2_map commit_trace.buf
    (fun i t => trace_word (load16 fp.bwsum (i + 1)) (load16 fp.bwsum i) [i + 1, i] [] t)
    (fun i b => put_word (load16 fp.bwsum (i + 1)) (load16 fp.bwsum i) b)
    (fun _ _ => rfl) (fp.num_sports - 1) (fp.num_sports - 1) 0
    { buf := { index := 0, rpm_data := fun _ => 0 }, writes := [], bwsum_reads := [],
      arb_reads := [] }
  dsimp only at a1 a2
  have b : ∀ (st : Nat) (t : commit_trace),
      (for_step2
        (fun i t => trace_word (load16 fp.arb (i + 1)) (load16 fp.arb i) [] [i + 1, i] t)
        (fp.num_tieredslaves * fp.num_mports) st (fp.num_tieredslaves * fp.num_mports) t).2.buf
      = (for_step2 (fun i b => put_word (load16 fp.arb (i + 1)) (load16 fp.arb i) b)
        (fp.num_tieredslaves * fp.num_mports) st (fp.num_tieredslaves * fp.num_mports)
        t.buf).2 :=
    fun st t => (for_step2_map commit_trace.buf
      (fun i t => trace_word (load16 fp.arb (i + 1)) (load16 fp.arb i) [] [i + 1, i] t)
      (fun i b => put_word (load16 fp.arb (i + 1)) (load16 fp.arb i) b)
      (fun _ _ => rfl) (fp.num_tieredslaves * fp.num_mports)
      (fp.num_tieredslaves * fp.num_mports) st t).2
  by_cases hodd : fp.num_sports &&& 1 ≠ 0
  · rw [if_pos hodd, if_pos hodd]
    dsimp only
    have e : ∀ (hi lo : Nat) (rb ra : List Nat) (t : commit_trace),
        (trace_word hi lo rb ra t).buf = put_word hi lo t.buf := fun _ _ _ _ _ => rfl
    rw [b, e, a1, a2]
  · rw [if_neg hodd, if_neg hodd]
    dsimp only
    rw [b, a2]

/-- The final `index` of the packing is the word count of the commit. -/
theorem commit_pack_index (fp : apq8064_icc_provider) :
    (apq8064_icc_commit_pack fp).index
      = (fp.num_mports * fp.num_tieredslaves + fp.num_sports + 1) / 2 := by
  rw [Nat.mul_comm fp.num_mports fp.num_tieredslaves]
  rcases Nat.mod_two_eq_zero_or_one fp.num_sports with hS | hS
  · rw [(commit_pack_even fp hS).1]
    omega
  · rw [(commit_pack_odd fp hS).1]
    omega

/-- With enough iterations allowed, a stride-2 loop is left with `i` at the first value
of its progression that is not below the bound. -/
theorem for_step2_exit {σ : Type} (body : Nat → σ → σ) (bound : Nat) :
    ∀ (fuel i : Nat) (s : σ), (bound - i + 1) / 2 ≤ fuel →
      (for_step2 body fuel i bound s).1 = i + 2 * ((bound - i + 1) / 2) := by
  intro fuel
  induction fuel with
  | zero =>
    intro i s hf
    simp only [for_step2]
    omega
  | succ fuel ih =>
    intro i s hf
    by_cases hlt : i < bound
    · simp only [for_step2, if_pos hlt]
      rw [ih (i + 2) (body i s) (by omega)]
      omega
    · simp only [for_step2, if_neg hlt]
      omega

/-- The accesses of the packing: the words are written at `0, 1, 2, ...` in order; every
read of `bwsum` is below `num_sports`; every read of `arb` is at most
`A = num_tieredslaves * num_mports`, below `A` when `A + num_sports` is even, and index
`A` itself is read when `A + num_sports` is odd. -/
theorem commit_trace_spec (fp : apq8064_icc_provider) :
    (apq8064_icc_commit_trace fp).writes
      = List.range (apq8064_icc_commit_trace fp).buf.index ∧
    (∀ x ∈ (apq8064_icc_commit_trace fp).bwsum_reads, x < fp.num_sports) ∧
    (∀ x ∈ (apq8064_icc_commit_trace fp).arb_reads,
      x ≤ fp.num_tieredslaves * fp.num_mports) ∧
    ((fp.num_tieredslaves * fp.num_mports + fp.num_sports) % 2 = 0 →
      ∀ x ∈ (apq8064_icc_commit_trace fp).arb_reads,
        x < fp.num_tieredslaves * fp.num_mports) ∧
    ((fp.num_tieredslaves * fp.num_mports + fp.num_sports) % 2 = 1 →
      fp.num_tieredslaves * fp.num_mports ∈ (apq8064_icc_commit_trace fp).arb_reads) := by
  have hidx : ∀ (hi lo : Nat) (rb ra : List Nat) (t : commit_trace),
      (trace_word hi lo rb ra t).buf.index = t.buf.index + 1 := fun _ _ _ _ _ => rfl
  have hwr : ∀ (hi lo : Nat) (rb ra : List Nat) (t : commit_trace),
      (trace_word hi lo rb ra t).writes = t.writes ++ [t.buf.index] := fun _ _ _ _ _ => rfl
  have hrb : ∀ (hi lo : Nat) (rb ra : List Nat) (t : commit_trace),
      (trace_word hi lo rb ra t).bwsum_reads = t.bwsum_reads ++ rb := fun _ _ _ _ _ => rfl
  have hra : ∀ (hi lo : Nat) (rb ra : List Nat) (t : commit_trace),
      (trace_word hi lo rb ra t).arb_reads = t.arb_reads ++ ra := fun _ _ _ _ _ => rfl
  -- the bandwidth-sum loop
  have L1 := for_step2_inv
    (fun i t => trace_word (load16 fp.bwsum (i + 1)) (load16 fp.bwsum i) [i + 1, i] [] t)
    (fp.num_sports - 1)
    (fun _ t => t.writes = List.range t.buf.index ∧
      (∀ x ∈ t.bwsum_reads, x < fp.num_sports) ∧ t.arb_reads = [])
    (by
      intro i t hlt ⟨h1, h2, h3⟩
      refine ⟨?_, ?_, ?_⟩
      · rw [hwr, hidx, h1, List.range_succ]
      · intro x hx
        rw [hrb, List.mem_append] at hx
        rcases hx with hx | hx
        · exact h2 x hx
        · simp only [List.mem_cons, List.mem_singleton, List.not_mem_nil, or_false] at hx
          omega
      · rw [hra, h3]
        rfl)
    (fp.num_sports - 1) 0
    { buf := { index := 0, rpm_data := fun _ => 0 }, writes := [], bwsum_reads := [],
      arb_reads := [] }
    ⟨rfl, by simp, rfl⟩
  have E1 := for_step2_exit
    (fun i t => trace_word (load16 fp.bwsum (i + 1)) (load16 fp.bwsum i) [i + 1, i] [] t)
    (fp.num_sports - 1) (fp.num_sports - 1) 0
    { buf := { index := 0, rpm_data := fun _ => 0 }, writes := [], bwsum_reads := [],
      arb_reads := [] } (by omega)
  -- the arbitration loop, from any start that has the parity of the slave-port count
  have L3 : ∀ (start : Nat) (t : commit_trace), start ≤ 1 →
      (t.writes = List.range t.buf.index ∧ (∀ x ∈ t.bwsum_reads, x < fp.num_sports) ∧
        start % 2 = fp.num_sports % 2 ∧
        (∀ x ∈ t.arb_reads, x ≤ fp.num_tieredslaves * fp.num_mports) ∧
        ((fp.num_tieredslaves * fp.num_mports + fp.num_sports) % 2 = 0 →
          ∀ x ∈ t.arb_reads, x < fp.num_tieredslaves * fp.num_mports) ∧
        (1 ≤ start → start - 1 ∈ t.arb_reads)) →
      (for_step2
        (fun i t => trace_word (load16 fp.arb (i + 1)) (load16 fp.arb i) [] [i + 1, i] t)
        (fp.num_tieredslaves * fp.num_mports) start (fp.num_tieredslaves * fp.num_mports)
        t).2.writes
        = List.range (for_step2
          (fun i t => trace_word (load16 fp.arb (i + 1)) (load16 fp.arb i) [] [i + 1, i] t)
          (fp.num_tieredslaves * fp.num_mports) start
          (fp.num_tieredslaves * fp.num_mports) t).2.buf.index ∧
      (∀ x ∈ (for_step2
        (fun i t => trace_word (load16 fp.arb (i + 1)) (load16 fp.arb i) [] [i + 1, i] t)
        (fp.num_tieredslaves * fp.num_mports) start (fp.num_tieredslaves * fp.num_mports)
        t).2.bwsum_reads, x < fp.num_sports) ∧
      (∀ x ∈ (for_step2
        (fun i t => trace_word (load16 fp.arb (i + 1)) (load16 fp.arb i) [] [i + 1, i] t)
        (fp.num_tieredslaves * fp.num_mports) start (fp.num_tieredslaves * fp.num_mports)
        t).2.arb_reads, x ≤ fp.num_tieredslaves * fp.num_mports) ∧
      ((fp.num_tieredslaves * fp.num_mports + fp.num_sports) % 2 = 0 →
        ∀ x ∈ (for_step2
          (fun i t => trace_word (load16 fp.arb (i + 1)) (load16 fp.arb i) [] [i + 1, i] t)
          (fp.num_tieredslaves * fp.num_mports) start
          (fp.num_tieredslaves * fp.num_mports) t).2.arb_reads,
          x < fp.num_tieredslaves * fp.num_mports) ∧
      ((fp.num_tieredslaves * fp.num_mports + fp.num_sports) % 2 = 1 →
        fp.num_tieredslaves * fp.num_mports ∈ (for_step2
          (fun i t => trace_word (load16 fp.arb (i + 1)) (load16 fp.arb i) [] [i + 1, i] t)
          (fp.num_tieredslaves * fp.num_mports) start
          (fp.num_tieredslaves * fp.num_mports) t).2.arb_reads) := by
    intro start t hst hinit
    have hinv := for_step2_inv
      (fun i t => trace_word (load16 fp.arb (i + 1)) (load16 fp.arb i) [] [i + 1, i] t)
      (fp.num_tieredslaves * fp.num_mports)
      (fun i t => t.writes = List.range t.buf.index ∧
        (∀ x ∈ t.bwsum_reads, x < fp.num_sports) ∧
        i % 2 = fp.num_sports % 2 ∧
        (∀ x ∈ t.arb_reads, x ≤ fp.num_tieredslaves * fp.num_mports) ∧
        ((fp.num_tieredslaves * fp.num_mports + fp.num_sports) % 2 = 0 →
          ∀ x ∈ t.arb_reads, x < fp.num_tieredslaves * fp.num_mports) ∧
        (1 ≤ i → i - 1 ∈ t.arb_reads))
      (by
        intro i t hlt ⟨h1, h2, h3, h4, h5, _⟩
        refine ⟨?_, ?_, by omega, ?_, ?_, ?_⟩
        · rw [hwr, hidx, h1, List.range_succ]
        · intro x hx
          rw [hrb, List.append_nil] at hx
          exact h2 x hx
        · intro x hx
          rw [hra, List.mem_append] at hx
          rcases hx with hx | hx
          · exact h4 x hx
          · simp only [List.mem_cons, List.mem_singleton, List.not_mem_nil, or_false] at hx
            omega
        · intro he x hx
          rw [hra, List.mem_append] at hx
          rcases hx with hx | hx
          · exact h5 he x hx
          · simp only [List.mem_cons, List.mem_singleton, List.not_mem_nil, or_false] at hx
            omega
        · intro _
          rw [hra, List.mem_append]
          right
          simp)
      (fp.num_tieredslaves * fp.num_mports) start t hinit
    have hexit := for_step2_exit
      (fun i t => trace_word (load16 fp.arb (i + 1)) (load16 fp.arb i) [] [i + 1, i] t)
      (fp.num_tieredslaves * fp.num_mports) (fp.num_tieredslaves * fp.num_mports) start t
      (by omega)
    obtain ⟨g1, g2, g3, g4, g5, g6⟩ := hinv
    refine ⟨g1, g2, g4, g5, ?_⟩
    intro hodd
    rw [hexit] at g6
    have hpar := hinit.2.2.1
    have e : start + 2 * ((fp.num_tieredslaves * fp.num_mports - start + 1) / 2) - 1
        = fp.num_tieredslaves * fp.num_mports := by omega
    rw [e] at g6
    exact g6 (by omega)
  unfold apq8064_icc_commit_trace
  dsimp only
  generalize for_step2
    (fun i t => trace_word (load16 fp.bwsum (i + 1)) (load16 fp.bwsum i) [i + 1, i] [] t)
    (fp.num_sports - 1) 0 (fp.num_sports - 1)
    { buf := { index := 0, rpm_data := fun _ => 0 }, writes := [], bwsum_reads := [],
      arb_reads := [] } = r1 at L1 E1 ⊢
  obtain ⟨w1, b1, a1⟩ := L1
  by_cases hodd : fp.num_sports &&& 1 ≠ 0
  · rw [if_pos hodd]
    dsimp only
    have hS : fp.num_sports % 2 = 1 := by
      rw [Nat.and_one_is_mod] at hodd
      omega
    apply L3 1 _ (by omega)
    refine ⟨?_, ?_, by omega, ?_, ?_, ?_⟩
    · rw [hwr, hidx, w1, List.range_succ]
    · intro x hx
      rw [hrb, List.mem_append] at hx
      rcases hx with hx | hx
      · exact b1 x hx
      · simp only [List.mem_singleton] at hx
        omega
    · intro x hx
      rw [hra, a1] at hx
      simp only [List.nil_append, List.mem_singleton] at hx
      omega
    · intro he x hx
      rw [hra, a1] at hx
      simp only [List.nil_append, List.mem_singleton] at hx
      omega
    · intro _
      rw [hra, a1]
      simp
  · rw [if_neg hodd]
    dsimp only
    have hS : fp.num_sports % 2 = 0 := by
      rw [Nat.and_one_is_mod] at hodd
      omega
    apply L3 0 _ (by omega)
    refine ⟨w1, b1, by omega, ?_, ?_, ?_⟩
    · intro x hx
      rw [a1] at hx
      simp at hx
    · intro _ x hx
      rw [a1] at hx
      simp at hx
    · intro h
      omega

/-- A counting loop whose body returns its state unchanged returns its state. -/
theorem for_loop_id {σ : Type} (body : Nat → σ → Option σ)
    (h : ∀ m s, body m s = some s) : ∀ (n k : Nat) (s : σ), for_loop body n k s = some s := by
  intro n
  induction n with
  | zero =>
    intro k s
    rfl
  | succ n ih =>
    intro k s
    simp only [for_loop, h, Option.some_bind, ih]

/-- With a destination whose `tiers` is `NULL`, the body of the arbitration loop does
nothing. -/
theorem arb_body_untiered (abi : Abi) (src_fn dst_fn : apq8064_icc_node) (sum_bw i j : Nat)
    (fp : apq8064_icc_provider) (ht : dst_fn.tiers = none) :
    apq8064_icc_set_arb_body abi src_fn dst_fn sum_bw i j fp = some fp := by
  unfold apq8064_icc_set_arb_body
  rw [ht]
  by_cases hskip : arb_skip src_fn dst_fn i j = true
  · rw [if_pos hskip]
  · rw [if_neg hskip]

/-- With a destination whose `tiers` is `NULL`, the table passes return, and they leave
`arb` and `actarb` as they were. -/
theorem set_tables_untiered (abi : Abi) (src_fn dst_fn : apq8064_icc_node) (sum_bw : Nat)
    (fp : apq8064_icc_provider) (ht : dst_fn.tiers = none) :
    (∃ fp2, apq8064_icc_set_tables abi src_fn dst_fn sum_bw fp = some fp2) ∧
    ∀ fp2, apq8064_icc_set_tables abi src_fn dst_fn sum_bw fp = some fp2 →
      fp2.arb = fp.arb ∧ fp2.actarb = fp.actarb := by
  have h1 : for_loop (fun i fp =>
      for_loop (fun j fp => apq8064_icc_set_arb_body abi src_fn dst_fn sum_bw i j fp)
        src_fn.num_mports 0 fp) dst_fn.num_tiers 0 fp = some fp :=
    for_loop_id _ (fun i s => for_loop_id _
      (fun j s => arb_body_untiered abi src_fn dst_fn sum_bw i j s ht) _ _ _) _ _ _
  have e : apq8064_icc_set_tables abi src_fn dst_fn sum_bw fp
      = for_loop (fun i fp => apq8064_icc_set_bwsum_body abi dst_fn sum_bw i fp)
          dst_fn.num_sports 0 fp := by
    unfold apq8064_icc_set_tables
    dsimp only
    rw [h1]
    rfl
  rw [e]
  constructor
  · by_cases hk : dst_fn.num_sports = 0
    · rw [hk]
      exact ⟨fp, rfl⟩
    · obtain ⟨fp2, h2, _⟩ := for_loop_total (fun _ => True)
        (fun i fp => apq8064_icc_set_bwsum_body abi dst_fn sum_bw i fp)
        (fun i s _ => ⟨_, by
          unfold apq8064_icc_set_bwsum_body
          rw [do_div_some _ hk]
          rfl, trivial⟩)
        dst_fn.num_sports 0 fp trivial
      exact ⟨fp2, h2⟩
  · intro fp2 h
    exact (bwsum_loop_spec abi dst_fn sum_bw fp fp2 h).1

/-! ## The division as a parameter, and the recorded shares -/

/-- With `do_div` for the division, `apq8064_icc_set_div` is `apq8064_icc_set`. -/
theorem set_div_do_div (abi : Abi) (clk_set_rate : Nat → Nat → Int)
    (fp : apq8064_icc_provider) (src_fn dst_fn : apq8064_icc_node)
    (sum_bw max_peak_bw : Nat) :
    apq8064_icc_set_div do_div abi clk_set_rate fp src_fn dst_fn sum_bw max_peak_bw
      = apq8064_icc_set abi clk_set_rate fp src_fn dst_fn sum_bw max_peak_bw :=
  rfl

/-- The recording slave-port loop runs the slave-port loop, and appends one `s / k` per
pass. -/
theorem bwsum_shares_loop (abi : Abi) (dst_fn : apq8064_icc_node) (sum_bw : Nat)
    (hk : dst_fn.num_sports ≠ 0) :
    ∀ (n k : Nat) (fp : apq8064_icc_provider) (vals : List Nat),
      for_loop (fun i st => apq8064_icc_set_bwsum_body_shares abi dst_fn sum_bw i st) n k
          (fp, vals)
        = (for_loop (fun i fp => apq8064_icc_set_bwsum_body abi dst_fn sum_bw i fp) n k
            fp).map
          (fun fp2 => (fp2, vals ++ List.replicate n (sum_bw / dst_fn.num_sports))) := by
  intro n
  induction n with
  | zero =>
    intro k fp vals
    simp [for_loop]
  | succ n ih =>
    intro k fp vals
    have hs : apq8064_icc_set_bwsum_body_shares abi dst_fn sum_bw k (fp, vals)
        = some ({ fp with
            bwsum := store fp.bwsum (elem dst_fn.sports k)
              (msm_bus_create_bw_tier_pair_bytes abi 0 (sum_bw / dst_fn.num_sports)
                % 2 ^ 16) },
          vals ++ [sum_bw / dst_fn.num_sports]) := by
      unfold apq8064_icc_set_bwsum_body_shares
      rw [do_div_some _ hk]
      rfl
    have hb : apq8064_icc_set_bwsum_body abi dst_fn sum_bw k fp
        = some { fp with
            bwsum := store fp.bwsum (elem dst_fn.sports k)
              (msm_bus_create_bw_tier_pair_bytes abi 0 (sum_bw / dst_fn.num_sports)
                % 2 ^ 16) } := by
      unfold apq8064_icc_set_bwsum_body
      rw [do_div_some _ hk]
      rfl
    show (apq8064_icc_set_bwsum_body_shares abi dst_fn sum_bw k (fp, vals)).bind
        (for_loop (fun i st => apq8064_icc_set_bwsum_body_shares abi dst_fn sum_bw i st) n
          (k + 1))
      = ((apq8064_icc_set_bwsum_body abi dst_fn sum_bw k fp).bind
          (for_loop (fun i fp => apq8064_icc_set_bwsum_body abi dst_fn sum_bw i fp) n
            (k + 1))).map
        (fun fp2 => (fp2, vals ++ List.replicate (n + 1) (sum_bw / dst_fn.num_sports)))
    rw [hs, hb, Option.some_bind, Option.some_bind, ih]
    simp [List.replicate_succ]

/-- The recording table passes run the table passes, and record `k` times `s / k`. -/
theorem set_shares_eq (abi : Abi) (src_fn dst_fn : apq8064_icc_node) (sum_bw : Nat)
    (fp : apq8064_icc_provider) (hk : dst_fn.num_sports ≠ 0) :
    apq8064_icc_set_shares abi src_fn dst_fn sum_bw fp
      = (apq8064_icc_set_tables abi src_fn dst_fn sum_bw fp).map
          (fun fp2 =>
            (fp2, List.replicate dst_fn.num_sports (sum_bw / dst_fn.num_sports))) := by
  unfold apq8064_icc_set_shares apq8064_icc_set_tables
  dsimp only
  cases for_loop (fun i fp =>
      for_loop (fun j fp => apq8064_icc_set_arb_body abi src_fn dst_fn sum_bw i j fp)
        src_fn.num_mports 0 fp) dst_fn.num_tiers 0 fp with
  | none => rfl
  | some fp1 =>
    simp only [Option.some_bind]
    rw [bwsum_shares_loop abi dst_fn sum_bw hk]
    simp

/-! ## Codec claims -/

/-- C1, as stated, fails: packing with type 0 sets the tier flag and packing with type 1
clears it, so `GET_TIER` of the packed word is not the type that was packed. -/
theorem pack_tier_not_identity :
    GET_TIER (msm_bus_create_bw_tier_pair .ILP32 0 5) ≠ 0 ∧
    GET_TIER (msm_bus_create_bw_tier_pair .ILP32 1 5) ≠ 1 ∧
    GET_TIER (msm_bus_create_bw_tier_pair .LP64 0 5) ≠ 0 ∧
    GET_TIER (msm_bus_create_bw_tier_pair .LP64 1 5) ≠ 1 := by
  decide

/-- C1 (amended): for every magnitude `m` in `[0, 0x7FFF]` and every type `t` in `{0, 1}`,
unpacking the word packed by `msm_bus_create_bw_tier_pair(t, m)` returns the magnitude
`m`, and the tier flag `GET_TIER` is `1` for type `0` (`TIER_1`) and `0` for type `1`
(`TIER_2`): the flag is `1 - t`, so the pair is still recovered. -/
theorem pack_unpack_roundtrip (abi : Abi) (t m : Nat) (hm : m ≤ 0x7FFF) (ht : t ≤ 1) :
    GET_TIER (msm_bus_create_bw_tier_pair abi t m) = 1 - t ∧
    msm_bus_get_bw abi (msm_bus_create_bw_tier_pair abi t m) = m := by
  have hm2 : to_ulong abi m &&& BWMASK = m := by
    rw [and_bwmask, to_ulong_of_lt abi (by omega)]
    omega
  have hbit := tier_1_or_bit m
  have hlow := tier_1_or_low m
  have hv : msm_bus_create_bw_tier_pair abi t m
      = if t = 0 then (TIER_1 ||| m) % 65536 else m := by
    unfold msm_bus_create_bw_tier_pair
    rw [hm2]
    have ht8 : t % 2 ^ 8 = t := by omega
    rw [ht8]
    by_cases h0 : t = 0
    · simp [h0]
    · rw [if_neg h0, if_neg h0, tier_2_or]
      omega
  have hlt : msm_bus_create_bw_tier_pair abi t m < 2 ^ 32 := by
    rw [hv]
    split_ifs <;> omega
  refine ⟨?_, ?_⟩
  · rw [get_tier_eq, hv]
    split_ifs <;> omega
  · unfold msm_bus_get_bw
    rw [and_bwmask, to_ulong_of_lt abi hlt, hv]
    split_ifs <;> omega

/-- The round trip at type 0 and the largest magnitude. -/
theorem pack_unpack_roundtrip_witness :
    GET_TIER (msm_bus_create_bw_tier_pair .ILP32 0 0x7FFF) = 1 - 0 ∧
    msm_bus_get_bw .ILP32 (msm_bus_create_bw_tier_pair .ILP32 0 0x7FFF) = 0x7FFF :=
  pack_unpack_roundtrip .ILP32 0 0x7FFF (by decide) (by decide)

/-- C2: the quantizer exceeds `0x7FFF` on a 64-bit `unsigned long`.  For `bw = 2 ^ 33`
the shifted value is `0x10000`; its bit 15 is clear, the only bit the saturation test
looks at, and `0x10000` is returned.  The same happens for 8,589,935,000, the per-port
share of an aggregate of 8,589,935 kB/s. -/
theorem set_bw_bytes_exceeds_max :
    2 ^ 33 < 2 ^ BITS_PER_LONG .LP64 ∧
    msm_bus_set_bw_bytes .LP64 (2 ^ 33) = 0x10000 ∧
    msm_bus_set_bw_bytes .LP64 8589935000 = 0x10000 ∧
    ¬ msm_bus_set_bw_bytes .LP64 (2 ^ 33) ≤ 0x7FFF := by
  decide

/-- C3, as stated, fails: `2 ^ 17 + 1` has non-zero low 17 bits, the quantized value of
`2 ^ 17` is `1` and `1 + 1` is far below `0x7FFF`, yet the quantizer returns `1`, not
`2`: it truncates. -/
theorem set_bw_bytes_no_round_up :
    (131073 &&& 0x1FFFF ≠ 0) ∧ clear_low17 131073 = 131072 ∧
    msm_bus_set_bw_bytes .ILP32 131073 ≠ msm_bus_set_bw_bytes .ILP32 131072 + 1 ∧
    msm_bus_set_bw_bytes .LP64 131073 ≠ msm_bus_set_bw_bytes .LP64 131072 + 1 ∧
    msm_bus_set_bw_bytes .ILP32 131072 + 1 ≤ 0x7FFF ∧
    msm_bus_set_bw_bytes .LP64 131072 + 1 ≤ 0x7FFF := by
  decide

/-- C3 (amended): for `bw` below `2 ^ 32`, with either width of `unsigned long`: when the
low 17 bits are non-zero and `bw >> 17` is zero the quantizer rounds up, to
`quantize(bw with the low bits cleared) + 1 = 1`; when the low 17 bits are non-zero and
`bw >> 17` is not zero it truncates, to `quantize(bw with the low bits cleared)`
`= bw >> 17`; when the low 17 bits are zero it returns `min(bw >> 17, 0x7FFF)`. -/
theorem set_bw_bytes_rounding (abi : Abi) (bw : Nat) (h : bw < 2 ^ 32) :
    (bw &&& 0x1FFFF ≠ 0 → bw >>> 17 = 0 →
      msm_bus_set_bw_bytes abi bw = msm_bus_set_bw_bytes abi (clear_low17 bw) + 1 ∧
      msm_bus_set_bw_bytes abi bw = 1) ∧
    (bw &&& 0x1FFFF ≠ 0 → bw >>> 17 ≠ 0 →
      msm_bus_set_bw_bytes abi bw = msm_bus_set_bw_bytes abi (clear_low17 bw) ∧
      msm_bus_set_bw_bytes abi bw = bw >>> 17) ∧
    (bw &&& 0x1FFFF = 0 → msm_bus_set_bw_bytes abi bw = min (bw >>> 17) 0x7FFF) := by
  have hc : clear_low17 bw = bw / 131072 * 131072 := by
    unfold clear_low17
    rw [shr17, Nat.shiftLeft_eq]
  have hcl : clear_low17 bw < 2 ^ 32 := by omega
  rw [and_low17, shr17, set_bw_bytes_of_lt abi h, set_bw_bytes_of_lt abi hcl, hc]
  refine ⟨?_, ?_, ?_⟩
  · intro h1 h2
    constructor <;> split_ifs <;> omega
  · intro h1 h2
    constructor <;> split_ifs <;> omega
  · intro h1
    split_ifs <;> omega

/-- The truncating case at 500,000 bytes/s. -/
theorem set_bw_bytes_rounding_witness :
    500000 < 2 ^ 32 ∧ msm_bus_set_bw_bytes .ILP32 500000 = 500000 >>> 17 :=
  ⟨by decide,
   ((set_bw_bytes_rounding .ILP32 500000 (by decide)).2.1 (by decide) (by decide)).2⟩

/-! ## Commit claims -/

/-- C4: read as a sequence of 16-bit halves, low half first, the words that
`apq8064_icc_commit` builds hold `bwsum[0..S)` and then `arb[0..A)` in their first
`S + A` positions, for every provider shape (`S = num_sports`,
`A = num_tieredslaves * num_mports`) and all table contents; these positions lie inside
the `count` words handed to every resource-manager write; and for an odd `S` the word at
position `(S - 1) / 2` is `arb[0] << 16 | bwsum[S - 1]`, the arbitration entries going on
from `arb[1]` in the next half. -/
theorem commit_payload_layout (qcom_rpm_write : rpm_state → Nat → List Nat → Nat → Int)
    (fp : apq8064_icc_provider) :
    (∀ p, p < fp.num_sports →
      half16 (apq8064_icc_commit qcom_rpm_write fp).buf.rpm_data p = load16 fp.bwsum p) ∧
    (∀ q, q < fp.num_tieredslaves * fp.num_mports →
      half16 (apq8064_icc_commit qcom_rpm_write fp).buf.rpm_data (fp.num_sports + q)
        = load16 fp.arb q) ∧
    (fp.num_sports % 2 = 1 →
      (apq8064_icc_commit qcom_rpm_write fp).buf.rpm_data ((fp.num_sports - 1) / 2)
        = ((load16 fp.arb 0 <<< 16) ||| load16 fp.bwsum (fp.num_sports - 1))) ∧
    fp.num_sports + fp.num_tieredslaves * fp.num_mports
      ≤ 2 * (apq8064_icc_commit qcom_rpm_write fp).count ∧
    (∀ w ∈ (apq8064_icc_commit qcom_rpm_write fp).writes,
      w.2.2.1 = (List.range (apq8064_icc_commit qcom_rpm_write fp).count).map
        (apq8064_icc_commit qcom_rpm_write fp).buf.rpm_data) := by
  rw [commit_buf_eq, commit_count_eq]
  refine ⟨commit_pack_bwsum fp, commit_pack_arb fp, ?_, ?_, ?_⟩
  · intro hS
    obtain ⟨_, hd⟩ := commit_pack_odd fp hS
    rw [hd, if_neg (by omega), if_pos (by omega)]
    rw [word_of_halves (load16_lt _ _) (load16_lt _ _)]
    have h := Nat.mul_add_lt_is_or (load16_lt fp.bwsum (fp.num_sports - 1)) (load16 fp.arb 0)
    rw [Nat.shiftLeft_eq, Nat.mul_comm (load16 fp.arb 0) (2 ^ 16), ← h]
    omega
  · rw [Nat.mul_comm fp.num_tieredslaves fp.num_mports]
    omega
  · unfold apq8064_icc_commit
    dsimp only
    split_ifs <;> simp

/-- C5, as stated, fails: for the shape of the multimedia fabric (13 master ports, 3
slave ports, 3 tiered slaves) the commit computes, and passes to both writes,
`(13 * 3 + 3 + 1) / 2 = 21` words, and `ceil(43 / 2)` is 22. -/
theorem commit_count_not_ceil :
    (apq8064_icc_commit (fun _ _ _ _ => 0) (mk_provider 13 3 3 0)).count = 21 ∧
    spec_ceil_half (13 * 3 + 3 + 1) = 22 ∧
    (apq8064_icc_commit (fun _ _ _ _ => 0) (mk_provider 13 3 3 0)).writes.map
      (fun w => w.2.2.2) = [21, 21] := by
  refine ⟨by decide, ?_, by decide⟩
  rw [spec_ceil_half_eq]

/-- C5 (amended): for every provider shape, an odd slave-port count included, the word
count that `apq8064_icc_commit` computes, and passes to every resource-manager write, is
`(num_mports * num_tieredslaves + num_sports + 1) / 2` by integer division, which is
`ceil((num_mports * num_tieredslaves + num_sports) / 2)`. -/
theorem commit_count_formula (qcom_rpm_write : rpm_state → Nat → List Nat → Nat → Int)
    (fp : apq8064_icc_provider) :
    (apq8064_icc_commit qcom_rpm_write fp).count
      = (fp.num_mports * fp.num_tieredslaves + fp.num_sports + 1) / 2 ∧
    (apq8064_icc_commit qcom_rpm_write fp).count
      = spec_ceil_half (fp.num_mports * fp.num_tieredslaves + fp.num_sports) ∧
    (∀ w ∈ (apq8064_icc_commit qcom_rpm_write fp).writes,
      w.2.2.2 = (apq8064_icc_commit qcom_rpm_write fp).count) := by
  rw [spec_ceil_half_eq, commit_count_eq]
  refine ⟨rfl, rfl, ?_⟩
  unfold apq8064_icc_commit
  dsimp only
  split_ifs <;> simp

/-! ## Table claims of `apq8064_icc_set` -/

/-- C6, as stated, fails: with 2 provider master ports, a master on port 1, a destination
with tiers `[0, 1]`, aggregate average 1,000,000 bytes/s and peak 0, the entries at
indices `0*2+1` and `1*2+1` are both `3`, with bit 15 clear (they were `0xFFFF`). -/
theorem arb_entries_not_tier_1 :
    (apq8064_icc_set .ILP32 (fun _ _ => 0) (mk_provider 2 2 2 0xFFFF) (master_node 1)
        slv_ebi_ch0 1000000 0).map
      (fun r => [r.fp.arb (0 * 2 + 1), r.fp.arb (1 * 2 + 1),
        GET_TIER (r.fp.arb (0 * 2 + 1)), GET_TIER (r.fp.arb (1 * 2 + 1))])
      = some [3, 3, 0, 0] := by
  decide

/-- C6 (amended): every arbitration-table entry that `apq8064_icc_set` writes (for a
destination with explicit tiers: the entry of every pair of a tier position and a source
port that is not skipped) is the word packed with type 1 and has the tier flag, bit 15,
clear; and the call returns whenever the source has a master port and a bus width and the
destination a slave port. -/
theorem arb_entries_tier_flag (abi : Abi) (clk_set_rate : Nat → Nat → Int)
    (fp : apq8064_icc_provider) (src_fn dst_fn : apq8064_icc_node)
    (sum_bw max_peak_bw : Nat) :
    (src_fn.num_mports ≠ 0 → src_fn.buswidth ≠ 0 → dst_fn.num_sports ≠ 0 →
      ∃ r, apq8064_icc_set abi clk_set_rate fp src_fn dst_fn sum_bw max_peak_bw = some r) ∧
    ∀ r, apq8064_icc_set abi clk_set_rate fp src_fn dst_fn sum_bw max_peak_bw = some r →
      ∀ i j, i < dst_fn.num_tiers → j < src_fn.num_mports → dst_fn.tiers ≠ none →
        arb_skip src_fn dst_fn i j = false →
        GET_TIER (r.fp.arb (arb_index fp.num_mports src_fn dst_fn i j)) = 0 ∧
        ∃ tieredbw, r.fp.arb (arb_index fp.num_mports src_fn dst_fn i j)
          = msm_bus_create_bw_tier_pair_bytes abi 1 tieredbw := by
  refine ⟨set_total abi clk_set_rate fp src_fn dst_fn sum_bw max_peak_bw, ?_⟩
  intro r h i j hi hj ht hskip
  obtain ⟨_, htab⟩ := set_some_tables abi clk_set_rate fp src_fn dst_fn sum_bw max_peak_bw r h
  obtain ⟨hit, _, _, _⟩ := set_tables_spec abi src_fn dst_fn _ fp r.fp htab
  obtain ⟨tb, _, hv⟩ := hit (arb_index fp.num_mports src_fn dst_fn i j)
    ⟨i, hi, j, hj, ht, hskip, rfl⟩
  rw [hv]
  exact ⟨create_bytes_type1_tier abi tb, tb, rfl⟩

/-- C7, as stated, fails: in the same scenario the bandwidth-sum entries of the
destination's slave ports 0 and 1 are both `0x8003`, with bit 15 set (they were 0). -/
theorem bwsum_entries_not_tier_2 :
    (apq8064_icc_set .ILP32 (fun _ _ => 0) (mk_provider 2 2 2 0) (master_node 1)
        slv_ebi_ch0 1000000 0).map
      (fun r => [r.fp.bwsum 0, r.fp.bwsum 1, GET_TIER (r.fp.bwsum 0), GET_TIER (r.fp.bwsum 1)])
      = some [0x8003, 0x8003, 1, 1] := by
  decide

/-- C7 (amended): every bandwidth-sum table entry that `apq8064_icc_set` writes (the slot
of every slave port of the destination) is the word packed with type 0 and has the tier
flag, bit 15, set, for every aggregate bandwidth and every destination; and the call
returns whenever the source has a master port and a bus width and the destination a slave
port. -/
theorem bwsum_entries_tier_flag (abi : Abi) (clk_set_rate : Nat → Nat → Int)
    (fp : apq8064_icc_provider) (src_fn dst_fn : apq8064_icc_node)
    (sum_bw max_peak_bw : Nat) :
    (src_fn.num_mports ≠ 0 → src_fn.buswidth ≠ 0 → dst_fn.num_sports ≠ 0 →
      ∃ r, apq8064_icc_set abi clk_set_rate fp src_fn dst_fn sum_bw max_peak_bw = some r) ∧
    ∀ r, apq8064_icc_set abi clk_set_rate fp src_fn dst_fn sum_bw max_peak_bw = some r →
      ∀ i, i < dst_fn.num_sports →
        GET_TIER (r.fp.bwsum (elem dst_fn.sports i)) = 1 ∧
        ∃ interleavedbw, r.fp.bwsum (elem dst_fn.sports i)
          = msm_bus_create_bw_tier_pair_bytes abi 0 interleavedbw := by
  refine ⟨set_total abi clk_set_rate fp src_fn dst_fn sum_bw max_peak_bw, ?_⟩
  intro r h i hi
  obtain ⟨_, htab⟩ := set_some_tables abi clk_set_rate fp src_fn dst_fn sum_bw max_peak_bw r h
  obtain ⟨_, _, hit, _⟩ := set_tables_spec abi src_fn dst_fn _ fp r.fp htab
  obtain ⟨ib, _, hv⟩ := hit (elem dst_fn.sports i) ⟨i, hi, rfl⟩
  have hlt := create_bytes_lt abi 0 ib
  rw [hv, Nat.mod_eq_of_lt hlt]
  exact ⟨create_bytes_type0_tier abi ib, ib, rfl⟩

/-- C8: for a master source (at least one master port, no slave port, a bus width), a
destination with explicit tiers (each fitting the `uint16_t` the driver holds it in) and
`k ≥ 1` slave ports, and an aggregate average below `2 ^ 32` bytes/s, `apq8064_icc_set`
returns, and afterwards the arbitration entry at index
`dst.tiers[t] * provider.num_mports + src.mports[j]` has, for every tier position `t` and
every source port `j`, the 15-bit magnitude
`quantize((aggregate average / src.num_mports) / k)`. -/
theorem arb_magnitude_master (abi : Abi) (clk_set_rate : Nat → Nat → Int)
    (fp : apq8064_icc_provider) (src_fn dst_fn : apq8064_icc_node) (ts : List Nat)
    (sum_bw max_peak_bw : Nat)
    (hm : 1 ≤ src_fn.num_mports) (hs : src_fn.num_sports = 0) (hb : src_fn.buswidth ≠ 0)
    (ht : dst_fn.tiers = some ts) (htier : ∀ t, t < dst_fn.num_tiers → elem ts t < 2 ^ 16)
    (hk : 1 ≤ dst_fn.num_sports) (hsum : sum_bw < 2 ^ 32) :
    ∃ r, apq8064_icc_set abi clk_set_rate fp src_fn dst_fn sum_bw max_peak_bw = some r ∧
      ∀ t j, t < dst_fn.num_tiers → j < src_fn.num_mports →
        msm_bus_get_bw abi (r.fp.arb (elem ts t * fp.num_mports + elem src_fn.mports j))
          = msm_bus_set_bw_bytes abi (sum_bw / src_fn.num_mports / dst_fn.num_sports) := by
  obtain ⟨r, h⟩ := set_total abi clk_set_rate fp src_fn dst_fn sum_bw max_peak_bw
    (by omega) hb (by omega)
  refine ⟨r, h, ?_⟩
  intro t j hlt hj
  obtain ⟨_, htab⟩ := set_some_tables abi clk_set_rate fp src_fn dst_fn sum_bw max_peak_bw r h
  obtain ⟨hit, _, _, _⟩ := set_tables_spec abi src_fn dst_fn _ fp r.fp htab
  have hgw := is_gw_of_master src_fn hs
  have hskip : arb_skip src_fn dst_fn t j = false := by simp [arb_skip, hgw]
  have hidx := arb_index_some fp.num_mports src_fn dst_fn ht t j (htier t hlt)
  obtain ⟨tb, htb, hv⟩ := hit (arb_index fp.num_mports src_fn dst_fn t j)
    ⟨t, hlt, j, hj, by simp [ht], hskip, rfl⟩
  rw [arb_tieredbw_some src_fn dst_fn _ (by omega), hgw] at htb
  simp only [Bool.not_false, Bool.true_or, if_true, Option.some.injEq] at htb
  subst htb
  rw [← hidx, hv]
  apply get_bw_create_bytes
  calc sum_bw / src_fn.num_mports / dst_fn.num_sports
      ≤ sum_bw / src_fn.num_mports := Nat.div_le_self _ _
    _ ≤ sum_bw := Nat.div_le_self _ _
    _ < 2 ^ 32 := hsum

/-- The scenario of the spec: 2 provider master ports, a master on port 1, tiers
`[0, 1]`, 2 slave ports, 1,000,000 bytes/s. -/
theorem arb_magnitude_master_witness :
    ∃ r, apq8064_icc_set .ILP32 (fun _ _ => 0) (mk_provider 2 2 2 0) (master_node 1)
        slv_ebi_ch0 1000000 0 = some r ∧
      ∀ t j, t < slv_ebi_ch0.num_tiers → j < (master_node 1).num_mports →
        msm_bus_get_bw .ILP32
            (r.fp.arb (elem [0, 1] t * (mk_provider 2 2 2 0).num_mports
              + elem (master_node 1).mports j))
          = msm_bus_set_bw_bytes .ILP32
              (1000000 / (master_node 1).num_mports / slv_ebi_ch0.num_sports) :=
  arb_magnitude_master .ILP32 (fun _ _ => 0) (mk_provider 2 2 2 0) (master_node 1)
    slv_ebi_ch0 [0, 1] 1000000 0 (by decide) (by decide) (by decide) rfl (by decide)
    (by decide) (by decide)

/-- C9: for a source with at least one master port (and a bus width), a destination with
`k ≥ 1` slave ports and an aggregate average below `2 ^ 32` bytes/s, `apq8064_icc_set`
returns, and afterwards the bandwidth-sum entry at the slot of every slave port of the
destination has the 15-bit magnitude
`quantize((aggregate average / src.num_mports) / k)`, and every bandwidth-sum slot that
is not a slave port of the destination is unchanged. -/
theorem bwsum_magnitude_and_frame (abi : Abi) (clk_set_rate : Nat → Nat → Int)
    (fp : apq8064_icc_provider) (src_fn dst_fn : apq8064_icc_node)
    (sum_bw max_peak_bw : Nat)
    (hm : 1 ≤ src_fn.num_mports) (hb : src_fn.buswidth ≠ 0)
    (hk : 1 ≤ dst_fn.num_sports) (hsum : sum_bw < 2 ^ 32) :
    ∃ r, apq8064_icc_set abi clk_set_rate fp src_fn dst_fn sum_bw max_peak_bw = some r ∧
      (∀ i, i < dst_fn.num_sports →
        msm_bus_get_bw abi (r.fp.bwsum (elem dst_fn.sports i))
          = msm_bus_set_bw_bytes abi (sum_bw / src_fn.num_mports / dst_fn.num_sports)) ∧
      (∀ slot, (∀ i, i < dst_fn.num_sports → slot ≠ elem dst_fn.sports i) →
        r.fp.bwsum slot = fp.bwsum slot) := by
  obtain ⟨r, h⟩ := set_total abi clk_set_rate fp src_fn dst_fn sum_bw max_peak_bw
    (by omega) hb (by omega)
  refine ⟨r, h, ?_, ?_⟩
  · intro i hi
    obtain ⟨_, htab⟩ :=
      set_some_tables abi clk_set_rate fp src_fn dst_fn sum_bw max_peak_bw r h
    obtain ⟨_, _, hit, _⟩ := set_tables_spec abi src_fn dst_fn _ fp r.fp htab
    obtain ⟨ib, hib, hv⟩ := hit (elem dst_fn.sports i) ⟨i, hi, rfl⟩
    rw [do_div_some _ (by omega)] at hib
    simp only [Option.some.injEq] at hib
    subst hib
    rw [hv, Nat.mod_eq_of_lt (create_bytes_lt abi 0 _)]
    apply get_bw_create_bytes
    calc sum_bw / src_fn.num_mports / dst_fn.num_sports
        ≤ sum_bw / src_fn.num_mports := Nat.div_le_self _ _
      _ ≤ sum_bw := Nat.div_le_self _ _
      _ < 2 ^ 32 := hsum
  · intro slot hslot
    obtain ⟨_, htab⟩ :=
      set_some_tables abi clk_set_rate fp src_fn dst_fn sum_bw max_peak_bw r h
    obtain ⟨_, _, _, miss⟩ := set_tables_spec abi src_fn dst_fn _ fp r.fp htab
    exact miss slot hslot

/-- The same scenario, on a 64-bit `unsigned long`. -/
theorem bwsum_magnitude_and_frame_witness :
    ∃ r, apq8064_icc_set .LP64 (fun _ _ => 0) (mk_provider 2 2 2 0) (master_node 1)
        slv_ebi_ch0 1000000 0 = some r ∧
      (∀ i, i < slv_ebi_ch0.num_sports →
        msm_bus_get_bw .LP64 (r.fp.bwsum (elem slv_ebi_ch0.sports i))
          = msm_bus_set_bw_bytes .LP64
              (1000000 / (master_node 1).num_mports / slv_ebi_ch0.num_sports)) ∧
      (∀ slot, (∀ i, i < slv_ebi_ch0.num_sports → slot ≠ elem slv_ebi_ch0.sports i) →
        r.fp.bwsum slot = (mk_provider 2 2 2 0).bwsum slot) :=
  bwsum_magnitude_and_frame .LP64 (fun _ _ => 0) (mk_provider 2 2 2 0) (master_node 1)
    slv_ebi_ch0 1000000 0 (by decide) (by decide) (by decide) (by decide)

/-- C10: the magnitude of a gateway entry is not the quantized share for a large
aggregate on a 64-bit `unsigned long`.  From `afab_to_mfab` to `slv_ebi_ch0` with 6
provider master ports and an aggregate average of 17,179,870,000 bytes/s, the per-port
share is 8,589,935,000; the quantizer misses its saturation test and returns `0x10000`,
and the entries written at indices 2 and 9 hold the magnitude 0. -/
theorem gateway_magnitude_not_quantize :
    (apq8064_icc_set .LP64 (fun _ _ => 0) (mk_provider 6 5 5 0xFFFF) afab_to_mfab
        slv_ebi_ch0 17179870000 0).map
      (fun r => [msm_bus_get_bw .LP64 (r.fp.arb 2), msm_bus_get_bw .LP64 (r.fp.arb 9)])
      = some [0, 0] ∧
    msm_bus_set_bw_bytes .LP64 (17179870000 / afab_to_mfab.num_mports) = 0x10000 := by
  decide

/-- The interleaving rule of a gateway, which holds for every aggregate: for a gateway
source (at least one master and one slave port, a bus
width) and a destination with explicit tiers (each fitting the `uint16_t` the driver
holds it in) and more than one slave port, `apq8064_icc_set` returns, having written only
the arbitration entries of the pairs with `t == j`: the entry at index
`dst.tiers[t] * provider.num_mports + src.mports[t]`, for `t < min(dst.num_tiers,
src.num_mports)`, is the word packed from `aggregate average / src.num_mports`, not
divided by the destination's slave-port count, and its magnitude is
`quantize(aggregate average / src.num_mports)` when that share is below `2 ^ 32`; every
other arbitration entry is unchanged. -/
theorem gateway_interleaving (abi : Abi) (clk_set_rate : Nat → Nat → Int)
    (fp : apq8064_icc_provider) (src_fn dst_fn : apq8064_icc_node) (ts : List Nat)
    (sum_bw max_peak_bw : Nat)
    (hm : 1 ≤ src_fn.num_mports) (hs : 1 ≤ src_fn.num_sports) (hb : src_fn.buswidth ≠ 0)
    (ht : dst_fn.tiers = some ts) (htier : ∀ t, t < dst_fn.num_tiers → elem ts t < 2 ^ 16)
    (hk : 1 < dst_fn.num_sports) :
    ∃ r, apq8064_icc_set abi clk_set_rate fp src_fn dst_fn sum_bw max_peak_bw = some r ∧
      (∀ t, t < min dst_fn.num_tiers src_fn.num_mports →
        r.fp.arb (elem ts t * fp.num_mports + elem src_fn.mports t)
          = msm_bus_create_bw_tier_pair_bytes abi 1 (sum_bw / src_fn.num_mports) ∧
        (sum_bw / src_fn.num_mports < 2 ^ 32 →
          msm_bus_get_bw abi (r.fp.arb (elem ts t * fp.num_mports + elem src_fn.mports t))
            = msm_bus_set_bw_bytes abi (sum_bw / src_fn.num_mports))) ∧
      (∀ idx, (∀ t, t < min dst_fn.num_tiers src_fn.num_mports →
          idx ≠ elem ts t * fp.num_mports + elem src_fn.mports t) →
        r.fp.arb idx = fp.arb idx) := by
  obtain ⟨r, h⟩ := set_total abi clk_set_rate fp src_fn dst_fn sum_bw max_peak_bw
    (by omega) hb (by omega)
  obtain ⟨_, htab⟩ := set_some_tables abi clk_set_rate fp src_fn dst_fn sum_bw max_peak_bw r h
  obtain ⟨hit, miss, _, _⟩ := set_tables_spec abi src_fn dst_fn _ fp r.fp htab
  have hgw := is_gw_of_ports src_fn hm hs
  have hskip : ∀ i j, arb_skip src_fn dst_fn i j = false ↔ i = j := by
    intro i j
    simp only [arb_skip, hgw, Bool.true_and, gt_iff_lt, hk, decide_True, Bool.and_true,
      decide_eq_false_iff_not, ne_eq, not_not]
  have hval : ∀ t, t < min dst_fn.num_tiers src_fn.num_mports →
      r.fp.arb (elem ts t * fp.num_mports + elem src_fn.mports t)
        = msm_bus_create_bw_tier_pair_bytes abi 1 (sum_bw / src_fn.num_mports) := by
    intro t hlt
    have hidx := arb_index_some fp.num_mports src_fn dst_fn ht t t (htier t (by omega))
    obtain ⟨tb, htb, hv⟩ := hit (arb_index fp.num_mports src_fn dst_fn t t)
      ⟨t, by omega, t, by omega, by simp [ht], (hskip t t).2 rfl, rfl⟩
    rw [arb_tieredbw_some src_fn dst_fn _ (by omega), hgw] at htb
    have hk1 : ¬ dst_fn.num_sports ≤ 1 := by omega
    simp only [Bool.not_true, Bool.false_or, decide_eq_true_eq, hk1, if_false,
      Option.some.injEq] at htb
    subst htb
    rw [← hidx, hv]
  refine ⟨r, h, ?_, ?_⟩
  · intro t hlt
    refine ⟨hval t hlt, ?_⟩
    intro hlt32
    rw [hval t hlt]
    exact get_bw_create_bytes abi 1 hlt32
  · intro idx hne
    apply miss idx
    rintro i j hi hj ⟨_, h2, h3⟩
    have hij := (hskip i j).1 h2
    subst hij
    rw [arb_index_some fp.num_mports src_fn dst_fn ht i i (htier i hi)] at h3
    exact hne i (by omega) h3

/-- The gateway `afab_to_mfab` (ports 2, 3) to `slv_ebi_ch0` (tiers 0, 1) with 6 provider
master ports: exactly the entries 2 and 9 are written. -/
theorem gateway_interleaving_witness :
    (∃ r, apq8064_icc_set .ILP32 (fun _ _ => 0) (mk_provider 6 5 5 0) afab_to_mfab
        slv_ebi_ch0 1000000 0 = some r ∧
      (∀ t, t < min slv_ebi_ch0.num_tiers afab_to_mfab.num_mports →
        r.fp.arb (elem [0, 1] t * (mk_provider 6 5 5 0).num_mports
            + elem afab_to_mfab.mports t)
          = msm_bus_create_bw_tier_pair_bytes .ILP32 1 (1000000 / afab_to_mfab.num_mports) ∧
        (1000000 / afab_to_mfab.num_mports < 2 ^ 32 →
          msm_bus_get_bw .ILP32
              (r.fp.arb (elem [0, 1] t * (mk_provider 6 5 5 0).num_mports
                + elem afab_to_mfab.mports t))
            = msm_bus_set_bw_bytes .ILP32 (1000000 / afab_to_mfab.num_mports))) ∧
      (∀ idx, (∀ t, t < min slv_ebi_ch0.num_tiers afab_to_mfab.num_mports →
          idx ≠ elem [0, 1] t * (mk_provider 6 5 5 0).num_mports
            + elem afab_to_mfab.mports t) →
        r.fp.arb idx = (mk_provider 6 5 5 0).arb idx)) ∧
    (apq8064_icc_set .ILP32 (fun _ _ => 0) (mk_provider 6 5 5 0) afab_to_mfab
        slv_ebi_ch0 1000000 0).map (fun r => (List.range 12).map r.fp.arb)
      = some [0, 0, 3, 0, 0, 0, 0, 0, 0, 3, 0, 0] :=
  ⟨gateway_interleaving .ILP32 (fun _ _ => 0) (mk_provider 6 5 5 0) afab_to_mfab
    slv_ebi_ch0 [0, 1] 1000000 0 (by decide) (by decide) (by decide) rfl (by decide)
    (by decide), by decide⟩

/-! ## Rate claims of `apq8064_icc_set` -/

/-- C11, as stated, fails for a source with two master ports: from `afab_to_mfab` (bus
width 8) with an aggregate average of 1,000,000 bytes/s and peak 0 the derived rate, set
on the node and passed to both bus clocks, is 62,500, and
`max(1,000,000, 0) / 8 = 125,000`, which is below `INT_MAX`. -/
theorem rate_not_max_of_aggregates :
    (apq8064_icc_set .ILP32 (fun _ _ => 0) (mk_provider 6 5 5 0) afab_to_mfab slv_ebi_ch0
        1000000 0).map (fun r => (r.src_fn.rate, r.clk_calls))
      = some (62500, [(0, 62500), (1, 62500)]) ∧
    max 1000000 0 / afab_to_mfab.buswidth = 125000 ∧ 125000 ≤ INT_MAX := by
  decide

/-- C11 (amended): for every aggregate average and peak and every source node with at
least one master port and `buswidth ≥ 1` for which the quotient does not exceed
`INT_MAX`, the rate that `apq8064_icc_set` derives (leaves in `src.rate`, and passes to
`clk_set_rate` for every bus clock when it differs from the old `src.rate`) equals
`max(aggregate average / src.num_mports, aggregate peak) / src.buswidth`; for a source
with one master port that is `max(aggregate average, aggregate peak) / src.buswidth`.
The call returns whenever the destination has a slave port. -/
theorem rate_formula (abi : Abi) (clk_set_rate : Nat → Nat → Int)
    (fp : apq8064_icc_provider) (src_fn dst_fn : apq8064_icc_node)
    (sum_bw max_peak_bw : Nat)
    (hm : 1 ≤ src_fn.num_mports) (hb : 1 ≤ src_fn.buswidth)
    (hq : max (sum_bw / src_fn.num_mports) max_peak_bw / src_fn.buswidth ≤ INT_MAX) :
    (dst_fn.num_sports ≠ 0 →
      ∃ r, apq8064_icc_set abi clk_set_rate fp src_fn dst_fn sum_bw max_peak_bw = some r) ∧
    ∀ r, apq8064_icc_set abi clk_set_rate fp src_fn dst_fn sum_bw max_peak_bw = some r →
      r.src_fn.rate = max (sum_bw / src_fn.num_mports) max_peak_bw / src_fn.buswidth ∧
      (src_fn.rate ≠ max (sum_bw / src_fn.num_mports) max_peak_bw / src_fn.buswidth →
        r.clk_calls = (List.range fp.num_clks).map (fun k =>
          (k, max (sum_bw / src_fn.num_mports) max_peak_bw / src_fn.buswidth))) ∧
      (src_fn.num_mports = 1 →
        r.src_fn.rate = max sum_bw max_peak_bw / src_fn.buswidth) := by
  refine ⟨fun hk => set_total abi clk_set_rate fp src_fn dst_fn sum_bw max_peak_bw
    (by omega) (by omega) hk, ?_⟩
  intro r h
  obtain ⟨_, _, _, _, hsrc, hcalls⟩ :=
    set_some_spec abi clk_set_rate fp src_fn dst_fn sum_bw max_peak_bw r h
  have hmin : min (max (sum_bw / src_fn.num_mports) max_peak_bw / src_fn.buswidth % 2 ^ 32)
      (INT_MAX % 2 ^ 32)
      = max (sum_bw / src_fn.num_mports) max_peak_bw / src_fn.buswidth := by
    unfold INT_MAX at hq ⊢
    generalize max (sum_bw / src_fn.num_mports) max_peak_bw / src_fn.buswidth = q at hq ⊢
    omega
  rw [hmin] at hsrc hcalls
  have hrate : r.src_fn.rate
      = max (sum_bw / src_fn.num_mports) max_peak_bw / src_fn.buswidth := by
    rw [hsrc]
  refine ⟨hrate, ?_, ?_⟩
  · intro hne
    rw [hcalls, if_neg hne]
  · intro h1
    rw [hrate, h1, Nat.div_one]

/-- The gateway `afab_to_mfab` with 1,000,000 bytes/s: the rate is
`max(1,000,000 / 2, 0) / 8`. -/
theorem rate_formula_witness :
    (slv_ebi_ch0.num_sports ≠ 0 →
      ∃ r, apq8064_icc_set .ILP32 (fun _ _ => 0) (mk_provider 6 5 5 0) afab_to_mfab
        slv_ebi_ch0 1000000 0 = some r) ∧
    ∀ r, apq8064_icc_set .ILP32 (fun _ _ => 0) (mk_provider 6 5 5 0) afab_to_mfab
        slv_ebi_ch0 1000000 0 = some r →
      r.src_fn.rate = max (1000000 / afab_to_mfab.num_mports) 0 / afab_to_mfab.buswidth ∧
      (afab_to_mfab.rate ≠ max (1000000 / afab_to_mfab.num_mports) 0 / afab_to_mfab.buswidth →
        r.clk_calls = (List.range (mk_provider 6 5 5 0).num_clks).map (fun k =>
          (k, max (1000000 / afab_to_mfab.num_mports) 0 / afab_to_mfab.buswidth))) ∧
      (afab_to_mfab.num_mports = 1 →
        r.src_fn.rate = max 1000000 0 / afab_to_mfab.buswidth) :=
  rate_formula .ILP32 (fun _ _ => 0) (mk_provider 6 5 5 0) afab_to_mfab slv_ebi_ch0
    1000000 0 (by decide) (by decide) (by decide)

/-- Below `2 ^ 32` the clamp of the rate is the plain minimum with `INT_MAX`. -/
theorem rate_clamp_of_lt (q : Nat) (h : q < 2 ^ 32) :
    min (q % 2 ^ 32) (INT_MAX % 2 ^ 32) = min q INT_MAX := by
  unfold INT_MAX
  omega

/-- C12: the clamp wraps for a quotient of `2 ^ 32` or more.  A master with one port and
bus width 8 and an aggregate average of 34,359,739,000 bytes/s (34,359,739 kB/s) give the
quotient 4,294,967,375, above `INT_MAX`; the rate derived, set on the node and passed to
both bus clocks, is 79, on either width of `unsigned long`. -/
theorem rate_clamp_wraps :
    34359739000 / (master_node 1).num_mports / (master_node 1).buswidth = 4294967375 ∧
    INT_MAX = 2147483647 ∧
    (apq8064_icc_set .ILP32 (fun _ _ => 0) (mk_provider 2 2 2 0) (master_node 1) slv_ebi_ch0
        34359739000 0).map (fun r => (r.src_fn.rate, r.clk_calls))
      = some (79, [(0, 79), (1, 79)]) ∧
    (apq8064_icc_set .LP64 (fun _ _ => 0) (mk_provider 2 2 2 0) (master_node 1) slv_ebi_ch0
        34359739000 0).map (fun r => (r.src_fn.rate, r.clk_calls))
      = some (79, [(0, 79), (1, 79)]) := by
  decide

/-- C13: a second call of `apq8064_icc_set` right after a returning first call, with the
same aggregate input, the same destination and the source node as the first call left
it, returns 0 and issues no `clk_set_rate` call, for every provider state, every
aggregate input and every behaviour of the clocks; and the first call returns whenever
the source has a master port and a bus width and the destination a slave port. -/
theorem rate_noop_on_second_call (abi : Abi) (clk_set_rate clk_set_rate2 : Nat → Nat → Int)
    (fp : apq8064_icc_provider) (src_fn dst_fn : apq8064_icc_node)
    (sum_bw max_peak_bw : Nat) :
    (src_fn.num_mports ≠ 0 → src_fn.buswidth ≠ 0 → dst_fn.num_sports ≠ 0 →
      ∃ r1, apq8064_icc_set abi clk_set_rate fp src_fn dst_fn sum_bw max_peak_bw = some r1) ∧
    ∀ r1, apq8064_icc_set abi clk_set_rate fp src_fn dst_fn sum_bw max_peak_bw = some r1 →
      ∃ r2, apq8064_icc_set abi clk_set_rate2 r1.fp r1.src_fn dst_fn sum_bw max_peak_bw
          = some r2 ∧
        r2.clk_calls = [] ∧ r2.ret = 0 ∧ r2.src_fn = r1.src_fn := by
  refine ⟨set_total abi clk_set_rate fp src_fn dst_fn sum_bw max_peak_bw, ?_⟩
  intro r1 h
  obtain ⟨hm, hb, htab, _, hsrc, _⟩ :=
    set_some_spec abi clk_set_rate fp src_fn dst_fn sum_bw max_peak_bw r1 h
  obtain ⟨fp3, h3⟩ := set_tables_returns_again abi src_fn dst_fn _ fp r1.fp r1.fp htab
  have e1 : r1.src_fn.num_mports = src_fn.num_mports := by rw [hsrc]
  have e2 : r1.src_fn.buswidth = src_fn.buswidth := by rw [hsrc]
  have e3 : r1.src_fn.rate
      = min (max (sum_bw / src_fn.num_mports) max_peak_bw / src_fn.buswidth % 2 ^ 32)
          (INT_MAX % 2 ^ 32) := by rw [hsrc]
  have e4 : apq8064_icc_set_tables abi r1.src_fn dst_fn (sum_bw / src_fn.num_mports) r1.fp
      = some fp3 := by
    rw [← h3]
    simp only [apq8064_icc_set_tables, apq8064_icc_set_arb_body, arb_skip, arb_tieredbw,
      arb_index, IS_GW, hsrc]
  refine ⟨{ fp := fp3, src_fn := r1.src_fn, clk_calls := [], dev_errs := [], ret := 0 },
    ?_, rfl, rfl, rfl⟩
  unfold apq8064_icc_set
  rw [e1, e2, do_div_some _ hm]
  simp only [Option.some_bind]
  rw [e4]
  simp only [Option.some_bind]
  rw [do_div_some _ hb]
  simp only [Option.some_bind]
  rw [if_pos e3]

/-- C14: whenever the derived rate differs from `src.rate`, a returning call of
`apq8064_icc_set` has called `clk_set_rate` exactly once for each of the provider's
`num_clks` bus clocks, in order, with the new rate, whatever each call returned;
afterwards `src.rate` is the new rate and the return value is 0.  The call returns
whenever the source has a master port and a bus width and the destination a slave port. -/
theorem clk_failures_are_not_fatal (abi : Abi) (clk_set_rate : Nat → Nat → Int)
    (fp : apq8064_icc_provider) (src_fn dst_fn : apq8064_icc_node)
    (sum_bw max_peak_bw : Nat) :
    (src_fn.num_mports ≠ 0 → src_fn.buswidth ≠ 0 → dst_fn.num_sports ≠ 0 →
      ∃ r, apq8064_icc_set abi clk_set_rate fp src_fn dst_fn sum_bw max_peak_bw = some r) ∧
    ∀ r, apq8064_icc_set abi clk_set_rate fp src_fn dst_fn sum_bw max_peak_bw = some r →
      src_fn.rate
        ≠ min (max (sum_bw / src_fn.num_mports) max_peak_bw / src_fn.buswidth % 2 ^ 32)
            (INT_MAX % 2 ^ 32) →
      r.clk_calls = (List.range fp.num_clks).map (fun k =>
        (k, min (max (sum_bw / src_fn.num_mports) max_peak_bw / src_fn.buswidth % 2 ^ 32)
          (INT_MAX % 2 ^ 32))) ∧
      r.src_fn.rate
        = min (max (sum_bw / src_fn.num_mports) max_peak_bw / src_fn.buswidth % 2 ^ 32)
            (INT_MAX % 2 ^ 32) ∧
      r.ret = 0 := by
  refine ⟨set_total abi clk_set_rate fp src_fn dst_fn sum_bw max_peak_bw, ?_⟩
  intro r h hne
  obtain ⟨_, _, _, hret, hsrc, hcalls⟩ :=
    set_some_spec abi clk_set_rate fp src_fn dst_fn sum_bw max_peak_bw r h
  refine ⟨?_, ?_, hret⟩
  · rw [hcalls, if_neg hne]
  · rw [hsrc]

/-! ## Failure claims of `apq8064_icc_commit` -/

/-- C15, as stated, fails: when the write tagged ACTIVE returns an error (here -5), the
commit leaves through `goto out`; the only write issued is the ACTIVE one, and the error
is returned. -/
theorem commit_skips_sleep_after_failure :
    (apq8064_icc_commit (fun st _ _ _ => if st = rpm_state.ACTIVE then -5 else 0)
        (mk_provider 6 5 5 0)).writes.map (fun w => w.1) = [rpm_state.ACTIVE] ∧
    (apq8064_icc_commit (fun st _ _ _ => if st = rpm_state.ACTIVE then -5 else 0)
        (mk_provider 6 5 5 0)).ret = -5 := by
  decide

/-- C15 (amended): `apq8064_icc_commit` always issues the write tagged ACTIVE first; when
that write fails the commit returns its error without attempting the write tagged SLEEP,
and when it succeeds the write tagged SLEEP is attempted next, with the same words and
count, and its result is returned. -/
theorem commit_write_order (qcom_rpm_write : rpm_state → Nat → List Nat → Nat → Int)
    (fp : apq8064_icc_provider) :
    (qcom_rpm_write .ACTIVE fp.rpm_id
        ((List.range (apq8064_icc_commit qcom_rpm_write fp).count).map
          (apq8064_icc_commit qcom_rpm_write fp).buf.rpm_data)
        (apq8064_icc_commit qcom_rpm_write fp).count ≠ 0 →
      (apq8064_icc_commit qcom_rpm_write fp).writes.map (fun w => w.1) = [.ACTIVE] ∧
      (apq8064_icc_commit qcom_rpm_write fp).ret
        = qcom_rpm_write .ACTIVE fp.rpm_id
            ((List.range (apq8064_icc_commit qcom_rpm_write fp).count).map
              (apq8064_icc_commit qcom_rpm_write fp).buf.rpm_data)
            (apq8064_icc_commit qcom_rpm_write fp).count) ∧
    (qcom_rpm_write .ACTIVE fp.rpm_id
        ((List.range (apq8064_icc_commit qcom_rpm_write fp).count).map
          (apq8064_icc_commit qcom_rpm_write fp).buf.rpm_data)
        (apq8064_icc_commit qcom_rpm_write fp).count = 0 →
      (apq8064_icc_commit qcom_rpm_write fp).writes.map (fun w => w.1)
        = [.ACTIVE, .SLEEP] ∧
      (apq8064_icc_commit qcom_rpm_write fp).ret
        = qcom_rpm_write .SLEEP fp.rpm_id
            ((List.range (apq8064_icc_commit qcom_rpm_write fp).count).map
              (apq8064_icc_commit qcom_rpm_write fp).buf.rpm_data)
            (apq8064_icc_commit qcom_rpm_write fp).count) := by
  rw [commit_buf_eq, commit_count_eq]
  unfold apq8064_icc_commit
  dsimp only
  constructor
  · intro h
    rw [if_pos h]
    exact ⟨rfl, rfl⟩
  · intro h
    have h' : ¬ qcom_rpm_write .ACTIVE fp.rpm_id
        ((List.range ((fp.num_mports * fp.num_tieredslaves + fp.num_sports + 1) / 2)).map
          (apq8064_icc_commit_pack fp).rpm_data)
        ((fp.num_mports * fp.num_tieredslaves + fp.num_sports + 1) / 2) ≠ 0 := by
      simpa using h
    rw [if_neg h']
    exact ⟨rfl, rfl⟩

/-- C17: for every source with a master port and a bus width, every destination with
`k ≥ 1` slave ports and every aggregate, `apq8064_icc_set` returns; with `s` the
per-source-port share, its slave-port loop makes `k` passes, the un-quantized value
`interleavedbw` of each pass is `s / k`, the slot of the `i`-th slave port holds the word
packed from the `i`-th value, and the sum of the `k` values differs from `s` by less than
`k`: `0 ≤ s - sum < k`. -/
theorem bwsum_share_conservation (abi : Abi) (clk_set_rate : Nat → Nat → Int)
    (fp : apq8064_icc_provider) (src_fn dst_fn : apq8064_icc_node)
    (sum_bw max_peak_bw : Nat)
    (hm : src_fn.num_mports ≠ 0) (hb : src_fn.buswidth ≠ 0) (hk : 1 ≤ dst_fn.num_sports) :
    ∃ r vals,
      apq8064_icc_set abi clk_set_rate fp src_fn dst_fn sum_bw max_peak_bw = some r ∧
      apq8064_icc_set_shares abi src_fn dst_fn (sum_bw / src_fn.num_mports) fp
        = some (r.fp, vals) ∧
      vals.length = dst_fn.num_sports ∧
      (∀ v ∈ vals, v = sum_bw / src_fn.num_mports / dst_fn.num_sports) ∧
      (∀ i, i < dst_fn.num_sports →
        r.fp.bwsum (elem dst_fn.sports i)
          = msm_bus_create_bw_tier_pair_bytes abi 0 (elem vals i) % 2 ^ 16) ∧
      vals.sum ≤ sum_bw / src_fn.num_mports ∧
      sum_bw / src_fn.num_mports - vals.sum < dst_fn.num_sports := by
  have hk0 : dst_fn.num_sports ≠ 0 := by omega
  obtain ⟨r, h⟩ := set_total abi clk_set_rate fp src_fn dst_fn sum_bw max_peak_bw hm hb hk0
  obtain ⟨_, htab⟩ := set_some_tables abi clk_set_rate fp src_fn dst_fn sum_bw max_peak_bw r h
  obtain ⟨_, _, hit, _⟩ := set_tables_spec abi src_fn dst_fn _ fp r.fp htab
  have hsh := set_shares_eq abi src_fn dst_fn (sum_bw / src_fn.num_mports) fp hk0
  rw [htab] at hsh
  refine ⟨r, List.replicate dst_fn.num_sports
    (sum_bw / src_fn.num_mports / dst_fn.num_sports), h, hsh, List.length_replicate _ _,
    fun v hv => List.eq_of_mem_replicate hv, ?_, ?_, ?_⟩
  · intro i hi
    obtain ⟨ib, hib, hv⟩ := hit (elem dst_fn.sports i) ⟨i, hi, rfl⟩
    rw [do_div_some _ hk0] at hib
    simp only [Option.some.injEq] at hib
    subst hib
    rw [hv]
    have e : elem (List.replicate dst_fn.num_sports
        (sum_bw / src_fn.num_mports / dst_fn.num_sports)) i
        = sum_bw / src_fn.num_mports / dst_fn.num_sports := by
      simp [elem, List.getD_eq_getElem?_getD, List.getElem?_replicate, hi]
    rw [e]
  · rw [List.sum_replicate, smul_eq_mul]
    exact Nat.mul_div_le _ _
  · rw [List.sum_replicate, smul_eq_mul]
    have h1 := Nat.mod_lt (sum_bw / src_fn.num_mports) (show 0 < dst_fn.num_sports by omega)
    have h2 := Nat.div_add_mod (sum_bw / src_fn.num_mports) dst_fn.num_sports
    omega

/-- A master on port 1, the destination `slv_ebi_ch0` (2 slave ports) and an aggregate of
1,000,001 bytes/s: the two passes compute 500,000 each, one short of the share. -/
theorem bwsum_share_conservation_witness :
    ((master_node 1).num_mports ≠ 0 ∧ (master_node 1).buswidth ≠ 0 ∧
      1 ≤ slv_ebi_ch0.num_sports) ∧
    (∃ r vals,
      apq8064_icc_set .ILP32 (fun _ _ => 0) (mk_provider 2 2 2 0) (master_node 1)
        slv_ebi_ch0 1000001 0 = some r ∧
      apq8064_icc_set_shares .ILP32 (master_node 1) slv_ebi_ch0
        (1000001 / (master_node 1).num_mports) (mk_provider 2 2 2 0) = some (r.fp, vals) ∧
      vals.length = slv_ebi_ch0.num_sports ∧
      (∀ v ∈ vals, v = 1000001 / (master_node 1).num_mports / slv_ebi_ch0.num_sports) ∧
      (∀ i, i < slv_ebi_ch0.num_sports →
        r.fp.bwsum (elem slv_ebi_ch0.sports i)
          = msm_bus_create_bw_tier_pair_bytes .ILP32 0 (elem vals i) % 2 ^ 16) ∧
      vals.sum ≤ 1000001 / (master_node 1).num_mports ∧
      1000001 / (master_node 1).num_mports - vals.sum < slv_ebi_ch0.num_sports) ∧
    (apq8064_icc_set_shares .ILP32 (master_node 1) slv_ebi_ch0 1000001
        (mk_provider 2 2 2 0)).map (fun st => (st.2, st.1.bwsum 0, st.1.bwsum 1))
      = some ([500000, 500000], 0x8003, 0x8003) :=
  ⟨by decide,
   bwsum_share_conservation .ILP32 (fun _ _ => 0) (mk_provider 2 2 2 0) (master_node 1)
     slv_ebi_ch0 1000001 0 (by decide) (by decide) (by decide),
   by decide⟩

/-- C18: the raw table does not hold the value that was quantized.  For a master on port
1, the destination `slv_ebi_ch0` (tiers `[0, 1]`, 2 slave ports), 2 provider master ports
and 1,000,000 bytes/s, the value packed into `arb[1]` and `arb[3]` is
`tieredbw = 500,000` (quantized: 3), and `actarb[1]` and `actarb[3]` hold 1,000,000, the
per-port share before the division by the slave-port count. -/
theorem actarb_holds_undivided_share :
    arb_tieredbw (master_node 1) slv_ebi_ch0 (1000000 / (master_node 1).num_mports)
      = some 500000 ∧
    msm_bus_create_bw_tier_pair_bytes .ILP32 1 500000 = 3 ∧
    (apq8064_icc_set .ILP32 (fun _ _ => 0) (mk_provider 2 2 2 0) (master_node 1) slv_ebi_ch0
        1000000 0).map
      (fun r => [r.fp.arb 1, r.fp.arb 3, r.fp.actarb 1, r.fp.actarb 3])
      = some [3, 3, 1000000, 1000000] := by
  decide

/-- C19: the stored magnitude does not saturate.  The share 8,589,935,000 (an aggregate
of 8,589,935 kB/s from a master with one port to `slv_ebi_ch1`, which has one slave port)
has `v >> 17 = 0x10000 ≥ 0x7FFF`; the magnitudes stored in `arb[1 * 2 + 1]` and
`bwsum[1]` are 0 on a 64-bit `unsigned long` and 1 on a 32-bit one, not `0x7FFF`. -/
theorem stored_magnitude_wraps :
    0x7FFF ≤ 8589935000 >>> 17 ∧
    (apq8064_icc_set .LP64 (fun _ _ => 0) (mk_provider 2 2 2 0) (master_node 1) slv_ebi_ch1
        8589935000 0).map
      (fun r => [msm_bus_get_bw .LP64 (r.fp.arb (1 * 2 + 1)),
        msm_bus_get_bw .LP64 (r.fp.bwsum 1)]) = some [0, 0] ∧
    (apq8064_icc_set .ILP32 (fun _ _ => 0) (mk_provider 2 2 2 0) (master_node 1) slv_ebi_ch1
        8589935000 0).map
      (fun r => [msm_bus_get_bw .ILP32 (r.fp.arb (1 * 2 + 1)),
        msm_bus_get_bw .ILP32 (r.fp.bwsum 1)]) = some [1, 1] := by
  decide

/-! ## Topology claims -/

/-- C20, as stated, fails: in `apq8064_afab` slave port 1 is listed by `slv_ebi_ch0` and
by `slv_ebi_ch1`, and in `apq8064_sfab` master port 0 is listed by `mas_mmss_fpb` and
`sfab_to_afab` and master port 13 by `mas_crypto` and `mas_adm0_ci`. -/
theorem port_indices_repeat :
    sport_owners apq8064_afab 1 = ["slv_ebi_ch0", "slv_ebi_ch1"] ∧
    mport_owners apq8064_sfab 0 = ["mas_mmss_fpb", "sfab_to_afab"] ∧
    mport_owners apq8064_sfab 13 = ["mas_crypto", "mas_adm0_ci"] ∧
    ¬ (desc_sports apq8064_afab).Nodup ∧ ¬ (desc_mports apq8064_sfab).Nodup := by
  decide

/-- C20 (amended): in `apq8064_mfab` no master-port index and no slave-port index
appears twice; in `apq8064_afab` no master-port index appears twice, and the only
slave-port index that does is 1, shared by the interleaved `slv_ebi_ch0` and
`slv_ebi_ch1`; in `apq8064_sfab` no slave-port index appears twice, and no master-port
index other than 0 and 13 does. -/
theorem port_indices_unique_part :
    (desc_mports apq8064_mfab).Nodup ∧ (desc_sports apq8064_mfab).Nodup ∧
    (desc_mports apq8064_afab).Nodup ∧
    ((desc_sports apq8064_afab).filter (fun p => decide (p ≠ 1))).Nodup ∧
    (desc_sports apq8064_afab).count 1 = 2 ∧
    (desc_sports apq8064_sfab).Nodup ∧
    ((desc_mports apq8064_sfab).filter (fun p => decide (p ≠ 0 ∧ p ≠ 13))).Nodup := by
  decide

/-! ## Codec claims, continued -/

/-- C24: for every type and every two bandwidths (any value of the argument, either
width of `unsigned long`), bit 15 of `msm_bus_create_bw_tier_pair_bytes(type, bw1)`
equals bit 15 of `msm_bus_create_bw_tier_pair_bytes(type, bw2)`: the flag is 1 for type
0 and 0 for every other type, whatever the quantized magnitude. -/
theorem tier_flag_independent_of_bw (abi : Abi) (type bw1 bw2 : Nat) :
    GET_TIER (msm_bus_create_bw_tier_pair_bytes abi type bw1)
      = GET_TIER (msm_bus_create_bw_tier_pair_bytes abi type bw2) ∧
    GET_TIER (msm_bus_create_bw_tier_pair_bytes abi type bw1)
      = if type % 2 ^ 8 = 0 then 1 else 0 := by
  rw [create_bytes_tier abi type bw1, create_bytes_tier abi type bw2]
  exact ⟨rfl, rfl⟩

/-- C29: for all bandwidths `bw1 ≤ bw2` below `2 ^ 32` bytes/s,
`msm_bus_set_bw_bytes(bw1) ≤ msm_bus_set_bw_bytes(bw2)`, on either width of
`unsigned long`. -/
theorem set_bw_bytes_monotone (abi : Abi) (bw1 bw2 : Nat) (h12 : bw1 ≤ bw2)
    (h2 : bw2 < 2 ^ 32) :
    msm_bus_set_bw_bytes abi bw1 ≤ msm_bus_set_bw_bytes abi bw2 := by
  have h1 : bw1 < 2 ^ 32 := by omega
  rw [set_bw_bytes_of_lt abi h1, set_bw_bytes_of_lt abi h2]
  split_ifs <;> omega

/-- A request below one unit and a request of three units and a bit. -/
theorem set_bw_bytes_monotone_witness :
    (1 : Nat) ≤ 500000 ∧ 500000 < 2 ^ 32 ∧
    msm_bus_set_bw_bytes .LP64 1 ≤ msm_bus_set_bw_bytes .LP64 500000 :=
  ⟨by decide, by decide, set_bw_bytes_monotone .LP64 1 500000 (by decide) (by decide)⟩

/-- C30: for every word `w` (every value of the argument, in particular every packed
16-bit word), `msm_bus_set_bw_bytes(msm_bus_get_bw_bytes(w)) == msm_bus_get_bw(w)`, on
either width of `unsigned long`. -/
theorem requantize_is_identity (abi : Abi) (w : Nat) :
    msm_bus_set_bw_bytes abi (msm_bus_get_bw_bytes abi w) = msm_bus_get_bw abi w := by
  rw [get_bw_bytes_eq, get_bw_eq]
  have hm := Nat.mod_lt (to_ulong abi w) (show 0 < 32768 by norm_num)
  have hlt : to_ulong abi w % 32768 * 131072 < 2 ^ 32 := by omega
  rw [set_bw_bytes_of_lt abi hlt]
  split_ifs with h
  · omega
  · omega

/-! ## Topology claims, continued -/

/-- C21, as stated, fails: in `apq8064_mfab` the links list of `mfab_to_afab` holds 3,
`APQ8064_AFAB_TO_MFAB`, which is the id of no node of `apq8064_mfab`. -/
theorem link_leaves_descriptor :
    mfab_to_afab.id ∈ desc_ids apq8064_mfab ∧ mfab_to_afab.links = [3] ∧
    3 ∉ desc_ids apq8064_mfab ∧ desc_links apq8064_mfab = [20, 3] := by
  decide

/-- C21 (amended): in `apq8064_afab` and in `apq8064_sfab` (which has no link) every
identifier in every node's links list is the id of a node of the same descriptor; in
`apq8064_mfab` that holds for every node but the gateway `mfab_to_afab`, whose one link
is the id of `afab_to_mfab`, a node of `apq8064_afab`. -/
theorem link_closure_part :
    (∀ n ∈ apq8064_afab.nodes, ∀ l ∈ n.links, l ∈ desc_ids apq8064_afab) ∧
    (∀ n ∈ apq8064_sfab.nodes, ∀ l ∈ n.links, l ∈ desc_ids apq8064_sfab) ∧
    desc_links apq8064_sfab = [] ∧
    (∀ n ∈ apq8064_mfab.nodes, n.id ≠ mfab_to_afab.id →
      ∀ l ∈ n.links, l ∈ desc_ids apq8064_mfab) ∧
    mfab_to_afab.links = [afab_to_mfab.id] ∧ afab_to_mfab.id ∈ desc_ids apq8064_afab := by
  decide

/-- C22: the probe does not restrict the tiered-slave capacity to the nodes that declare
tiers.  For `apq8064_afab` it derives `num_tieredslaves = 5`, where 1 + the highest
slave-port index among the nodes with tiers is 3; for `apq8064_mfab` 3 against 1; for
`apq8064_sfab` 15 against 4.  The other two capacities are 1 + the highest master-port
index and 1 + the highest slave-port index over all nodes. -/
theorem probe_capacities_of_fabrics :
    apq8064_icc_probe_caps apq8064_afab
      = { num_mports := 6, num_sports := 5, num_tieredslaves := 5 } ∧
    spec_num_tieredslaves apq8064_afab = 3 ∧
    apq8064_icc_probe_caps apq8064_mfab
      = { num_mports := 13, num_sports := 3, num_tieredslaves := 3 } ∧
    spec_num_tieredslaves apq8064_mfab = 1 ∧
    apq8064_icc_probe_caps apq8064_sfab
      = { num_mports := 14, num_sports := 15, num_tieredslaves := 15 } ∧
    spec_num_tieredslaves apq8064_sfab = 4 ∧
    (apq8064_icc_probe_caps apq8064_afab).num_mports = 1 + highest (desc_mports apq8064_afab) ∧
    (apq8064_icc_probe_caps apq8064_afab).num_sports = 1 + highest (desc_sports apq8064_afab) ∧
    (apq8064_icc_probe_caps apq8064_mfab).num_mports = 1 + highest (desc_mports apq8064_mfab) ∧
    (apq8064_icc_probe_caps apq8064_mfab).num_sports = 1 + highest (desc_sports apq8064_mfab) ∧
    (apq8064_icc_probe_caps apq8064_sfab).num_mports = 1 + highest (desc_mports apq8064_sfab) ∧
    (apq8064_icc_probe_caps apq8064_sfab).num_sports = 1 + highest (desc_sports apq8064_sfab) := by
  decide

/-- C27: for each shipped fabric descriptor, with the capacities that
`apq8064_icc_probe` derives from it, and for every pair of its nodes `src` (with at least
one master port) and `dst`, every arbitration index
`dst.tiers[t] * num_mports + src.mports[j]` that `apq8064_icc_set` uses is below
`num_tieredslaves * num_mports`, and every bandwidth-sum slot `dst.sports[i]` is below
`num_sports`. -/
theorem shipped_table_indices_in_range :
    table_indices_in_range apq8064_afab ∧ table_indices_in_range apq8064_mfab ∧
    table_indices_in_range apq8064_sfab := by
  refine ⟨?_, ?_, ?_⟩ <;> unfold table_indices_in_range <;> decide

/-! ## Accesses of the commit -/

/-- C25: the final value of `index` in `apq8064_icc_commit` equals the allocated count
`(num_mports * num_tieredslaves + num_sports + 1) / 2`; the words are written at the
indices `0, 1, ..., count - 1` in that order, so every write is below `count` and every
index below `count` is written exactly once. -/
theorem commit_fills_buffer (qcom_rpm_write : rpm_state → Nat → List Nat → Nat → Int)
    (fp : apq8064_icc_provider) :
    (apq8064_icc_commit qcom_rpm_write fp).count
      = (fp.num_mports * fp.num_tieredslaves + fp.num_sports + 1) / 2 ∧
    (apq8064_icc_commit qcom_rpm_write fp).buf.index
      = (apq8064_icc_commit qcom_rpm_write fp).count ∧
    (apq8064_icc_commit_trace fp).buf = (apq8064_icc_commit qcom_rpm_write fp).buf ∧
    (apq8064_icc_commit_trace fp).writes
      = List.range (apq8064_icc_commit qcom_rpm_write fp).count ∧
    (∀ k ∈ (apq8064_icc_commit_trace fp).writes,
      k < (apq8064_icc_commit qcom_rpm_write fp).count) ∧
    (∀ k, k < (apq8064_icc_commit qcom_rpm_write fp).count →
      (apq8064_icc_commit_trace fp).writes.count k = 1) := by
  have hc := commit_count_eq qcom_rpm_write fp
  have hb := commit_buf_eq qcom_rpm_write fp
  have ht := commit_trace_buf fp
  have hi := commit_pack_index fp
  have hw : (apq8064_icc_commit_trace fp).writes
      = List.range (apq8064_icc_commit qcom_rpm_write fp).count := by
    rw [(commit_trace_spec fp).1, ht, hi, hc]
  refine ⟨hc, ?_, ?_, hw, ?_, ?_⟩
  · rw [hb, hi, hc]
  · rw [ht, hb]
  · intro k hk
    rw [hw] at hk
    exact List.mem_range.mp hk
  · intro k hk
    rw [hw]
    exact List.count_eq_one_of_mem (List.nodup_range _) (List.mem_range.mpr hk)

/-- C26, as stated, fails at its own shape: with `num_mports = 6`, `num_tieredslaves = 5`
and `num_sports = 5` the arbitration table has `A = 30` entries and the last pass of
`apq8064_icc_commit` reads `arb[30]`. -/
theorem commit_reads_arb_at_end :
    (mk_provider 6 5 5 0).num_mports * (mk_provider 6 5 5 0).num_tieredslaves = 30 ∧
    30 ∈ (apq8064_icc_commit_trace (mk_provider 6 5 5 0)).arb_reads ∧
    ¬ (∀ x ∈ (apq8064_icc_commit_trace (mk_provider 6 5 5 0)).arb_reads,
        x < (mk_provider 6 5 5 0).num_mports * (mk_provider 6 5 5 0).num_tieredslaves) := by
  decide

/-- C26 (amended): every index at which `apq8064_icc_commit` reads `bwsum` is below
`num_sports`.  Every index at which it reads `arb` is at most
`A = num_tieredslaves * num_mports`; it is below `A` when `A + num_sports` is even, and
`arb[A]` is read when `A + num_sports` is odd.  With `A ≥ 1`, each 16-bit read of `arb`
lies inside the bytes that the probe allocates for that table, and each read of `bwsum`
inside the bytes allocated for `bwsum`. -/
theorem commit_reads_bounds (abi : Abi) (fp : apq8064_icc_provider) :
    (∀ x ∈ (apq8064_icc_commit_trace fp).bwsum_reads, x < fp.num_sports) ∧
    (∀ x ∈ (apq8064_icc_commit_trace fp).arb_reads,
      x ≤ fp.num_tieredslaves * fp.num_mports) ∧
    ((fp.num_tieredslaves * fp.num_mports + fp.num_sports) % 2 = 0 →
      ∀ x ∈ (apq8064_icc_commit_trace fp).arb_reads,
        x < fp.num_tieredslaves * fp.num_mports) ∧
    ((fp.num_tieredslaves * fp.num_mports + fp.num_sports) % 2 = 1 →
      fp.num_tieredslaves * fp.num_mports ∈ (apq8064_icc_commit_trace fp).arb_reads) ∧
    (1 ≤ fp.num_tieredslaves * fp.num_mports →
      ∀ x ∈ (apq8064_icc_commit_trace fp).arb_reads,
        2 * x + 2 ≤ probe_arb_bytes abi fp.num_tieredslaves fp.num_mports) ∧
    (∀ x ∈ (apq8064_icc_commit_trace fp).bwsum_reads,
      2 * x + 2 ≤ probe_bwsum_bytes abi fp.num_sports) := by
  obtain ⟨_, hb, ha, he, ho⟩ := commit_trace_spec fp
  have hp : 4 ≤ sizeof_ptr abi := by
    cases abi <;> decide
  refine ⟨hb, ha, he, ho, ?_, ?_⟩
  · intro hA x hx
    have h1 := ha x hx
    unfold probe_arb_bytes
    have h2 : 4 * (fp.num_tieredslaves * fp.num_mports)
        ≤ sizeof_ptr abi * (fp.num_tieredslaves * fp.num_mports) :=
      Nat.mul_le_mul_right _ hp
    omega
  · intro x hx
    have h1 := hb x hx
    unfold probe_bwsum_bytes
    have h2 : 4 * fp.num_sports ≤ sizeof_ptr abi * fp.num_sports :=
      Nat.mul_le_mul_right _ hp
    omega

/-! ## Port counts of zero, and destinations without tiers -/

/-- C28: for a destination whose `tiers` is `NULL`, whatever its `num_tiers`, a call of
`apq8064_icc_set` with a source that has a master port and a bus width returns, and a
returning call leaves every entry of `arb` and of `actarb` as it was; of `bwsum` only
the slots of the destination's slave ports can differ, and of the source node only
`rate`. -/
theorem untiered_destination_frame (abi : Abi) (clk_set_rate : Nat → Nat → Int)
    (fp : apq8064_icc_provider) (src_fn dst_fn : apq8064_icc_node)
    (sum_bw max_peak_bw : Nat) (ht : dst_fn.tiers = none) :
    (src_fn.num_mports ≠ 0 → src_fn.buswidth ≠ 0 →
      ∃ r, apq8064_icc_set abi clk_set_rate fp src_fn dst_fn sum_bw max_peak_bw = some r) ∧
    ∀ r, apq8064_icc_set abi clk_set_rate fp src_fn dst_fn sum_bw max_peak_bw = some r →
      (∀ idx, r.fp.arb idx = fp.arb idx) ∧ (∀ idx, r.fp.actarb idx = fp.actarb idx) ∧
      (∀ idx, (∀ i, i < dst_fn.num_sports → ¬ idx = elem dst_fn.sports i) →
        r.fp.bwsum idx = fp.bwsum idx) ∧
      r.src_fn = { src_fn with rate := r.src_fn.rate } := by
  constructor
  · intro hm hb
    obtain ⟨fp2, h2⟩ :=
      (set_tables_untiered abi src_fn dst_fn (sum_bw / src_fn.num_mports) fp ht).1
    unfold apq8064_icc_set
    rw [do_div_some _ hm]
    simp only [Option.some_bind, h2]
    rw [do_div_some _ hb]
    simp only [Option.some_bind]
    split_ifs
    · exact ⟨_, rfl⟩
    · exact ⟨_, rfl⟩
  · intro r h
    obtain ⟨_, _, htab, _, hsrc, _⟩ :=
      set_some_spec abi clk_set_rate fp src_fn dst_fn sum_bw max_peak_bw r h
    obtain ⟨ha, hact⟩ :=
      (set_tables_untiered abi src_fn dst_fn (sum_bw / src_fn.num_mports) fp ht).2 r.fp htab
    refine ⟨fun idx => by rw [ha], fun idx => by rw [hact], ?_, ?_⟩
    · exact (set_tables_spec abi src_fn dst_fn _ fp r.fp htab).2.2.2
    · rw [hsrc]

theorem untiered_destination_frame_witness :
    afab_to_sfab.tiers = none ∧
    ∃ r, apq8064_icc_set Abi.ILP32 (fun _ _ => 0) (mk_provider 6 5 5 7) afab_to_mfab
        afab_to_sfab 4000000 1000000 = some r ∧
      (∀ idx, r.fp.arb idx = 7) ∧ (∀ idx, r.fp.actarb idx = 7) :=
  have t := untiered_destination_frame Abi.ILP32 (fun _ _ => 0) (mk_provider 6 5 5 7)
    afab_to_mfab afab_to_sfab 4000000 1000000 rfl
  have e := t.1 (by decide) (by decide)
  ⟨rfl, e.elim fun r hr => ⟨r, hr, (t.2 r hr).1, (t.2 r hr).2.1⟩⟩

end Apq8064
